import Mathlib

/-!
# Bidirectional path tracing core of `xyz` (Scene, bidirectional evaluator)

A shallow embedding of `src/xyz/core/scene_bidirectionalpathtracing.bak.cpp`.

* `float_t` is embedded as `ℚ` (exact arithmetic; division by zero yields `0`
  in Lean, which is why statements about divisors speak about the divisor and
  not about the quotient).
* `std::size_t` indices are embedded as `Nat`; every index that occurs is
  bounded by the random-walk depth plus two, so no wrap-around is modelled.
* `std::vector<PathVertex>` is a total map `Nat → PathVertex`.
* The collaborators that are not part of the translated file (ray casting,
  BSDFs, camera, light, sample source, vector normalisation, the constant
  `M_1_PI` and the depth `XYZRENDERER_CONFIG_kMaxRandomWalkDepth`) are fields
  of the `Scene` record, i.e. parameters of every definition.  A BSDF sampler
  receives the vertex by pointer, so it is a function on whole vertices.
* The two walk loops `for (;;)` run on fuel and return `Option`; `C5_depth_cap`
  shows that the fuel handed to them is enough.  The counted loops of the two
  evaluators run over the list of values of their loop variable.
* The evaluators carry a record of the `FindIntersection` calls they issue, and
  the walks a label for the exit they took; neither influences the computation.
* `hi::single_stack` is an assignment that is undone at the end of its block.
-/

namespace XYZRenderer

/-! ## Data model -/

/-- Three-component vector of `float_t`. -/
structure float3_t where
  x : ℚ
  y : ℚ
  z : ℚ
deriving DecidableEq, Inhabited

/-- Two-component vector of `float_t` (film position). -/
structure float2_t where
  u : ℚ
  v : ℚ
deriving DecidableEq, Inhabited

namespace float3_t

instance : Neg float3_t := ⟨fun a => ⟨-a.x, -a.y, -a.z⟩⟩
instance : Add float3_t := ⟨fun a b => ⟨a.x + b.x, a.y + b.y, a.z + b.z⟩⟩
instance : Sub float3_t := ⟨fun a b => ⟨a.x - b.x, a.y - b.y, a.z - b.z⟩⟩
instance : HMul float3_t ℚ float3_t := ⟨fun a k => ⟨a.x * k, a.y * k, a.z * k⟩⟩

end float3_t

/-- Tristimulus colour `CIE_XYZ_Color`; products are component-wise. -/
@[ext]
structure CIE_XYZ_Color where
  X : ℚ
  Y : ℚ
  Z : ℚ
deriving DecidableEq, Inhabited

namespace CIE_XYZ_Color

/-- The colour `CIE_XYZ_Color(k)` with all three components equal to `k`. -/
def ofScalar (k : ℚ) : CIE_XYZ_Color := ⟨k, k, k⟩

instance : Zero CIE_XYZ_Color := ⟨ofScalar 0⟩
instance : One CIE_XYZ_Color := ⟨ofScalar 1⟩
instance : Add CIE_XYZ_Color := ⟨fun a b => ⟨a.X + b.X, a.Y + b.Y, a.Z + b.Z⟩⟩
instance : Mul CIE_XYZ_Color := ⟨fun a b => ⟨a.X * b.X, a.Y * b.Y, a.Z * b.Z⟩⟩
instance : HMul CIE_XYZ_Color ℚ CIE_XYZ_Color := ⟨fun a k => ⟨a.X * k, a.Y * k, a.Z * k⟩⟩

instance : AddCommMonoid CIE_XYZ_Color where
  add_assoc a b c := by
    ext
    · exact add_assoc a.X b.X c.X
    · exact add_assoc a.Y b.Y c.Y
    · exact add_assoc a.Z b.Z c.Z
  zero_add a := by
    ext
    · exact zero_add a.X
    · exact zero_add a.Y
    · exact zero_add a.Z
  add_zero a := by
    ext
    · exact add_zero a.X
    · exact add_zero a.Y
    · exact add_zero a.Z
  add_comm a b := by
    ext
    · exact add_comm a.X b.X
    · exact add_comm a.Y b.Y
    · exact add_comm a.Z b.Z
  nsmul := nsmulRec

end CIE_XYZ_Color

/-- Modelled from the spec: `hi::dot`, the Euclidean inner product used for all
cosine terms. -/
def dot (a b : float3_t) : ℚ := a.x * b.x + a.y * b.y + a.z * b.z

/-- Modelled from the spec: `hi::rcp`, the reciprocal. -/
def rcp (a : ℚ) : ℚ := 1 / a

/-- Modelled from the spec: `hi::square_of`. -/
def square_of (a : ℚ) : ℚ := a * a

/-- Modelled from the spec: `hi::fourth_power_of` (the cosine^4 falloff). -/
def fourth_power_of (a : ℚ) : ℚ := a * a * a * a

/-- Kinds returned by `Bsdf::What()`. -/
inductive BsdfType where
  | DIFFUSE
  | MIRROR
  | GLASS
  | LIGHT
deriving DecidableEq, Inhabited

/-- One vertex of a random walk (`geom/PathVertex.hpp`): the fields the
translated file reads or writes.  `pGeometry` is a pointer to the hit surface,
embedded as an optional surface identifier (`none` is `hi::nullptr`). -/
structure PathVertex where
  pGeometry : Option Nat
  vPosition : float3_t
  vIncomingDirection : float3_t
  vOutgoingDirection : float3_t
  vGeometricNormal : float3_t
  vShadingNormal : float3_t
  vTangent : float3_t
  vBinormal : float3_t
  bBackSide : Bool
  bSpecular : Bool
  power : CIE_XYZ_Color
  fBSDFxIPDF : ℚ
  fSamplingPrev : ℚ
  fSamplingNext : ℚ
  fIncomingCosThetaShading : ℚ
  fOutgoingCosThetaGeometric : ℚ
  fGeometricFactor : ℚ
deriving DecidableEq, Inhabited

/-- The record `Intersection` filled in by `FindIntersection`: hit distance,
side flag and the two local frames used by `SetGeometricBasis` and
`SetShadingBasis`. -/
structure Intersection where
  t_max : ℚ
  is_back_side : Bool
  vGeometricNormal : float3_t
  vShadingNormal : float3_t
  vGeometricTangent : float3_t
  vGeometricBinormal : float3_t
  vShadingTangent : float3_t
  vShadingBinormal : float3_t
deriving DecidableEq, Inhabited

/-- Modelled from the spec: `PathVertex::SetGeometricBasis`, which derives the
local frame of the vertex from the geometric normal of the intersection. -/
def PathVertex.SetGeometricBasis (v : PathVertex) (param : Intersection) : PathVertex :=
  { v with
    vGeometricNormal := param.vGeometricNormal
    vShadingNormal := param.vShadingNormal
    vTangent := param.vGeometricTangent
    vBinormal := param.vGeometricBinormal }

/-- Modelled from the spec: `PathVertex::SetShadingBasis`, which derives the
local frame of the vertex from the shading normal of the intersection. -/
def PathVertex.SetShadingBasis (v : PathVertex) (param : Intersection) : PathVertex :=
  { v with
    vGeometricNormal := param.vGeometricNormal
    vShadingNormal := param.vShadingNormal
    vTangent := param.vShadingTangent
    vBinormal := param.vShadingBinormal }

/-- The sample source `IPrimarySample`: a stream of values and a read position. -/
structure IPrimarySample where
  stream : Nat → ℚ
  pos : Nat

/-- The call `sample.next()`: the value read and the advanced source. -/
def IPrimarySample.next (sample : IPrimarySample) : ℚ × IPrimarySample :=
  (sample.stream sample.pos, { sample with pos := sample.pos + 1 })

/-- A surface scattering model: its kind and its two direction samplers, each
of which receives the vertex by pointer (so may rewrite it) and the sample
source by reference, and reports whether a direction was produced. -/
structure Bsdf where
  What : BsdfType
  LightsToCameraScatteringDirection :
    PathVertex → IPrimarySample → Bool × PathVertex × IPrimarySample
  CameraToLightsScatteringDirection :
    PathVertex → IPrimarySample → Bool × PathVertex × IPrimarySample

/-- The camera model `camera_`. -/
structure Camera where
  FluxToRadianceCoefficient : ℚ
  GetConstFactor : ℚ
  GetFilmPosition : float3_t → Option float2_t
  GetPrimaryRayDirection : ℚ → ℚ → float3_t

/-- The scene: everything the evaluator consults but does not define. -/
structure Scene where
  bsdfs_ : Nat → Bsdf
  camera_ : Camera
  /-- The call `pGeometry->bsdf()`. -/
  bsdf : Nat → Nat
  FindIntersection : float3_t → float3_t → Option Nat × Intersection
  GetLightArea : ℚ
  GetLightPowerXYZ : CIE_XYZ_Color
  GetWidth : Nat
  GetHeight : Nat
  ComputeDiffusedVector : ℚ → ℚ → float3_t → float3_t → float3_t → ℚ × float3_t
  SampleLightPosition : ℚ → ℚ → PathVertex → PathVertex
  SampleLensPosition : PathVertex → PathVertex
  /-- The function `hi::normalize`. -/
  normalize : float3_t → float3_t
  /-- The constant `M_1_PI`. -/
  M_1_PI : ℚ
  /-- The constant `XYZRENDERER_CONFIG_kMaxRandomWalkDepth`. -/
  kMaxRandomWalkDepth : Nat

/-- The BSDF kind of the surface `g`: `bsdfs_[g->bsdf()]->What()`. -/
def Scene.kindOf (scene : Scene) (g : Nat) : BsdfType :=
  (scene.bsdfs_ (scene.bsdf g)).What

/-- A vertex array `std::vector<PathVertex>`. -/
abbrev Vertices := Nat → PathVertex

/-- The assignment `vertices[i] = v`. -/
def Vertices.set (vertices : Vertices) (i : Nat) (v : PathVertex) : Vertices :=
  fun j => if j = i then v else vertices j

/-- The output `std::vector<pixel_descriptor_t>`: per slot a pixel index and a
colour. -/
abbrev Pixels := Nat → Nat × CIE_XYZ_Color

/-- The assignment `(*pColors)[i] = d`. -/
def Pixels.set (pixels : Pixels) (i : Nat) (d : Nat × CIE_XYZ_Color) : Pixels :=
  fun j => if j = i then d else pixels j

/-- The conversion `static_cast<std::size_t>` of a non-negative `float_t`. -/
def toSize (a : ℚ) : Nat := ⌊a⌋₊

/-! ## Random walks -/

/-- Why a random walk returned (a label, not program state). -/
inductive WalkExit where
  | noLight
  | miss
  | hitLight
  | backFace
  | depthCap
  | absorbed
deriving DecidableEq, Inhabited

/-- What `BuildLightsPath` leaves behind. -/
structure LightsWalk where
  vertices : Vertices
  sample : IPrimarySample
  exit : WalkExit

/-- Outcome of one pass through a walk loop body. -/
inductive Pass (ρ σ : Type) where
  | stop : ρ → Pass ρ σ
  | next : σ → Pass ρ σ

/-- One pass of the loop body of `BuildLightsPath` entered with loop variable
`s` (source lines 58 to 125). -/
def BuildLightsPath.body (scene : Scene) (s : Nat) (vertices : Vertices)
    (sample : IPrimarySample) : Pass LightsWalk (Vertices × IPrimarySample) :=
  let oldLightPathVertex := vertices s
  let hit := scene.FindIntersection oldLightPathVertex.vPosition
    oldLightPathVertex.vOutgoingDirection
  let param := hit.2
  let new0 : PathVertex := { vertices (s + 1) with pGeometry := hit.1 }
  match hit.1 with
  | none => .stop ⟨vertices.set (s + 1) new0, sample, .miss⟩
  | some g =>
    let pBSDF := scene.bsdfs_ (scene.bsdf g)
    if pBSDF.What = BsdfType.LIGHT then
      .stop ⟨vertices.set (s + 1) { new0 with pGeometry := none }, sample, .hitLight⟩
    else
      let new1 : PathVertex :=
        { new0.SetGeometricBasis param with
          bBackSide := param.is_back_side
          vIncomingDirection := -oldLightPathVertex.vOutgoingDirection }
      let new2 : PathVertex :=
        { new1 with
          fIncomingCosThetaShading := dot new1.vIncomingDirection new1.vShadingNormal }
      if new2.fIncomingCosThetaShading ≤ 0 then
        .stop ⟨vertices.set (s + 1) { new2 with pGeometry := none }, sample, .backFace⟩
      else
        let new3 : PathVertex :=
          { new2 with
            power := oldLightPathVertex.power * oldLightPathVertex.fBSDFxIPDF
            vPosition := oldLightPathVertex.vOutgoingDirection * param.t_max
              + oldLightPathVertex.vPosition
            fGeometricFactor := oldLightPathVertex.fOutgoingCosThetaGeometric
              * new2.fIncomingCosThetaShading / square_of param.t_max }
        let vertices1 := vertices.set (s + 1) new3
        if s + 1 ≥ scene.kMaxRandomWalkDepth then
          .stop ⟨vertices1.set (s + 2) { vertices1 (s + 2) with pGeometry := none },
            sample, .depthCap⟩
        else
          let scattered := pBSDF.LightsToCameraScatteringDirection new3 sample
          let vertices2 := vertices1.set (s + 1) scattered.2.1
          if scattered.1 then
            .next (vertices2, scattered.2.2)
          else
            .stop ⟨vertices2.set (s + 2) { vertices2 (s + 2) with pGeometry := none },
              scattered.2.2, .absorbed⟩

/-- The loop `for (std::size_t s = 1;;)` of `BuildLightsPath`, run for at most
`fuel` passes; `none` means the passes ran out. -/
def BuildLightsPath.loop (scene : Scene) :
    Nat → Nat → Vertices → IPrimarySample → Option LightsWalk
  | 0, _, _, _ => none
  | fuel + 1, s, vertices, sample =>
    match BuildLightsPath.body scene s vertices sample with
    | .stop r => some r
    | .next st => BuildLightsPath.loop scene fuel (s + 1) st.1 st.2

/-- The emission set-up of `BuildLightsPath` (source lines 45 to 56). -/
def BuildLightsPath.emit (scene : Scene) (vertices : Vertices)
    (sample : IPrimarySample) : Vertices × IPrimarySample :=
  let v0 : PathVertex := { vertices 0 with fSamplingNext := rcp scene.GetLightArea }
  let vertices0 := vertices.set 0 v0
  let u1 := sample.next
  let u2 := u1.2.next
  let v1 := vertices0 1
  let diffused := scene.ComputeDiffusedVector u1.1 u2.1 v1.vTangent
    v1.vGeometricNormal v1.vBinormal
  let v1 : PathVertex :=
    { v1 with
      fIncomingCosThetaShading := 1
      fOutgoingCosThetaGeometric := diffused.1
      vOutgoingDirection := diffused.2
      fSamplingPrev := 1
      fSamplingNext := scene.M_1_PI
      fGeometricFactor := 1
      fBSDFxIPDF := 1 }
  (vertices0.set 1 v1, u2.2)

/-- The function `Scene::BuildLightsPath`. -/
def BuildLightsPath (scene : Scene) (vertices : Vertices)
    (sample : IPrimarySample) : Option LightsWalk :=
  if (vertices 1).pGeometry = none then
    some ⟨vertices, sample, .noLight⟩
  else
    let st := BuildLightsPath.emit scene vertices sample
    BuildLightsPath.loop scene (scene.kMaxRandomWalkDepth + 1) 1 st.1 st.2

/-! ## Light subpath to lens: `EvaluatePathS1` -/

/-- Outcome of one pass through a `for` loop body with `break` and `continue`. -/
inductive LoopCtl (σ : Type) where
  | brk : σ → LoopCtl σ
  | cont : σ → LoopCtl σ

/-- A counted `for` loop whose loop variable takes the values of the list in
order, with `break` and `continue`. -/
def forEach {σ : Type} (body : Nat → σ → LoopCtl σ) : List Nat → σ → σ
  | [], st => st
  | i :: rest, st =>
    match body i st with
    | .brk st1 => st1
    | .cont st1 => forEach body rest st1

/-- What `EvaluatePathS1` works on: the light vertices (rewritten temporarily
by `hi::single_stack`), the output slots, and a record of the visibility
queries issued (origin and direction of every `FindIntersection` call). -/
structure S1State where
  lights : Vertices
  pixels : Pixels
  queries : List (float3_t × float3_t)

/-- The weight loop `for (std::size_t i = s; i > 0; --i)` of `EvaluatePathS1`
(source lines 229 to 238), entered with loop variable `i` and the running pair
`(pst, wst)`. -/
def EvaluatePathS1.weightLoop (lights : Vertices) (fGeometricFactor : ℚ) :
    Nat → ℚ × ℚ → ℚ × ℚ
  | 0, acc => acc
  | i + 1, acc =>
    let pst := acc.1 * ((lights (i + 2)).fSamplingPrev / (lights i).fSamplingNext)
    let wst :=
      if (!(lights (i + 1)).bSpecular && !(lights i).bSpecular) = true then
        acc.2 + square_of (pst * fGeometricFactor / (lights (i + 1)).fGeometricFactor)
      else acc.2
    EvaluatePathS1.weightLoop lights fGeometricFactor i (pst, wst)

/-- Modelled from the spec: `hi::single_stack<float_t> stack(ref, v)` with
`ref = vertices[i].fSamplingPrev`; the constructor assigns `v` to `ref`. -/
def Vertices.pushSamplingPrev (vertices : Vertices) (i : Nat) (v : ℚ) : Vertices :=
  vertices.set i { vertices i with fSamplingPrev := v }

/-- Modelled from the spec: `hi::single_stack<float_t> stack(ref, v)` with
`ref = vertices[i].fSamplingNext`; the constructor assigns `v` to `ref`. -/
def Vertices.pushSamplingNext (vertices : Vertices) (i : Nat) (v : ℚ) : Vertices :=
  vertices.set i { vertices i with fSamplingNext := v }

/-- The weight computation of `EvaluatePathS1` (source lines 220 to 240) for
light vertex `s`: the light array after it, and `wst`. -/
def EvaluatePathS1.weight (lights : Vertices) (s : Nat)
    (fFluxToRadianceFactor fGeometricFactor : ℚ) : Vertices × ℚ :=
  let saved := (lights (s + 1)).fSamplingPrev
  let lights1 := lights.pushSamplingPrev (s + 1) fFluxToRadianceFactor
  let acc := EvaluatePathS1.weightLoop lights1 fGeometricFactor s (1, 1)
  let lights2 := lights1.pushSamplingPrev (s + 1) saved
  (lights2, rcp acc.2)

/-- One pass of the loop body of `EvaluatePathS1` for light vertex `s`
(source lines 142 to 248). -/
def EvaluatePathS1.body (scene : Scene) (theEyePathVertex : PathVertex) (s : Nat)
    (st : S1State) : LoopCtl S1State :=
  let theLightPathVertex := st.lights s
  match theLightPathVertex.pGeometry with
  | none => .brk st
  | some g =>
    let theLightPathVertexType := (scene.bsdfs_ (scene.bsdf g)).What
    if theLightPathVertexType = BsdfType.MIRROR ∨ theLightPathVertexType = BsdfType.GLASS then
      .cont st
    else
      let vTheEyeToLightsDirection :=
        scene.normalize (theLightPathVertex.vPosition - theEyePathVertex.vPosition)
      let fOutgoingCosThetaGeometric :=
        -dot vTheEyeToLightsDirection theLightPathVertex.vGeometricNormal
      if fOutgoingCosThetaGeometric ≤ 0 then .cont st
      else
        let fOutgoingCosThetaShading :=
          -dot vTheEyeToLightsDirection theLightPathVertex.vShadingNormal
        if fOutgoingCosThetaShading ≤ 0 then .cont st
        else
          let fIncomingCosThetaShading :=
            dot vTheEyeToLightsDirection theEyePathVertex.vShadingNormal
          if fIncomingCosThetaShading ≤ 0 then .cont st
          else
            match scene.camera_.GetFilmPosition
              (theLightPathVertex.vPosition - theEyePathVertex.vPosition) with
            | none => .cont st
            | some vFilmPosition =>
              let hit := scene.FindIntersection theEyePathVertex.vPosition
                vTheEyeToLightsDirection
              let param := hit.2
              let st1 : S1State :=
                { st with
                  queries := st.queries ++
                    [(theEyePathVertex.vPosition, vTheEyeToLightsDirection)] }
              if hit.1 ≠ theLightPathVertex.pGeometry then .cont st1
              else
                let jx := toSize (vFilmPosition.u * scene.GetWidth)
                let jy := toSize (vFilmPosition.v * scene.GetHeight)
                let j := jy * scene.GetWidth + jx
                let pixels1 := st1.pixels.set (s - 1) (j, (st1.pixels (s - 1)).2)
                let fFluxToRadianceFactor := scene.camera_.FluxToRadianceCoefficient
                  / fourth_power_of fIncomingCosThetaShading
                let fGeometricFactor := fIncomingCosThetaShading
                  * fOutgoingCosThetaGeometric / square_of param.t_max
                let weighted := EvaluatePathS1.weight st1.lights s fFluxToRadianceFactor
                  fGeometricFactor
                let wst := weighted.2
                let colour := theLightPathVertex.power * theEyePathVertex.power
                  * (fFluxToRadianceFactor * fGeometricFactor * scene.M_1_PI * wst)
                .cont
                  { lights := weighted.1
                    pixels := pixels1.set (s - 1) ((pixels1 (s - 1)).1, colour)
                    queries := st1.queries }

/-- The function `Scene::EvaluatePathS1`: the loop
`for (std::size_t s = 2; s < kMaxRandomWalkDepth; ++s)`. -/
def EvaluatePathS1 (scene : Scene) (lightsPathVertices : Vertices)
    (theEyePathVertex : PathVertex) (pColors : Pixels) : S1State :=
  forEach (EvaluatePathS1.body scene theEyePathVertex)
    (List.range' 2 (scene.kMaxRandomWalkDepth - 2))
    ⟨lightsPathVertices, pColors, []⟩

/-! ## Eye subpath: `BuildTheEyePath` -/

/-- What `BuildTheEyePath` leaves behind. -/
structure TheEyeWalk where
  vertices : Vertices
  sample : IPrimarySample
  colour : CIE_XYZ_Color
  exit : WalkExit

/-- The weight loop `for (std::size_t i = t; i > 1; --i)` of the direct-hit
branch of `BuildTheEyePath` (source lines 348 to 357); the first argument is
`i - 1`. -/
def BuildTheEyePath.weightLoop (theEye : Vertices) : Nat → ℚ × ℚ → ℚ × ℚ
  | 0, acc => acc
  | n + 1, acc =>
    let pst := acc.1 * ((theEye (n + 3)).fSamplingNext / (theEye (n + 1)).fSamplingPrev)
    let wst :=
      if (!(theEye (n + 2)).bSpecular && !(theEye (n + 1)).bSpecular) = true then
        acc.2 + square_of (pst / (theEye (n + 2)).fGeometricFactor)
      else acc.2
    BuildTheEyePath.weightLoop theEye n (pst, wst)

/-- The camera set-up of `BuildTheEyePath` (source lines 259 to 274). -/
def BuildTheEyePath.primary (scene : Scene) (x y : ℚ) (vertices : Vertices) : Vertices :=
  let v1 := vertices 1
  let v1 : PathVertex :=
    { v1 with vIncomingDirection := scene.camera_.GetPrimaryRayDirection x y }
  let v1 : PathVertex :=
    { v1 with
      power := 1
      fIncomingCosThetaShading := dot v1.vIncomingDirection v1.vShadingNormal
      fOutgoingCosThetaGeometric := 1 }
  let v1 : PathVertex :=
    { v1 with
      fSamplingPrev := scene.camera_.GetConstFactor
        / fourth_power_of v1.fIncomingCosThetaShading
      fSamplingNext := 1
      fGeometricFactor := 1
      fBSDFxIPDF := 1 }
  vertices.set 1 v1

/-- The weight computation of the direct-hit branch of `BuildTheEyePath`
(source lines 336 to 360): the eye array after it, and `wst`. -/
def BuildTheEyePath.directWeight (scene : Scene) (t : Nat) (vertices : Vertices) :
    Vertices × ℚ :=
  if t > 2 then
    let w1 := vertices.set (t + 1)
      { vertices (t + 1) with fSamplingNext := rcp scene.GetLightArea }
    let w2 := w1.set (t + 1) { w1 (t + 1) with fSamplingPrev := 1 }
    let w3 := w2.set (t + 1) { w2 (t + 1) with fSamplingNext := scene.M_1_PI }
    let acc := BuildTheEyePath.weightLoop w3 (t - 1) (1, 1)
    (w3, rcp acc.2)
  else (vertices, 1)

/-- The direct-hit branch of `BuildTheEyePath` (source lines 334 to 366) for a
hit that is not on the back side: the vertices and the colour after it. -/
def BuildTheEyePath.directHit (scene : Scene) (theLightsPathVertex : PathVertex)
    (t : Nat) (vertices : Vertices) (colour : CIE_XYZ_Color) :
    Vertices × CIE_XYZ_Color :=
  let weighted := BuildTheEyePath.directWeight scene t vertices
  (weighted.1,
    colour + theLightsPathVertex.power * (weighted.1 (t + 1)).power
      * (weighted.2 * scene.M_1_PI * rcp scene.GetLightArea))

/-- One pass of the loop body of `BuildTheEyePath` entered with loop variable
`t` (source lines 276 to 383). -/
def BuildTheEyePath.body (scene : Scene) (theLightsPathVertex : PathVertex) (t : Nat)
    (vertices : Vertices) (colour : CIE_XYZ_Color) (sample : IPrimarySample) :
    Pass TheEyeWalk (Vertices × IPrimarySample) :=
  let oldTheEyePathVertex := vertices t
  let hit := scene.FindIntersection oldTheEyePathVertex.vPosition
    oldTheEyePathVertex.vIncomingDirection
  let param := hit.2
  let new0 : PathVertex := { vertices (t + 1) with pGeometry := hit.1 }
  match hit.1 with
  | none => .stop ⟨vertices.set (t + 1) new0, sample, colour, .miss⟩
  | some g =>
    let new1 : PathVertex :=
      { new0.SetShadingBasis param with
        bBackSide := param.is_back_side
        vOutgoingDirection := -oldTheEyePathVertex.vIncomingDirection }
    let fOutgoingCosThetaShading := dot new1.vOutgoingDirection new1.vShadingNormal
    if fOutgoingCosThetaShading ≤ 0 then
      .stop ⟨vertices.set (t + 1) { new1 with pGeometry := none }, sample, colour, .backFace⟩
    else
      let new2 : PathVertex :=
        { new1 with
          power := oldTheEyePathVertex.power * oldTheEyePathVertex.fBSDFxIPDF
          vPosition := oldTheEyePathVertex.vIncomingDirection * param.t_max
            + oldTheEyePathVertex.vPosition
          fOutgoingCosThetaGeometric := dot new1.vOutgoingDirection new1.vGeometricNormal }
      let new3 : PathVertex :=
        { new2 with
          fGeometricFactor := new2.fOutgoingCosThetaGeometric
            * oldTheEyePathVertex.fIncomingCosThetaShading / square_of param.t_max }
      let vertices1 := vertices.set (t + 1) new3
      let pBSDF := scene.bsdfs_ (scene.bsdf g)
      if pBSDF.What = BsdfType.LIGHT then
        let lit : Vertices × CIE_XYZ_Color :=
          if !new3.bBackSide then
            BuildTheEyePath.directHit scene theLightsPathVertex t vertices1 colour
          else (vertices1, colour)
        .stop ⟨lit.1.set (t + 1) { lit.1 (t + 1) with pGeometry := none },
          sample, lit.2, .hitLight⟩
      else if t + 1 ≥ scene.kMaxRandomWalkDepth then
        .stop ⟨vertices1.set (t + 2) { vertices1 (t + 2) with pGeometry := none },
          sample, colour, .depthCap⟩
      else
        let scattered := pBSDF.CameraToLightsScatteringDirection new3 sample
        let vertices2 := vertices1.set (t + 1) scattered.2.1
        if scattered.1 then
          .next (vertices2, scattered.2.2)
        else
          .stop ⟨vertices2.set (t + 2) { vertices2 (t + 2) with pGeometry := none },
            scattered.2.2, colour, .absorbed⟩

/-- The loop `for (std::size_t t = 1;;)` of `BuildTheEyePath`, run for at most
`fuel` passes; `none` means the passes ran out. -/
def BuildTheEyePath.loop (scene : Scene) (theLightsPathVertex : PathVertex)
    (colour : CIE_XYZ_Color) :
    Nat → Nat → Vertices → IPrimarySample → Option TheEyeWalk
  | 0, _, _, _ => none
  | fuel + 1, t, vertices, sample =>
    match BuildTheEyePath.body scene theLightsPathVertex t vertices colour sample with
    | .stop r => some r
    | .next st => BuildTheEyePath.loop scene theLightsPathVertex colour fuel (t + 1) st.1 st.2

/-- The function `Scene::BuildTheEyePath`. -/
def BuildTheEyePath (scene : Scene) (x y : ℚ) (theLightsPathVertex : PathVertex)
    (theEyePathVertices : Vertices) (pColor : CIE_XYZ_Color)
    (sample : IPrimarySample) : Option TheEyeWalk :=
  BuildTheEyePath.loop scene theLightsPathVertex pColor
    (scene.kMaxRandomWalkDepth + 1) 1
    (BuildTheEyePath.primary scene x y theEyePathVertices) sample

/-! ## General connections: `EvaluatePathST` -/

/-- What `EvaluatePathST` works on: both vertex arrays (rewritten temporarily
by `hi::single_stack`), the colour of the current pixel, and a record of the
occlusion queries issued. -/
structure STState where
  lights : Vertices
  theEye : Vertices
  colour : CIE_XYZ_Color
  queries : List (float3_t × float3_t)

/-- The light-side weight loop `for (std::size_t i = s; i > 0; --i)` of
`EvaluatePathST` (source lines 485 to 495). -/
def EvaluatePathST.lightsLoop (lights : Vertices) (fGeometricFactor : ℚ) :
    Nat → ℚ × ℚ → ℚ × ℚ
  | 0, acc => acc
  | i + 1, acc =>
    let pst := acc.1 * ((lights (i + 2)).fSamplingPrev / (lights i).fSamplingNext)
    let wst :=
      if (!(lights (i + 1)).bSpecular && !(lights i).bSpecular) = true then
        acc.2 + square_of (pst * fGeometricFactor / (lights (i + 1)).fGeometricFactor)
      else acc.2
    EvaluatePathST.lightsLoop lights fGeometricFactor i (pst, wst)

/-- The eye-side weight loop `for (std::size_t i = t; i > 1; --i)` of
`EvaluatePathST` (source lines 505 to 516); the first numeric argument is
`i - 1`. -/
def EvaluatePathST.theEyeLoop (theEye : Vertices) (fGeometricFactor : ℚ) :
    Nat → ℚ × ℚ → ℚ × ℚ
  | 0, acc => acc
  | n + 1, acc =>
    let pst := acc.1 * ((theEye (n + 3)).fSamplingNext / (theEye (n + 1)).fSamplingPrev)
    let wst :=
      if (!(theEye (n + 2)).bSpecular && !(theEye (n + 1)).bSpecular) = true then
        acc.2 + square_of (pst * fGeometricFactor / (theEye (n + 2)).fGeometricFactor)
      else acc.2
    EvaluatePathST.theEyeLoop theEye fGeometricFactor n (pst, wst)

/-- The weight computation of `EvaluatePathST` (source lines 473 to 518) for the
pair `(s, t)` with connection geometric factor `fGeometricFactor`: both vertex
arrays after it, and `wst`. -/
def EvaluatePathST.weight (scene : Scene) (lights theEye : Vertices) (s t : Nat)
    (fGeometricFactor : ℚ) : Vertices × Vertices × ℚ :=
  let savedPrev := (lights (s + 1)).fSamplingPrev
  let lights1 := lights.pushSamplingPrev (s + 1) scene.M_1_PI
  let acc1 := EvaluatePathST.lightsLoop lights1 fGeometricFactor s (1, 1)
  let lights2 := lights1.pushSamplingPrev (s + 1) savedPrev
  let savedNext := (theEye (t + 1)).fSamplingNext
  let theEye1 := theEye.pushSamplingNext (t + 1) scene.M_1_PI
  let acc2 := EvaluatePathST.theEyeLoop theEye1 fGeometricFactor (t - 1) (1, acc1.2)
  let theEye2 := theEye1.pushSamplingNext (t + 1) savedNext
  (lights2, theEye2, rcp acc2.2)

/-- One pass of the inner loop body of `EvaluatePathST` for the pair `(s, t)`
(source lines 413 to 525). -/
def EvaluatePathST.inner (scene : Scene) (t : Nat) (s : Nat) (st : STState) :
    LoopCtl STState :=
  let theEyePathVertex := st.theEye t
  let theLightPathVertex := st.lights s
  match theLightPathVertex.pGeometry with
  | none => .brk st
  | some g =>
    let theLightPathVertexType := (scene.bsdfs_ (scene.bsdf g)).What
    if theLightPathVertexType = BsdfType.MIRROR ∨ theLightPathVertexType = BsdfType.GLASS then
      .cont st
    else
      let vLightsToTheEyeDirection :=
        scene.normalize (theEyePathVertex.vPosition - theLightPathVertex.vPosition)
      let fOutgoingCosThetaGeometric :=
        dot vLightsToTheEyeDirection theLightPathVertex.vGeometricNormal
      if fOutgoingCosThetaGeometric ≤ 0 then .cont st
      else
        let fOutgoingCosThetaShading :=
          dot vLightsToTheEyeDirection theLightPathVertex.vShadingNormal
        if fOutgoingCosThetaShading ≤ 0 then .cont st
        else
          let fIncomingCosThetaGeometric :=
            -dot vLightsToTheEyeDirection theEyePathVertex.vGeometricNormal
          if fIncomingCosThetaGeometric ≤ 0 then .cont st
          else
            let fIncomingCosThetaShading :=
              -dot vLightsToTheEyeDirection theEyePathVertex.vShadingNormal
            if fIncomingCosThetaShading ≤ 0 then .cont st
            else
              let hit := scene.FindIntersection theLightPathVertex.vPosition
                vLightsToTheEyeDirection
              let param := hit.2
              let st1 : STState :=
                { st with
                  queries := st.queries ++
                    [(theLightPathVertex.vPosition, vLightsToTheEyeDirection)] }
              if hit.1 ≠ theEyePathVertex.pGeometry then .cont st1
              else
                let fGeometricFactor := fIncomingCosThetaShading
                  * fOutgoingCosThetaGeometric / square_of param.t_max
                let weighted := EvaluatePathST.weight scene st1.lights st1.theEye s t
                  fGeometricFactor
                let wst := weighted.2.2
                .cont
                  { lights := weighted.1
                    theEye := weighted.2.1
                    colour := st1.colour + theLightPathVertex.power * theEyePathVertex.power
                      * (fGeometricFactor * scene.M_1_PI * scene.M_1_PI * wst)
                    queries := st1.queries }

/-- One pass of the outer loop body of `EvaluatePathST` for eye vertex `t`
(source lines 395 to 527); the inner loop is
`for (std::size_t s = 1; (s + t - 1) < kMaxRandomWalkDepth; ++s)`. -/
def EvaluatePathST.outer (scene : Scene) (t : Nat) (st : STState) : LoopCtl STState :=
  let theEyePathVertex := st.theEye t
  match theEyePathVertex.pGeometry with
  | none => .brk st
  | some g =>
    let theEyePathVertexType := (scene.bsdfs_ (scene.bsdf g)).What
    if theEyePathVertexType = BsdfType.MIRROR ∨ theEyePathVertexType = BsdfType.GLASS then
      .cont st
    else
      .cont (forEach (EvaluatePathST.inner scene t)
        (List.range' 1 (scene.kMaxRandomWalkDepth - t)) st)

/-- The function `Scene::EvaluatePathST`: the outer loop
`for (std::size_t t = 2; t < kMaxRandomWalkDepth; ++t)`. -/
def EvaluatePathST (scene : Scene) (lightsPathVertices theEyePathVertices : Vertices)
    (pColor : CIE_XYZ_Color) : STState :=
  forEach (EvaluatePathST.outer scene)
    (List.range' 2 (scene.kMaxRandomWalkDepth - 2))
    ⟨lightsPathVertices, theEyePathVertices, pColor, []⟩

/-! ## One pixel sample: `EvaluateBidirectionalPathTracing` -/

/-- What one pixel sample leaves behind. -/
structure Evaluation where
  pixels : Pixels
  lights : Vertices
  theEye : Vertices
  sample : IPrimarySample

/-- The function `Scene::EvaluateBidirectionalPathTracing`. -/
def EvaluateBidirectionalPathTracing (scene : Scene) (x y : ℚ) (pColors : Pixels)
    (lightsPathVertices theEyePathVertices : Vertices) (sample : IPrimarySample) :
    Option Evaluation :=
  let pColors0 := pColors.set 0 ((pColors 0).1, CIE_XYZ_Color.ofScalar 0)
  let u1 := sample.next
  let u2 := u1.2.next
  let l1 := lightsPathVertices.set 1
    (scene.SampleLightPosition u1.1 u2.1 (lightsPathVertices 1))
  let l2 := l1.set 1 { l1 1 with power := scene.GetLightPowerXYZ }
  let l3 := l2.set 2 { l2 2 with pGeometry := none }
  let e1 := theEyePathVertices.set 1 (scene.SampleLensPosition (theEyePathVertices 1))
  match BuildLightsPath scene l3 u2.2 with
  | none => none
  | some lw =>
    let s1 := EvaluatePathS1 scene lw.vertices (e1 1) pColors0
    match BuildTheEyePath scene x y (s1.lights 1) e1 (s1.pixels 0).2 lw.sample with
    | none => none
    | some ew =>
      let st := EvaluatePathST scene s1.lights ew.vertices ew.colour
      some
        { pixels := s1.pixels.set 0 ((s1.pixels 0).1, st.colour)
          lights := st.lights
          theEye := st.theEye
          sample := ew.sample }

/-- The ray `BuildLightsPath` casts from light vertex `s`. -/
abbrev lightsRay (scene : Scene) (vertices : Vertices) (s : Nat) : Option Nat × Intersection :=
  scene.FindIntersection (vertices s).vPosition (vertices s).vOutgoingDirection

/-- The ray `BuildTheEyePath` casts from eye vertex `t`. -/
abbrev theEyeRay (scene : Scene) (vertices : Vertices) (t : Nat) : Option Nat × Intersection :=
  scene.FindIntersection (vertices t).vPosition (vertices t).vIncomingDirection

/-- The state a loop pass hands on, whether it breaks or continues. -/
def LoopCtl.state {σ : Type} : LoopCtl σ → σ
  | .brk st => st
  | .cont st => st

/-- The light array a pass of `BuildLightsPath` leaves behind. -/
def BuildLightsPath.after : Pass LightsWalk (Vertices × IPrimarySample) → Vertices
  | .stop r => r.vertices
  | .next st => st.1

/-- The eye array a pass of `BuildTheEyePath` leaves behind. -/
def BuildTheEyePath.after : Pass TheEyeWalk (Vertices × IPrimarySample) → Vertices
  | .stop r => r.vertices
  | .next st => st.1

/-! ## Closed forms named in the specification -/

/-- The running ratio `P_i` of the light side for a connection at light vertex
`s`: the product over `k = i..s` of `fSamplingPrev(k+1) / fSamplingNext(k-1)`,
where `fSamplingPrev(s+1)` is replaced by `last`. -/
def lightsRatio (lights : Vertices) (last : ℚ) (s i : Nat) : ℚ :=
  ∏ k in Finset.Icc i s,
    (if k = s then last else (lights (k + 1)).fSamplingPrev) / (lights (k - 1)).fSamplingNext

/-- The light-side sum `A`: over `i = s` down to `1` with neither light vertex
`i` nor `i-1` specular, of `(P_i * G / G_light(i))^2`. -/
def lightsTerms (lights : Vertices) (last G : ℚ) (s : Nat) : ℚ :=
  ∑ i in (Finset.Icc 1 s).filter
      (fun i => (lights i).bSpecular = false ∧ (lights (i - 1)).bSpecular = false),
    (lightsRatio lights last s i * G / (lights i).fGeometricFactor) ^ 2

/-- The running ratio `Q_i` of the eye side for a connection at eye vertex `t`:
the product over `k = i..t` of `fSamplingNext(k+1) / fSamplingPrev(k-1)`, where
`fSamplingNext(t+1)` is replaced by `last`. -/
def theEyeRatio (theEye : Vertices) (last : ℚ) (t i : Nat) : ℚ :=
  ∏ k in Finset.Icc i t,
    (if k = t then last else (theEye (k + 1)).fSamplingNext) / (theEye (k - 1)).fSamplingPrev

/-- The eye-side sum `B`: over `i = t` down to `2` with neither eye vertex `i`
nor `i-1` specular, of `(Q_i * G / G_eye(i))^2`. -/
def theEyeTerms (theEye : Vertices) (last G : ℚ) (t : Nat) : ℚ :=
  ∑ i in (Finset.Icc 2 t).filter
      (fun i => (theEye i).bSpecular = false ∧ (theEye (i - 1)).bSpecular = false),
    (theEyeRatio theEye last t i * G / (theEye i).fGeometricFactor) ^ 2

/-- A vertex that may be the endpoint of a connection: present, and on a
surface that is neither MIRROR nor GLASS. -/
def Scene.connectable (scene : Scene) (v : PathVertex) : Bool :=
  match v.pGeometry with
  | none => false
  | some g => decide (scene.kindOf g ≠ BsdfType.MIRROR ∧ scene.kindOf g ≠ BsdfType.GLASS)

/-- The walk that filled `vertices` is still running at index `i`: no vertex
of index `a..i` is `none` (the evaluators start at `a` and leave their loop at
the first `none`). -/
def walked (vertices : Vertices) (a i : Nat) : Prop :=
  ∀ j ∈ Finset.Icc a i, (vertices j).pGeometry ≠ none

instance (vertices : Vertices) (a i : Nat) : Decidable (walked vertices a i) := by
  unfold walked; infer_instance

/-- Direction of the connection from light vertex `l` to eye vertex `e`. -/
def stDirection (scene : Scene) (l e : PathVertex) : float3_t :=
  scene.normalize (e.vPosition - l.vPosition)

/-- The pair of endpoints `(l, e)` is accepted by the general evaluator: both
present and non-specular, all four cosines strictly positive, and the occlusion
ray from `l` returns the surface of `e`. -/
def stAccepts (scene : Scene) (l e : PathVertex) : Prop :=
  scene.connectable l = true ∧ scene.connectable e = true
  ∧ 0 < dot (stDirection scene l e) l.vGeometricNormal
  ∧ 0 < dot (stDirection scene l e) l.vShadingNormal
  ∧ 0 < -dot (stDirection scene l e) e.vGeometricNormal
  ∧ 0 < -dot (stDirection scene l e) e.vShadingNormal
  ∧ (scene.FindIntersection l.vPosition (stDirection scene l e)).1 = e.pGeometry

instance (scene : Scene) (l e : PathVertex) : Decidable (stAccepts scene l e) := by
  unfold stAccepts; infer_instance

/-- The connection geometric factor
`G = cosShading_eye * cosGeometric_light / distance^2`. -/
def stGeometricFactor (scene : Scene) (l e : PathVertex) : ℚ :=
  (-dot (stDirection scene l e) e.vShadingNormal)
    * dot (stDirection scene l e) l.vGeometricNormal
    / (scene.FindIntersection l.vPosition (stDirection scene l e)).2.t_max ^ 2

/-- The weight `w(s,t) = 1 / (1 + A + B)` of the general evaluator. -/
def stWeight (scene : Scene) (lights theEye : Vertices) (s t : Nat) (G : ℚ) : ℚ :=
  1 / (1 + lightsTerms lights scene.M_1_PI G s + theEyeTerms theEye scene.M_1_PI G t)

/-- What an accepted pair `(s, t)` adds to the colour of the current pixel:
`power_light(s) * power_eye(t) * G * (1/pi) * (1/pi) * w(s,t)`. -/
def stContribution (scene : Scene) (lights theEye : Vertices) (s t : Nat) : CIE_XYZ_Color :=
  (lights s).power * (theEye t).power
    * (stGeometricFactor scene (lights s) (theEye t) * scene.M_1_PI * scene.M_1_PI
      * stWeight scene lights theEye s t (stGeometricFactor scene (lights s) (theEye t)))

/-- The summand of the pair `(s, t)`: its contribution when both walks reach
the endpoints and the pair is accepted, nothing otherwise. -/
def stTerm (scene : Scene) (lights theEye : Vertices) (s t : Nat) : CIE_XYZ_Color :=
  if walked theEye 2 t ∧ walked lights 1 s ∧ stAccepts scene (lights s) (theEye t) then
    stContribution scene lights theEye s t
  else 0

/-- Direction from the lens vertex `eye` to light vertex `l`. -/
def s1Direction (scene : Scene) (l eye : PathVertex) : float3_t :=
  scene.normalize (l.vPosition - eye.vPosition)

/-- Light vertex `l` is accepted by `EvaluatePathS1`: present and non-specular,
three cosines strictly positive, a film position returned by the camera, and
the visibility ray from the lens returns the surface of `l`. -/
def s1Accepts (scene : Scene) (l eye : PathVertex) : Prop :=
  scene.connectable l = true
  ∧ 0 < -dot (s1Direction scene l eye) l.vGeometricNormal
  ∧ 0 < -dot (s1Direction scene l eye) l.vShadingNormal
  ∧ 0 < dot (s1Direction scene l eye) eye.vShadingNormal
  ∧ (scene.camera_.GetFilmPosition (l.vPosition - eye.vPosition)).isSome = true
  ∧ (scene.FindIntersection eye.vPosition (s1Direction scene l eye)).1 = l.pGeometry

instance (scene : Scene) (l eye : PathVertex) : Decidable (s1Accepts scene l eye) := by
  unfold s1Accepts; infer_instance

/-- The response factor `R = fluxToRadianceCoefficient / cosIn^4`. -/
def s1Response (scene : Scene) (l eye : PathVertex) : ℚ :=
  scene.camera_.FluxToRadianceCoefficient
    / dot (s1Direction scene l eye) eye.vShadingNormal ^ 4

/-- The geometric factor `G = cosIn * cosOutGeometric / distance^2` of the
connection to the lens. -/
def s1GeometricFactor (scene : Scene) (l eye : PathVertex) : ℚ :=
  dot (s1Direction scene l eye) eye.vShadingNormal
    * (-dot (s1Direction scene l eye) l.vGeometricNormal)
    / (scene.FindIntersection eye.vPosition (s1Direction scene l eye)).2.t_max ^ 2

/-- The pixel index `floor(v*height)*width + floor(u*width)` of the film
position `(u, v)` the camera returns for `l`. -/
def s1PixelIndex (scene : Scene) (l eye : PathVertex) : Nat :=
  match scene.camera_.GetFilmPosition (l.vPosition - eye.vPosition) with
  | none => 0
  | some f => ⌊f.v * scene.GetHeight⌋₊ * scene.GetWidth + ⌊f.u * scene.GetWidth⌋₊

/-- The weight `w = 1 / (1 + A)` of the strategy `(s, 1)`, where `P_i` uses `R`
in place of `fSamplingPrev(s+1)`. -/
def s1Weight (lights : Vertices) (s : Nat) (R G : ℚ) : ℚ :=
  1 / (1 + lightsTerms lights R G s)

/-- The splat of an accepted light vertex `s`: pixel index and the colour
`power_light(s) * power_eye(1) * R * G * (1/pi) * w`. -/
def s1Splat (scene : Scene) (lights : Vertices) (eye : PathVertex) (s : Nat) :
    Nat × CIE_XYZ_Color :=
  (s1PixelIndex scene (lights s) eye,
    (lights s).power * eye.power
      * (s1Response scene (lights s) eye * s1GeometricFactor scene (lights s) eye
        * scene.M_1_PI
        * s1Weight lights s (s1Response scene (lights s) eye)
            (s1GeometricFactor scene (lights s) eye)))

/-- The sum of the direct-hit (`s = 0`) weight: over `i = t` down to `2` with
neither eye vertex `i` nor `i-1` specular, of `(Q_i / G_eye(i))^2`, where `Q_i`
takes `last` for `fSamplingNext(t+1)`. -/
def directTerms (theEye : Vertices) (last : ℚ) (t : Nat) : ℚ :=
  ∑ i in (Finset.Icc 2 t).filter
      (fun i => (theEye i).bSpecular = false ∧ (theEye (i - 1)).bSpecular = false),
    (theEyeRatio theEye last t i / (theEye i).fGeometricFactor) ^ 2

/-- The eye vertex `i` is a divisor of the eye-side recurrence entered at `t`:
the loop visits `i` and neither vertex `i` nor `i-1` is specular. -/
def theEyeDivides (theEye : Vertices) (t i : Nat) : Prop :=
  2 ≤ i ∧ i ≤ t ∧ (theEye i).bSpecular = false ∧ (theEye (i - 1)).bSpecular = false

instance (theEye : Vertices) (t i : Nat) : Decidable (theEyeDivides theEye t i) := by
  unfold theEyeDivides; infer_instance

/-- The light vertex `i` is a divisor of the light-side recurrence entered at
`s`: the loop visits `i` and neither vertex `i` nor `i-1` is specular. -/
def lightsDivides (lights : Vertices) (s i : Nat) : Prop :=
  1 ≤ i ∧ i ≤ s ∧ (lights i).bSpecular = false ∧ (lights (i - 1)).bSpecular = false

instance (lights : Vertices) (s i : Nat) : Decidable (lightsDivides lights s i) := by
  unfold lightsDivides; infer_instance

/-! ## A small scene

A light of area `2` at `(3, 0, 4)` facing down, a diffuse floor through the
origin facing up, and a pinhole lens at `(0, 0, 1)` looking down.  Surface `0`
is the light, surface `1` the floor.  All directions that occur have rational
length, so `normalize` is exact; `M_1_PI` is taken as `7/22`, the depth as `4`.
-/

/-- Intersection record of a hit on the floor at distance `d`. -/
def demoFloorHit (d : ℚ) : Intersection :=
  { t_max := d
    is_back_side := false
    vGeometricNormal := ⟨0, 0, 1⟩
    vShadingNormal := ⟨0, 0, 1⟩
    vGeometricTangent := ⟨1, 0, 0⟩
    vGeometricBinormal := ⟨0, 1, 0⟩
    vShadingTangent := ⟨1, 0, 0⟩
    vShadingBinormal := ⟨0, 1, 0⟩ }

/-- Intersection record of a hit on the light at distance `d`. -/
def demoLightHit (d : ℚ) : Intersection :=
  { t_max := d
    is_back_side := false
    vGeometricNormal := ⟨0, 0, -1⟩
    vShadingNormal := ⟨0, 0, -1⟩
    vGeometricTangent := ⟨1, 0, 0⟩
    vGeometricBinormal := ⟨0, -1, 0⟩
    vShadingTangent := ⟨1, 0, 0⟩
    vShadingBinormal := ⟨0, -1, 0⟩ }

/-- Ray casting in the small scene: light point to floor point, floor point to
light point, lens to floor point; every other ray leaves the scene. -/
def demoFindIntersection (o d : float3_t) : Option Nat × Intersection :=
  if o = ⟨3, 0, 4⟩ ∧ d = ⟨-3/5, 0, -4/5⟩ then (some 1, demoFloorHit 5)
  else if o = ⟨0, 0, 0⟩ ∧ d = ⟨3/5, 0, 4/5⟩ then (some 0, demoLightHit 5)
  else if o = ⟨0, 0, 1⟩ ∧ d = ⟨0, 0, -1⟩ then (some 1, demoFloorHit 1)
  else (none, default)

/-- The diffuse floor: both samplers send the walk from the floor point to the
light point, with density `7/22` in both directions and albedo `1/2`. -/
def demoDiffuse : Bsdf :=
  { What := BsdfType.DIFFUSE
    LightsToCameraScatteringDirection := fun v sample =>
      (true,
        { v with
          vOutgoingDirection := ⟨3/5, 0, 4/5⟩
          fOutgoingCosThetaGeometric := 4/5
          fSamplingPrev := 7/22
          fSamplingNext := 7/22
          fBSDFxIPDF := 1/2
          bSpecular := false },
        sample.next.2.next.2)
    CameraToLightsScatteringDirection := fun v sample =>
      (true,
        { v with
          vIncomingDirection := ⟨3/5, 0, 4/5⟩
          fIncomingCosThetaShading := 4/5
          fSamplingPrev := 7/22
          fSamplingNext := 7/22
          fBSDFxIPDF := 1/2
          bSpecular := false },
        sample.next.2.next.2) }

/-- The emitter: it scatters nothing. -/
def demoEmitter : Bsdf :=
  { What := BsdfType.LIGHT
    LightsToCameraScatteringDirection := fun v sample => (false, v, sample)
    CameraToLightsScatteringDirection := fun v sample => (false, v, sample) }

/-- Exact normalisation of the two connection vectors of the small scene. -/
def demoNormalize (v : float3_t) : float3_t :=
  if v = ⟨-3, 0, -4⟩ then ⟨-3/5, 0, -4/5⟩ else v

/-- The small scene. -/
def demoScene : Scene :=
  { bsdfs_ := fun i => if i = 0 then demoEmitter else demoDiffuse
    camera_ :=
      { FluxToRadianceCoefficient := 1
        GetConstFactor := 1
        GetFilmPosition := fun _ => some ⟨1/2, 1/2⟩
        GetPrimaryRayDirection := fun _ _ => ⟨0, 0, -1⟩ }
    bsdf := fun g => g
    FindIntersection := demoFindIntersection
    GetLightArea := 2
    GetLightPowerXYZ := ⟨3, 2, 1⟩
    GetWidth := 4
    GetHeight := 4
    ComputeDiffusedVector := fun _ _ _ _ _ => (4/5, ⟨-3/5, 0, -4/5⟩)
    SampleLightPosition := fun _ _ v =>
      { v with
        pGeometry := some 0
        vPosition := ⟨3, 0, 4⟩
        vGeometricNormal := ⟨0, 0, -1⟩
        vShadingNormal := ⟨0, 0, -1⟩
        vTangent := ⟨1, 0, 0⟩
        vBinormal := ⟨0, -1, 0⟩ }
    SampleLensPosition := fun v =>
      { v with
        vPosition := ⟨0, 0, 1⟩
        vGeometricNormal := ⟨0, 0, -1⟩
        vShadingNormal := ⟨0, 0, -1⟩
        power := 1 }
    normalize := demoNormalize
    M_1_PI := 7/22
    kMaxRandomWalkDepth := 4 }

/-- A vertex array whose entries are all blank (`pGeometry = none`). -/
def demoBlank : Vertices := fun _ => default

/-- Output slots that are all zero. -/
def demoPixels : Pixels := fun _ => (0, 0)

/-- A sample source. -/
def demoSample : IPrimarySample := ⟨fun _ => 1/2, 0⟩

/-- The light array of the small scene as `EvaluateBidirectionalPathTracing`
hands it to `BuildLightsPath`. -/
def demoLightsSeed : Vertices :=
  let v1 := demoScene.SampleLightPosition (1/2) (1/2) (demoBlank 1)
  demoBlank.set 1 { v1 with power := demoScene.GetLightPowerXYZ }

/-- The eye array of the small scene as `EvaluateBidirectionalPathTracing`
hands it to `BuildTheEyePath`. -/
def demoTheEyeSeed : Vertices :=
  demoBlank.set 1 (demoScene.SampleLensPosition (demoBlank 1))

/-- The light array of the small scene after `BuildLightsPath`. -/
def demoLights : Vertices :=
  match BuildLightsPath demoScene demoLightsSeed demoSample with
  | some r => r.vertices
  | none => demoBlank

/-- The eye array of the small scene after `BuildTheEyePath`. -/
def demoTheEye : Vertices :=
  match BuildTheEyePath demoScene 0 0 (demoLights 1) demoTheEyeSeed 0 demoSample with
  | some r => r.vertices
  | none => demoBlank

/-- The small scene with the depth set to `2`, so that both walks are stopped
by the depth cap. -/
def demoShallow : Scene := { demoScene with kMaxRandomWalkDepth := 2 }

/-- An eye array for a direct hit at `t = 3`: the lens, a diffuse vertex with
geometric factor `1/4`, and the floor vertex of the small scene moved to index
`3`, from where the ray reaches the light. -/
def demoLongTheEye : Vertices := fun i =>
  if i = 3 then demoTheEye 2
  else if i = 2 then { demoTheEye 2 with fGeometricFactor := 1/4 }
  else demoTheEye 1

/-! ### The small scene with a tilted shading normal

The floor keeps its geometric normal `(0, 0, 1)` but carries the shading normal
`(4/5, 0, 3/5)`; the lens sits at `(4, 0, -3)`, below the floor plane, and looks
at the origin.
-/

/-- Intersection record of a hit on the tilted floor at distance `d`. -/
def tiltFloorHit (d : ℚ) (back : Bool) : Intersection :=
  { t_max := d
    is_back_side := back
    vGeometricNormal := ⟨0, 0, 1⟩
    vShadingNormal := ⟨4/5, 0, 3/5⟩
    vGeometricTangent := ⟨1, 0, 0⟩
    vGeometricBinormal := ⟨0, 1, 0⟩
    vShadingTangent := ⟨3/5, 0, -4/5⟩
    vShadingBinormal := ⟨0, 1, 0⟩ }

/-- Ray casting in the tilted scene. -/
def tiltFindIntersection (o d : float3_t) : Option Nat × Intersection :=
  if o = ⟨3, 0, 4⟩ ∧ d = ⟨-3/5, 0, -4/5⟩ then (some 1, tiltFloorHit 5 false)
  else if o = ⟨0, 0, 0⟩ ∧ d = ⟨3/5, 0, 4/5⟩ then (some 0, demoLightHit 5)
  else if o = ⟨4, 0, -3⟩ ∧ d = ⟨-4/5, 0, 3/5⟩ then (some 1, tiltFloorHit 5 true)
  else (none, default)

/-- Exact normalisation of the connection vectors of the tilted scene. -/
def tiltNormalize (v : float3_t) : float3_t :=
  if v = ⟨-3, 0, -4⟩ then ⟨-3/5, 0, -4/5⟩
  else if v = ⟨-4, 0, 3⟩ then ⟨-4/5, 0, 3/5⟩
  else v

/-- The tilted scene. -/
def tiltScene : Scene :=
  { demoScene with
    camera_ :=
      { FluxToRadianceCoefficient := 1
        GetConstFactor := 1
        GetFilmPosition := fun _ => some ⟨1/2, 1/2⟩
        GetPrimaryRayDirection := fun _ _ => ⟨-4/5, 0, 3/5⟩ }
    FindIntersection := tiltFindIntersection
    SampleLensPosition := fun v =>
      { v with
        vPosition := ⟨4, 0, -3⟩
        vGeometricNormal := ⟨-4/5, 0, 3/5⟩
        vShadingNormal := ⟨-4/5, 0, 3/5⟩
        power := 1 }
    normalize := tiltNormalize }

/-- The eye array of the tilted scene as handed to `BuildTheEyePath`. -/
def tiltTheEyeSeed : Vertices :=
  demoBlank.set 1 (tiltScene.SampleLensPosition (demoBlank 1))

/-- The light array of the tilted scene after `BuildLightsPath`. -/
def tiltLights : Vertices :=
  match BuildLightsPath tiltScene demoLightsSeed demoSample with
  | some r => r.vertices
  | none => demoBlank

/-- The eye array of the tilted scene after `BuildTheEyePath`. -/
def tiltTheEye : Vertices :=
  match BuildTheEyePath tiltScene 0 0 (tiltLights 1) tiltTheEyeSeed 0 demoSample with
  | some r => r.vertices
  | none => demoBlank

/-! ### The small scene with a grazing emission

The light emits along `(-1, 0, 0)`, in its own plane (sampled cosine `0`), and
the ray meets a diffuse wall, surface `1`, at `(0, 0, 4)`; the lens sits at
`(4, 0, 1)` and looks at that point.
-/

/-- Intersection record of a hit on the wall at distance `d`. -/
def grazeWallHit (d : ℚ) : Intersection :=
  { t_max := d
    is_back_side := false
    vGeometricNormal := ⟨1, 0, 0⟩
    vShadingNormal := ⟨1, 0, 0⟩
    vGeometricTangent := ⟨0, 1, 0⟩
    vGeometricBinormal := ⟨0, 0, 1⟩
    vShadingTangent := ⟨0, 1, 0⟩
    vShadingBinormal := ⟨0, 0, 1⟩ }

/-- Ray casting in the grazing scene. -/
def grazeFindIntersection (o d : float3_t) : Option Nat × Intersection :=
  if o = ⟨3, 0, 4⟩ ∧ d = ⟨-1, 0, 0⟩ then (some 1, grazeWallHit 3)
  else if o = ⟨4, 0, 1⟩ ∧ d = ⟨-4/5, 0, 3/5⟩ then (some 1, grazeWallHit 5)
  else (none, default)

/-- The grazing scene. -/
def grazeScene : Scene :=
  { demoScene with
    FindIntersection := grazeFindIntersection
    ComputeDiffusedVector := fun _ _ _ _ _ => (0, ⟨-1, 0, 0⟩)
    SampleLensPosition := fun v =>
      { v with
        vPosition := ⟨4, 0, 1⟩
        vGeometricNormal := ⟨-4/5, 0, 3/5⟩
        vShadingNormal := ⟨-4/5, 0, 3/5⟩
        power := 1 }
    normalize := tiltNormalize }

/-- The light array of the grazing scene after `BuildLightsPath`. -/
def grazeLights : Vertices :=
  match BuildLightsPath grazeScene demoLightsSeed demoSample with
  | some r => r.vertices
  | none => demoBlank

/-- The lens vertex of the grazing scene. -/
def grazeLens : PathVertex := grazeScene.SampleLensPosition (demoBlank 1)

/-- The small scene with a blocker, surface `2`, in front of the lens and in
front of the light: every ray from either point ends on it. -/
def demoOccluded : Scene :=
  { demoScene with
    FindIntersection := fun o d =>
      if o = ⟨0, 0, 1⟩ ∨ o = ⟨3, 0, 4⟩ then (some 2, demoFloorHit (1/2))
      else demoFindIntersection o d }

/-- The small scene with a mirror for a floor. -/
def demoMirror : Scene :=
  { demoScene with
    bsdfs_ := fun i => if i = 0 then demoEmitter else { demoDiffuse with What := BsdfType.MIRROR } }

/-! ## The shared weight routine named in the specification -/

/-- One side of a connection as a weight recurrence reads it, index by index:
the density stored one vertex further from the connection (`ahead`), the
density stored one vertex nearer (`behind`), the specular flag and the
geometric factor. -/
structure SubpathView where
  ahead : Nat → ℚ
  behind : Nat → ℚ
  bSpecular : Nat → Bool
  fGeometricFactor : Nat → ℚ

/-- The light array seen from the connection: the recurrence multiplies by
`fSamplingPrev(k+1) / fSamplingNext(k-1)`. -/
def lightsView (lights : Vertices) : SubpathView :=
  { ahead := fun i => (lights i).fSamplingPrev
    behind := fun i => (lights i).fSamplingNext
    bSpecular := fun i => (lights i).bSpecular
    fGeometricFactor := fun i => (lights i).fGeometricFactor }

/-- The eye array seen from the connection: the recurrence multiplies by
`fSamplingNext(k+1) / fSamplingPrev(k-1)`. -/
def theEyeView (theEye : Vertices) : SubpathView :=
  { ahead := fun i => (theEye i).fSamplingNext
    behind := fun i => (theEye i).fSamplingPrev
    bSpecular := fun i => (theEye i).bSpecular
    fGeometricFactor := fun i => (theEye i).fGeometricFactor }

/-- The single weight routine the specification proposes, written from its
words and not from any of the four loops: the sum, over `i` from `start` down
to `stop` with neither vertex `i` nor `i-1` specular, of
`(P_i * G / G(i))^2`, where `P_i` is the product over `k = i..start` of
`ahead(k+1) / behind(k-1)` and `override` stands for `ahead(start+1)`. -/
def halfSum (view : SubpathView) (G : ℚ) (start stop : Nat) (override : ℚ) : ℚ :=
  ∑ i in (Finset.Icc stop start).filter
      (fun i => view.bSpecular i = false ∧ view.bSpecular (i - 1) = false),
    ((∏ k in Finset.Icc i start,
        (if k = start then override else view.ahead (k + 1)) / view.behind (k - 1))
      * G / view.fGeometricFactor i) ^ 2

/-- The arrays `a` and `b` hold the same densities and the same geometric
factor at every index. -/
def sameDensities (a b : Vertices) : Prop :=
  ∀ i, (a i).fSamplingPrev = (b i).fSamplingPrev
    ∧ (a i).fSamplingNext = (b i).fSamplingNext
    ∧ (a i).fGeometricFactor = (b i).fGeometricFactor

/-- Every vertex flagged `bSpecular` in `b` is flagged in `a`. -/
def moreSpecular (a b : Vertices) : Prop :=
  ∀ i, (b i).bSpecular = true → (a i).bSpecular = true

/-- The array `vertices` with every vertex flagged `bSpecular`. -/
def allSpecular (vertices : Vertices) : Vertices :=
  fun i => { vertices i with bSpecular := true }

/-- A light array without a light: vertex `1` is blank and every other index
holds the floor vertex left by an earlier walk. -/
def demoStaleLights : Vertices := fun i => if i = 1 then demoBlank 1 else demoLights 2

/-- The light array of the small scene with a copy of the floor vertex stored
at index `3` and its geometry reference cleared, as a walk leaves the vertex at
which it stops. -/
def demoClearedLights : Vertices :=
  demoLights.set 3 { demoLights 2 with pGeometry := none }

/-- The same array with the geometry reference of vertex `3` in place. -/
def demoFilledLights : Vertices := demoLights.set 3 (demoLights 2)

/-! ### A scene whose light walk is stopped by the depth cap at `K = 3`

The light at `(3, 0, 4)` faces the plate point `(0, 0, 4)`; the plate sends
the walk straight down to the floor point at the origin, which the lens at
`(0, 0, 1)` sees.  The depth is `3`.
-/

/-- Intersection record of a hit on the plate at distance `d`. -/
def capPlateHit (d : ℚ) : Intersection :=
  { t_max := d
    is_back_side := false
    vGeometricNormal := ⟨3/5, 0, -4/5⟩
    vShadingNormal := ⟨3/5, 0, -4/5⟩
    vGeometricTangent := ⟨0, 1, 0⟩
    vGeometricBinormal := ⟨4/5, 0, 3/5⟩
    vShadingTangent := ⟨0, 1, 0⟩
    vShadingBinormal := ⟨4/5, 0, 3/5⟩ }

/-- Ray casting in the capped scene: light point to plate point, plate point
to floor point, lens to floor point; every other ray leaves the scene. -/
def capFindIntersection (o d : float3_t) : Option Nat × Intersection :=
  if o = ⟨3, 0, 4⟩ ∧ d = ⟨-1, 0, 0⟩ then (some 1, capPlateHit 3)
  else if o = ⟨0, 0, 4⟩ ∧ d = ⟨0, 0, -1⟩ then (some 1, demoFloorHit 4)
  else if o = ⟨0, 0, 1⟩ ∧ d = ⟨0, 0, -1⟩ then (some 1, demoFloorHit 1)
  else (none, default)

/-- The diffuse surfaces of the capped scene: the light-walk sampler sends the
walk straight down, with density `7/22` in both directions and albedo `1/2`. -/
def capDiffuse : Bsdf :=
  { demoDiffuse with
    LightsToCameraScatteringDirection := fun v sample =>
      (true,
        { v with
          vOutgoingDirection := ⟨0, 0, -1⟩
          fOutgoingCosThetaGeometric := 4/5
          fSamplingPrev := 7/22
          fSamplingNext := 7/22
          fBSDFxIPDF := 1/2
          bSpecular := false },
        sample.next.2.next.2) }

/-- Exact normalisation of the connection vector from the lens to the plate
point; the vector to the floor point has length one. -/
def capNormalize (v : float3_t) : float3_t :=
  if v = ⟨0, 0, 3⟩ then ⟨0, 0, 1⟩ else v

/-- The capped scene. -/
def capScene : Scene :=
  { demoScene with
    bsdfs_ := fun i => if i = 0 then demoEmitter else capDiffuse
    FindIntersection := capFindIntersection
    ComputeDiffusedVector := fun _ _ _ _ _ => (3/5, ⟨-1, 0, 0⟩)
    SampleLightPosition := fun _ _ v =>
      { v with
        pGeometry := some 0
        vPosition := ⟨3, 0, 4⟩
        vGeometricNormal := ⟨-3/5, 0, -4/5⟩
        vShadingNormal := ⟨-3/5, 0, -4/5⟩
        vTangent := ⟨0, 1, 0⟩
        vBinormal := ⟨-4/5, 0, 3/5⟩ }
    normalize := capNormalize
    kMaxRandomWalkDepth := 3 }

/-- The light array of the capped scene as `EvaluateBidirectionalPathTracing`
hands it to `BuildLightsPath`. -/
def capLightsSeed : Vertices :=
  let v1 := capScene.SampleLightPosition (1/2) (1/2) (demoBlank 1)
  (demoBlank.set 1 { v1 with power := capScene.GetLightPowerXYZ }).set 2
    { demoBlank 2 with pGeometry := none }

/-- The light array of the capped scene after `BuildLightsPath`. -/
def capLights : Vertices :=
  match BuildLightsPath capScene capLightsSeed demoSample with
  | some r => r.vertices
  | none => demoBlank

/-- The lens vertex of the capped scene. -/
def capLens : PathVertex := capScene.SampleLensPosition (demoBlank 1)

/-- The pairs `(s, t)` with `t >= 2`, `s >= 1` and `s + t - 1 < K`, as a finite
set. -/
def stPairs (K : Nat) : Finset (Nat × Nat) :=
  (Finset.range (K + 1) ×ˢ Finset.range (K + 1)).filter
    (fun p => 2 ≤ p.2 ∧ 1 ≤ p.1 ∧ p.1 + p.2 - 1 < K)

/-- The pairs `(s, t)` with `t >= 2`, `s >= 1` and `s + t - 1 <= K`, as a
finite set. -/
def stPairsUpTo (K : Nat) : Finset (Nat × Nat) :=
  (Finset.range (K + 2) ×ˢ Finset.range (K + 2)).filter
    (fun p => 2 ≤ p.2 ∧ 1 ≤ p.1 ∧ p.1 + p.2 - 1 ≤ K)

/-- A light array that holds the light vertex of the small scene at every
index. -/
def demoAllLights : Vertices := fun _ => demoLights 1

/-- An eye array that holds the floor vertex of the small scene at every
index. -/
def demoAllTheEye : Vertices := fun _ => demoTheEye 2

theorem square_of_eq (a : ℚ) : square_of a = a ^ 2 := by
  unfold square_of; ring

theorem fourth_power_of_eq (a : ℚ) : fourth_power_of a = a ^ 4 := by
  unfold fourth_power_of; ring

@[simp] theorem Vertices.set_self (vertices : Vertices) (i : Nat) (v : PathVertex) :
    vertices.set i v i = v := by
  simp [Vertices.set]

theorem Vertices.set_ne (vertices : Vertices) (i j : Nat) (v : PathVertex) (h : j ≠ i) :
    vertices.set i v j = vertices j := by
  simp [Vertices.set, h]

@[simp] theorem Pixels.set_same (pixels : Pixels) (i : Nat) (d : Nat × CIE_XYZ_Color) :
    pixels.set i d i = d := by
  simp [Pixels.set]

theorem Pixels.set_other (pixels : Pixels) (i j : Nat) (d : Nat × CIE_XYZ_Color)
    (h : j ≠ i) : pixels.set i d j = pixels j := by
  simp [Pixels.set, h]

/-- Undoing a `single_stack` on `fSamplingPrev` gives back the array. -/
theorem Vertices.pushSamplingPrev_undo (vertices : Vertices) (i : Nat) (v : ℚ) :
    (vertices.pushSamplingPrev i v).pushSamplingPrev i (vertices i).fSamplingPrev
      = vertices := by
  funext j
  by_cases h : j = i
  · subst h; simp [Vertices.pushSamplingPrev]
  · simp [Vertices.pushSamplingPrev, Vertices.set, h]

/-- Undoing a `single_stack` on `fSamplingNext` gives back the array. -/
theorem Vertices.pushSamplingNext_undo (vertices : Vertices) (i : Nat) (v : ℚ) :
    (vertices.pushSamplingNext i v).pushSamplingNext i (vertices i).fSamplingNext
      = vertices := by
  funext j
  by_cases h : j = i
  · subst h; simp [Vertices.pushSamplingNext]
  · simp [Vertices.pushSamplingNext, Vertices.set, h]

theorem Vertices.pushSamplingPrev_prev (vertices : Vertices) (i j : Nat) (v : ℚ) :
    ((vertices.pushSamplingPrev i v) j).fSamplingPrev
      = if j = i then v else (vertices j).fSamplingPrev := by
  by_cases h : j = i
  · subst h; simp [Vertices.pushSamplingPrev]
  · simp [Vertices.pushSamplingPrev, Vertices.set, h]

theorem Vertices.pushSamplingPrev_rest (vertices : Vertices) (i j : Nat) (v : ℚ) :
    ((vertices.pushSamplingPrev i v) j).fSamplingNext = (vertices j).fSamplingNext
    ∧ ((vertices.pushSamplingPrev i v) j).bSpecular = (vertices j).bSpecular
    ∧ ((vertices.pushSamplingPrev i v) j).fGeometricFactor = (vertices j).fGeometricFactor := by
  by_cases h : j = i
  · subst h; simp [Vertices.pushSamplingPrev]
  · simp [Vertices.pushSamplingPrev, Vertices.set, h]

theorem Vertices.pushSamplingNext_next (vertices : Vertices) (i j : Nat) (v : ℚ) :
    ((vertices.pushSamplingNext i v) j).fSamplingNext
      = if j = i then v else (vertices j).fSamplingNext := by
  by_cases h : j = i
  · subst h; simp [Vertices.pushSamplingNext]
  · simp [Vertices.pushSamplingNext, Vertices.set, h]

theorem Vertices.pushSamplingNext_rest (vertices : Vertices) (i j : Nat) (v : ℚ) :
    ((vertices.pushSamplingNext i v) j).fSamplingPrev = (vertices j).fSamplingPrev
    ∧ ((vertices.pushSamplingNext i v) j).bSpecular = (vertices j).bSpecular
    ∧ ((vertices.pushSamplingNext i v) j).fGeometricFactor = (vertices j).fGeometricFactor := by
  by_cases h : j = i
  · subst h; simp [Vertices.pushSamplingNext]
  · simp [Vertices.pushSamplingNext, Vertices.set, h]

/-- Closed form of the light-side weight loop of `EvaluatePathST` over an
arbitrary array. -/
theorem EvaluatePathST.lightsLoop_closed (lights : Vertices) (G : ℚ) :
    ∀ (i : Nat) (pst wst : ℚ),
      (EvaluatePathST.lightsLoop lights G i (pst, wst)).2 = wst +
        ∑ j in Finset.Icc 1 i,
          if (lights j).bSpecular = false ∧ (lights (j - 1)).bSpecular = false then
            (pst * (∏ k in Finset.Icc j i,
              (lights (k + 1)).fSamplingPrev / (lights (k - 1)).fSamplingNext)
              * G / (lights j).fGeometricFactor) ^ 2
          else 0 := by
  intro i
  induction i with
  | zero => intro pst wst; simp [EvaluatePathST.lightsLoop]
  | succ i ih =>
    intro pst wst
    rw [EvaluatePathST.lightsLoop, Finset.sum_Icc_succ_top (show 1 ≤ i + 1 by omega), ih]
    have hprod : ∀ j ∈ Finset.Icc 1 i,
        (∏ k in Finset.Icc j (i + 1),
          (lights (k + 1)).fSamplingPrev / (lights (k - 1)).fSamplingNext)
        = (∏ k in Finset.Icc j i,
          (lights (k + 1)).fSamplingPrev / (lights (k - 1)).fSamplingNext)
          * ((lights (i + 2)).fSamplingPrev / (lights i).fSamplingNext) := by
      intro j hj
      rw [Finset.mem_Icc] at hj
      rw [Finset.prod_Icc_succ_top (by omega)]
      simp
    have hsum : (∑ j in Finset.Icc 1 i,
          if (lights j).bSpecular = false ∧ (lights (j - 1)).bSpecular = false then
            (pst * (∏ k in Finset.Icc j (i + 1),
              (lights (k + 1)).fSamplingPrev / (lights (k - 1)).fSamplingNext)
              * G / (lights j).fGeometricFactor) ^ 2
          else 0)
        = ∑ j in Finset.Icc 1 i,
          if (lights j).bSpecular = false ∧ (lights (j - 1)).bSpecular = false then
            (pst * ((lights (i + 2)).fSamplingPrev / (lights i).fSamplingNext)
              * (∏ k in Finset.Icc j i,
              (lights (k + 1)).fSamplingPrev / (lights (k - 1)).fSamplingNext)
              * G / (lights j).fGeometricFactor) ^ 2
          else 0 := by
      apply Finset.sum_congr rfl
      intro j hj
      rw [hprod j hj]
      split_ifs
      · ring
      · rfl
    rw [hsum]
    simp only [Finset.Icc_self, Finset.prod_singleton, Nat.add_sub_cancel, square_of]
    by_cases h1 : (lights (i + 1)).bSpecular = false <;>
      by_cases h2 : (lights i).bSpecular = false
    all_goals simp [h1, h2]
    all_goals ring

/-- Closed form of the eye-side weight loop of `EvaluatePathST` over an
arbitrary array; the loop is entered with `i = n + 1`. -/
theorem EvaluatePathST.theEyeLoop_closed (theEye : Vertices) (G : ℚ) :
    ∀ (n : Nat) (pst wst : ℚ),
      (EvaluatePathST.theEyeLoop theEye G n (pst, wst)).2 = wst +
        ∑ j in Finset.Icc 2 (n + 1),
          if (theEye j).bSpecular = false ∧ (theEye (j - 1)).bSpecular = false then
            (pst * (∏ k in Finset.Icc j (n + 1),
              (theEye (k + 1)).fSamplingNext / (theEye (k - 1)).fSamplingPrev)
              * G / (theEye j).fGeometricFactor) ^ 2
          else 0 := by
  intro n
  induction n with
  | zero => intro pst wst; simp [EvaluatePathST.theEyeLoop]
  | succ n ih =>
    intro pst wst
    rw [EvaluatePathST.theEyeLoop, Finset.sum_Icc_succ_top (show 2 ≤ n + 1 + 1 by omega), ih]
    have hprod : ∀ j ∈ Finset.Icc 2 (n + 1),
        (∏ k in Finset.Icc j (n + 1 + 1),
          (theEye (k + 1)).fSamplingNext / (theEye (k - 1)).fSamplingPrev)
        = (∏ k in Finset.Icc j (n + 1),
          (theEye (k + 1)).fSamplingNext / (theEye (k - 1)).fSamplingPrev)
          * ((theEye (n + 3)).fSamplingNext / (theEye (n + 1)).fSamplingPrev) := by
      intro j hj
      rw [Finset.mem_Icc] at hj
      rw [Finset.prod_Icc_succ_top (by omega)]
      simp
    have hsum : (∑ j in Finset.Icc 2 (n + 1),
          if (theEye j).bSpecular = false ∧ (theEye (j - 1)).bSpecular = false then
            (pst * (∏ k in Finset.Icc j (n + 1 + 1),
              (theEye (k + 1)).fSamplingNext / (theEye (k - 1)).fSamplingPrev)
              * G / (theEye j).fGeometricFactor) ^ 2
          else 0)
        = ∑ j in Finset.Icc 2 (n + 1),
          if (theEye j).bSpecular = false ∧ (theEye (j - 1)).bSpecular = false then
            (pst * ((theEye (n + 3)).fSamplingNext / (theEye (n + 1)).fSamplingPrev)
              * (∏ k in Finset.Icc j (n + 1),
              (theEye (k + 1)).fSamplingNext / (theEye (k - 1)).fSamplingPrev)
              * G / (theEye j).fGeometricFactor) ^ 2
          else 0 := by
      apply Finset.sum_congr rfl
      intro j hj
      rw [hprod j hj]
      split_ifs
      · ring
      · rfl
    rw [hsum]
    simp only [Finset.Icc_self, Finset.prod_singleton, Nat.add_sub_cancel, square_of]
    by_cases h1 : (theEye (n + 2)).bSpecular = false <;>
      by_cases h2 : (theEye (n + 1)).bSpecular = false
    all_goals simp [h1, h2]
    all_goals ring

/-- The weight loop of `EvaluatePathS1` is the same recurrence as the light-side
loop of `EvaluatePathST`. -/
theorem EvaluatePathS1.weightLoop_eq_lightsLoop (lights : Vertices) (G : ℚ) :
    ∀ (i : Nat) (acc : ℚ × ℚ),
      EvaluatePathS1.weightLoop lights G i acc = EvaluatePathST.lightsLoop lights G i acc := by
  intro i
  induction i with
  | zero => intro acc; rfl
  | succ i ih => intro acc; rw [EvaluatePathS1.weightLoop, EvaluatePathST.lightsLoop, ih]

/-- The weight loop of the direct-hit branch of `BuildTheEyePath` is the
eye-side loop of `EvaluatePathST` with connection geometric factor `1`. -/
theorem BuildTheEyePath.weightLoop_eq_theEyeLoop (theEye : Vertices) :
    ∀ (n : Nat) (acc : ℚ × ℚ),
      BuildTheEyePath.weightLoop theEye n acc = EvaluatePathST.theEyeLoop theEye 1 n acc := by
  intro n
  induction n with
  | zero => intro acc; rfl
  | succ n ih =>
    intro acc
    rw [BuildTheEyePath.weightLoop, EvaluatePathST.theEyeLoop, ih]
    simp

/-- The light-side loop run under `single_stack(fSamplingPrev(s+1), last)`
yields `wst + A`. -/
theorem lightsLoop_pushed (lights : Vertices) (last G : ℚ) (s : Nat) (wst : ℚ) :
    (EvaluatePathST.lightsLoop (lights.pushSamplingPrev (s + 1) last) G s (1, wst)).2
      = wst + lightsTerms lights last G s := by
  rw [EvaluatePathST.lightsLoop_closed, lightsTerms, Finset.sum_filter]
  congr 1
  apply Finset.sum_congr rfl
  intro j hj
  have hprod : (∏ k in Finset.Icc j s,
      ((lights.pushSamplingPrev (s + 1) last) (k + 1)).fSamplingPrev
        / ((lights.pushSamplingPrev (s + 1) last) (k - 1)).fSamplingNext)
      = lightsRatio lights last s j := by
    rw [lightsRatio]
    apply Finset.prod_congr rfl
    intro k _
    rw [Vertices.pushSamplingPrev_prev, (Vertices.pushSamplingPrev_rest _ _ _ _).1]
    simp
  rw [hprod, (Vertices.pushSamplingPrev_rest _ _ _ _).2.1,
    (Vertices.pushSamplingPrev_rest _ _ _ _).2.1, (Vertices.pushSamplingPrev_rest _ _ _ _).2.2]
  simp

/-- The eye-side loop run under `single_stack(fSamplingNext(t+1), last)` yields
`wst + B`. -/
theorem theEyeLoop_pushed (theEye : Vertices) (last G : ℚ) (t : Nat) (wst : ℚ) :
    (EvaluatePathST.theEyeLoop (theEye.pushSamplingNext (t + 1) last) G (t - 1) (1, wst)).2
      = wst + theEyeTerms theEye last G t := by
  rcases Nat.eq_zero_or_pos t with h0 | hpos
  · subst h0; simp [EvaluatePathST.theEyeLoop, theEyeTerms]
  obtain ⟨n, rfl⟩ : ∃ n, t = n + 1 := ⟨t - 1, by omega⟩
  rw [Nat.add_sub_cancel, EvaluatePathST.theEyeLoop_closed, theEyeTerms, Finset.sum_filter]
  congr 1
  apply Finset.sum_congr rfl
  intro j hj
  have hprod : (∏ k in Finset.Icc j (n + 1),
      ((theEye.pushSamplingNext (n + 1 + 1) last) (k + 1)).fSamplingNext
        / ((theEye.pushSamplingNext (n + 1 + 1) last) (k - 1)).fSamplingPrev)
      = theEyeRatio theEye last (n + 1) j := by
    rw [theEyeRatio]
    apply Finset.prod_congr rfl
    intro k _
    rw [Vertices.pushSamplingNext_next, (Vertices.pushSamplingNext_rest _ _ _ _).1]
    simp
  rw [hprod, (Vertices.pushSamplingNext_rest _ _ _ _).2.1,
    (Vertices.pushSamplingNext_rest _ _ _ _).2.1, (Vertices.pushSamplingNext_rest _ _ _ _).2.2]
  simp

/-- The weight computation of `EvaluatePathST` in closed form, with both arrays
handed back as they were. -/
theorem EvaluatePathST.weight_closed (scene : Scene) (lights theEye : Vertices)
    (s t : Nat) (G : ℚ) :
    EvaluatePathST.weight scene lights theEye s t G =
      (lights, theEye,
        1 / (1 + lightsTerms lights scene.M_1_PI G s + theEyeTerms theEye scene.M_1_PI G t)) := by
  simp only [EvaluatePathST.weight, Vertices.pushSamplingPrev_undo,
    Vertices.pushSamplingNext_undo, lightsLoop_pushed, theEyeLoop_pushed, rcp]

/-! ## The general evaluator, pair by pair -/

theorem walked_none (vertices : Vertices) (a i : Nat) (h : (vertices a).pGeometry = none)
    (hai : a ≤ i) : ¬ walked vertices a i := by
  intro hw
  exact hw a (Finset.mem_Icc.mpr ⟨le_refl a, hai⟩) h

theorem walked_succ (vertices : Vertices) (a i : Nat) (h : (vertices a).pGeometry ≠ none)
    (hai : a + 1 ≤ i) : walked vertices a i ↔ walked vertices (a + 1) i := by
  constructor
  · intro hw j hj
    rw [Finset.mem_Icc] at hj
    exact hw j (Finset.mem_Icc.mpr ⟨by omega, hj.2⟩)
  · intro hw j hj
    rw [Finset.mem_Icc] at hj
    by_cases hja : j = a
    · subst hja; exact h
    · exact hw j (Finset.mem_Icc.mpr ⟨by omega, hj.2⟩)

theorem walked_self (vertices : Vertices) (a : Nat) :
    walked vertices a a ↔ (vertices a).pGeometry ≠ none := by
  constructor
  · intro hw; exact hw a (Finset.mem_Icc.mpr ⟨le_refl a, le_refl a⟩)
  · intro h j hj
    rw [Finset.mem_Icc] at hj
    have : j = a := by omega
    subst this; exact h

/-- One pass of the inner loop at a present light vertex continues, hands back
both arrays, and adds the contribution of the pair exactly when it is
accepted. -/
theorem EvaluatePathST.inner_present (scene : Scene) (t s : Nat) (st : STState) (g : Nat)
    (hl : (st.lights s).pGeometry = some g)
    (he : scene.connectable (st.theEye t) = true) :
    ∃ q, EvaluatePathST.inner scene t s st = .cont
      { lights := st.lights
        theEye := st.theEye
        colour := st.colour +
          (if stAccepts scene (st.lights s) (st.theEye t) then
            stContribution scene st.lights st.theEye s t else 0)
        queries := q } := by
  unfold EvaluatePathST.inner
  simp only [hl]
  have hconn : scene.connectable (st.lights s) = decide
      (scene.kindOf g ≠ BsdfType.MIRROR ∧ scene.kindOf g ≠ BsdfType.GLASS) := by
    simp [Scene.connectable, hl]
  by_cases h1 : (scene.bsdfs_ (scene.bsdf g)).What = BsdfType.MIRROR
      ∨ (scene.bsdfs_ (scene.bsdf g)).What = BsdfType.GLASS
  · have hna : ¬ stAccepts scene (st.lights s) (st.theEye t) := by
      intro ha
      have := ha.1
      rw [hconn] at this
      simp [Scene.kindOf] at this
      tauto
    rw [if_pos h1, if_neg hna]
    exact ⟨st.queries, by simp⟩
  rw [if_neg h1]
  have hc : scene.connectable (st.lights s) = true := by
    rw [hconn]; simp [Scene.kindOf]; tauto
  by_cases h2 : dot (scene.normalize ((st.theEye t).vPosition - (st.lights s).vPosition))
      (st.lights s).vGeometricNormal ≤ 0
  · have hna : ¬ stAccepts scene (st.lights s) (st.theEye t) := by
      intro ha; exact absurd ha.2.2.1 (not_lt.mpr h2)
    rw [if_pos h2, if_neg hna]
    exact ⟨st.queries, by simp⟩
  rw [if_neg h2]
  by_cases h3 : dot (scene.normalize ((st.theEye t).vPosition - (st.lights s).vPosition))
      (st.lights s).vShadingNormal ≤ 0
  · have hna : ¬ stAccepts scene (st.lights s) (st.theEye t) := by
      intro ha; exact absurd ha.2.2.2.1 (not_lt.mpr h3)
    rw [if_pos h3, if_neg hna]
    exact ⟨st.queries, by simp⟩
  rw [if_neg h3]
  by_cases h4 : -dot (scene.normalize ((st.theEye t).vPosition - (st.lights s).vPosition))
      (st.theEye t).vGeometricNormal ≤ 0
  · have hna : ¬ stAccepts scene (st.lights s) (st.theEye t) := by
      intro ha; exact absurd ha.2.2.2.2.1 (not_lt.mpr h4)
    rw [if_pos h4, if_neg hna]
    exact ⟨st.queries, by simp⟩
  rw [if_neg h4]
  by_cases h5 : -dot (scene.normalize ((st.theEye t).vPosition - (st.lights s).vPosition))
      (st.theEye t).vShadingNormal ≤ 0
  · have hna : ¬ stAccepts scene (st.lights s) (st.theEye t) := by
      intro ha; exact absurd ha.2.2.2.2.2.1 (not_lt.mpr h5)
    rw [if_pos h5, if_neg hna]
    exact ⟨st.queries, by simp⟩
  rw [if_neg h5]
  by_cases h6 : (scene.FindIntersection (st.lights s).vPosition
      (scene.normalize ((st.theEye t).vPosition - (st.lights s).vPosition))).1
      ≠ (st.theEye t).pGeometry
  · have hna : ¬ stAccepts scene (st.lights s) (st.theEye t) := by
      intro ha; exact h6 ha.2.2.2.2.2.2
    rw [if_pos h6, if_neg hna]
    exact ⟨st.queries ++ [((st.lights s).vPosition,
      scene.normalize ((st.theEye t).vPosition - (st.lights s).vPosition))], by simp⟩
  rw [if_neg h6]
  have hacc : stAccepts scene (st.lights s) (st.theEye t) :=
    ⟨hc, he, not_le.mp h2, not_le.mp h3, not_le.mp h4, not_le.mp h5, not_not.mp h6⟩
  rw [if_pos hacc]
  refine ⟨st.queries ++ [((st.lights s).vPosition,
      scene.normalize ((st.theEye t).vPosition - (st.lights s).vPosition))], ?_⟩
  simp only [EvaluatePathST.weight_closed, stContribution, stWeight, stGeometricFactor,
    stDirection, square_of, pow_two]

/-- A sum over the indices a walk has reached, one step further down the walk. -/
theorem sum_walked_step {M : Type} [AddCommMonoid M] (vertices : Vertices) (a n : Nat)
    (P : Nat → Prop) [DecidablePred P] (F : Nat → M)
    (h : (vertices a).pGeometry ≠ none) :
    (∑ i in Finset.Ico a (a + (n + 1)), if walked vertices a i ∧ P i then F i else 0)
      = (if P a then F a else 0)
        + ∑ i in Finset.Ico (a + 1) (a + 1 + n),
            if walked vertices (a + 1) i ∧ P i then F i else 0 := by
  rw [Finset.sum_eq_sum_Ico_succ_bot (by omega)]
  have e : a + (n + 1) = a + 1 + n := by omega
  rw [e]
  congr 1
  · simp [(walked_self vertices a).mpr h]
  · apply Finset.sum_congr rfl
    intro i hi
    rw [Finset.mem_Ico] at hi
    have hw := walked_succ vertices a i h hi.1
    by_cases h1 : walked vertices a i
    · have h2 := hw.mp h1
      simp [h1, h2]
    · have h2 : ¬ walked vertices (a + 1) i := fun h2 => h1 (hw.mpr h2)
      simp [h1, h2]

/-- A sum over the indices a walk has reached is empty when the walk ended at
the first index. -/
theorem sum_walked_none {M : Type} [AddCommMonoid M] (vertices : Vertices) (a b : Nat)
    (P : Nat → Prop) [DecidablePred P] (F : Nat → M)
    (h : (vertices a).pGeometry = none) :
    (∑ i in Finset.Ico a b, if walked vertices a i ∧ P i then F i else 0) = 0 := by
  apply Finset.sum_eq_zero
  intro i hi
  rw [Finset.mem_Ico] at hi
  have := walked_none vertices a i h hi.1
  simp [this]

theorem EvaluatePathST.inner_absent (scene : Scene) (t s : Nat) (st : STState)
    (hl : (st.lights s).pGeometry = none) :
    EvaluatePathST.inner scene t s st = .brk st := by
  unfold EvaluatePathST.inner
  simp only [hl]

/-- The inner loop of `EvaluatePathST` over the light vertices `a, a+1, ...`:
both arrays are handed back and the colour grows by the contributions of the
accepted pairs the loop reaches. -/
theorem EvaluatePathST.inner_loop (scene : Scene) (t : Nat) (lights theEye : Vertices)
    (he : scene.connectable (theEye t) = true) :
    ∀ (n a : Nat) (c : CIE_XYZ_Color) (q : List (float3_t × float3_t)),
      ∃ q1, forEach (EvaluatePathST.inner scene t) (List.range' a n) ⟨lights, theEye, c, q⟩
        = ⟨lights, theEye,
            c + ∑ s in Finset.Ico a (a + n),
              (if walked lights a s ∧ stAccepts scene (lights s) (theEye t) then
                stContribution scene lights theEye s t else 0), q1⟩ := by
  intro n
  induction n with
  | zero => intro a c q; exact ⟨q, by simp [forEach]⟩
  | succ n ih =>
    intro a c q
    rw [List.range'_succ, forEach]
    cases hl : (lights a).pGeometry with
    | none =>
      rw [EvaluatePathST.inner_absent scene t a _ hl]
      refine ⟨q, ?_⟩
      rw [sum_walked_none lights a _ _ _ hl]
      simp
    | some g =>
      obtain ⟨q0, hq0⟩ := EvaluatePathST.inner_present scene t a ⟨lights, theEye, c, q⟩ g hl he
      rw [hq0]
      obtain ⟨q1, hq1⟩ := ih (a + 1)
        (c + (if stAccepts scene (lights a) (theEye t) then
            stContribution scene lights theEye a t else 0)) q0
      refine ⟨q1, ?_⟩
      simp only at hq1 ⊢
      rw [hq1, sum_walked_step lights a n _ _ (by rw [hl]; simp), add_assoc]

theorem EvaluatePathST.outer_absent (scene : Scene) (t : Nat) (st : STState)
    (h : (st.theEye t).pGeometry = none) :
    EvaluatePathST.outer scene t st = .brk st := by
  unfold EvaluatePathST.outer
  simp only [h]

/-- One pass of the outer loop at a present eye vertex: both arrays are handed
back and the colour grows by the contributions of the accepted pairs. -/
theorem EvaluatePathST.outer_present (scene : Scene) (t : Nat) (lights theEye : Vertices)
    (c : CIE_XYZ_Color) (q : List (float3_t × float3_t)) (g : Nat)
    (h : (theEye t).pGeometry = some g) :
    ∃ q1, EvaluatePathST.outer scene t ⟨lights, theEye, c, q⟩ = .cont
      ⟨lights, theEye,
        c + ∑ s in Finset.Icc 1 (scene.kMaxRandomWalkDepth - t),
          (if walked lights 1 s ∧ stAccepts scene (lights s) (theEye t) then
            stContribution scene lights theEye s t else 0), q1⟩ := by
  unfold EvaluatePathST.outer
  simp only [h]
  by_cases hs : (scene.bsdfs_ (scene.bsdf g)).What = BsdfType.MIRROR
      ∨ (scene.bsdfs_ (scene.bsdf g)).What = BsdfType.GLASS
  · rw [if_pos hs]
    refine ⟨q, ?_⟩
    have hna : ∀ s, ¬ stAccepts scene (lights s) (theEye t) := by
      intro s ha
      have := ha.2.1
      simp [Scene.connectable, h, Scene.kindOf] at this
      tauto
    simp [hna]
  · rw [if_neg hs]
    have he : scene.connectable (theEye t) = true := by
      simp [Scene.connectable, h, Scene.kindOf]; tauto
    obtain ⟨q1, hq1⟩ := EvaluatePathST.inner_loop scene t lights theEye he
      (scene.kMaxRandomWalkDepth - t) 1 c q
    refine ⟨q1, ?_⟩
    rw [hq1, add_comm 1 (scene.kMaxRandomWalkDepth - t), Nat.Ico_succ_right]

/-- The outer loop of `EvaluatePathST` over the eye vertices `a, a+1, ...`. -/
theorem EvaluatePathST.outer_loop (scene : Scene) (lights theEye : Vertices) :
    ∀ (n a : Nat) (c : CIE_XYZ_Color) (q : List (float3_t × float3_t)),
      ∃ q1, forEach (EvaluatePathST.outer scene) (List.range' a n) ⟨lights, theEye, c, q⟩
        = ⟨lights, theEye,
            c + ∑ t in Finset.Ico a (a + n),
              (if walked theEye a t ∧ True then
                ∑ s in Finset.Icc 1 (scene.kMaxRandomWalkDepth - t),
                  (if walked lights 1 s ∧ stAccepts scene (lights s) (theEye t) then
                    stContribution scene lights theEye s t else 0)
              else 0), q1⟩ := by
  intro n
  induction n with
  | zero => intro a c q; exact ⟨q, by simp [forEach]⟩
  | succ n ih =>
    intro a c q
    rw [List.range'_succ, forEach]
    cases hl : (theEye a).pGeometry with
    | none =>
      rw [EvaluatePathST.outer_absent scene a _ hl]
      refine ⟨q, ?_⟩
      rw [sum_walked_none theEye a _ _ _ hl]
      simp
    | some g =>
      obtain ⟨q0, hq0⟩ := EvaluatePathST.outer_present scene a lights theEye c q g hl
      rw [hq0]
      obtain ⟨q1, hq1⟩ := ih (a + 1)
        (c + ∑ s in Finset.Icc 1 (scene.kMaxRandomWalkDepth - a),
          (if walked lights 1 s ∧ stAccepts scene (lights s) (theEye a) then
            stContribution scene lights theEye s a else 0)) q0
      refine ⟨q1, ?_⟩
      simp only at hq1 ⊢
      rw [hq1, sum_walked_step theEye a n _ _ (by rw [hl]; simp), add_assoc]
      simp

/-- The function `EvaluatePathST` as a sum: both arrays are handed back as
they were, and the colour is the entry colour plus the summands of all pairs
in the range of the two loops. -/
theorem EvaluatePathST_sum (scene : Scene) (lights theEye : Vertices) (c : CIE_XYZ_Color) :
    ∃ q, EvaluatePathST scene lights theEye c
      = ⟨lights, theEye,
          c + ∑ t in Finset.Ico 2 scene.kMaxRandomWalkDepth,
            ∑ s in Finset.Icc 1 (scene.kMaxRandomWalkDepth - t),
              stTerm scene lights theEye s t, q⟩ := by
  obtain ⟨q1, hq1⟩ := EvaluatePathST.outer_loop scene lights theEye
    (scene.kMaxRandomWalkDepth - 2) 2 c []
  refine ⟨q1, ?_⟩
  rw [EvaluatePathST, hq1]
  have hrange : Finset.Ico 2 (2 + (scene.kMaxRandomWalkDepth - 2))
      = Finset.Ico 2 scene.kMaxRandomWalkDepth := by
    by_cases hK : 2 ≤ scene.kMaxRandomWalkDepth
    · congr 1; omega
    · rw [Finset.Ico_eq_empty (by omega), Finset.Ico_eq_empty (by omega)]
  rw [hrange]
  congr 2
  apply Finset.sum_congr rfl
  intro t _
  by_cases hw : walked theEye 2 t
  · simp [hw, stTerm]
  · simp [hw, stTerm]

/-! ## The light-to-lens evaluator, vertex by vertex -/

theorem Pixels.set_set (pixels : Pixels) (i : Nat) (d e : Nat × CIE_XYZ_Color) :
    (pixels.set i d).set i e = pixels.set i e := by
  funext j
  by_cases h : j = i
  · simp [Pixels.set, h]
  · simp [Pixels.set, h]

theorem EvaluatePathS1.body_absent (scene : Scene) (eye : PathVertex) (s : Nat)
    (st : S1State) (hl : (st.lights s).pGeometry = none) :
    EvaluatePathS1.body scene eye s st = .brk st := by
  unfold EvaluatePathS1.body
  simp only [hl]

/-- One pass of `EvaluatePathS1` at a present light vertex continues, hands
back the light array, and writes slot `s - 1` exactly when the vertex is
accepted. -/
theorem EvaluatePathS1.body_present (scene : Scene) (eye : PathVertex) (s : Nat)
    (st : S1State) (g : Nat) (hl : (st.lights s).pGeometry = some g) :
    ∃ q, EvaluatePathS1.body scene eye s st = .cont
      { lights := st.lights
        pixels :=
          if s1Accepts scene (st.lights s) eye then
            st.pixels.set (s - 1) (s1Splat scene st.lights eye s)
          else st.pixels
        queries := q } := by
  unfold EvaluatePathS1.body
  simp only [hl]
  have hconn : scene.connectable (st.lights s) = decide
      (scene.kindOf g ≠ BsdfType.MIRROR ∧ scene.kindOf g ≠ BsdfType.GLASS) := by
    simp [Scene.connectable, hl]
  by_cases h1 : (scene.bsdfs_ (scene.bsdf g)).What = BsdfType.MIRROR
      ∨ (scene.bsdfs_ (scene.bsdf g)).What = BsdfType.GLASS
  · have hna : ¬ s1Accepts scene (st.lights s) eye := by
      intro ha
      have := ha.1
      rw [hconn] at this
      simp [Scene.kindOf] at this
      tauto
    rw [if_pos h1, if_neg hna]
    exact ⟨st.queries, rfl⟩
  rw [if_neg h1]
  have hc : scene.connectable (st.lights s) = true := by
    rw [hconn]; simp [Scene.kindOf]; tauto
  by_cases h2 : -dot (scene.normalize ((st.lights s).vPosition - eye.vPosition))
      (st.lights s).vGeometricNormal ≤ 0
  · have hna : ¬ s1Accepts scene (st.lights s) eye := by
      intro ha; exact absurd ha.2.1 (not_lt.mpr h2)
    rw [if_pos h2, if_neg hna]
    exact ⟨st.queries, rfl⟩
  rw [if_neg h2]
  by_cases h3 : -dot (scene.normalize ((st.lights s).vPosition - eye.vPosition))
      (st.lights s).vShadingNormal ≤ 0
  · have hna : ¬ s1Accepts scene (st.lights s) eye := by
      intro ha; exact absurd ha.2.2.1 (not_lt.mpr h3)
    rw [if_pos h3, if_neg hna]
    exact ⟨st.queries, rfl⟩
  rw [if_neg h3]
  by_cases h4 : dot (scene.normalize ((st.lights s).vPosition - eye.vPosition))
      eye.vShadingNormal ≤ 0
  · have hna : ¬ s1Accepts scene (st.lights s) eye := by
      intro ha; exact absurd ha.2.2.2.1 (not_lt.mpr h4)
    rw [if_pos h4, if_neg hna]
    exact ⟨st.queries, rfl⟩
  rw [if_neg h4]
  cases hf : scene.camera_.GetFilmPosition ((st.lights s).vPosition - eye.vPosition) with
  | none =>
    have hna : ¬ s1Accepts scene (st.lights s) eye := by
      intro ha
      have := ha.2.2.2.2.1
      rw [hf] at this
      simp at this
    rw [if_neg hna]
    exact ⟨st.queries, rfl⟩
  | some f =>
    simp only []
    by_cases h6 : (scene.FindIntersection eye.vPosition
        (scene.normalize ((st.lights s).vPosition - eye.vPosition))).1
        ≠ some g
    · have hna : ¬ s1Accepts scene (st.lights s) eye := by
        intro ha; exact h6 (by rw [← hl]; exact ha.2.2.2.2.2)
      rw [if_pos h6, if_neg hna]
      exact ⟨st.queries ++ [(eye.vPosition,
        scene.normalize ((st.lights s).vPosition - eye.vPosition))], rfl⟩
    rw [if_neg h6]
    have hacc : s1Accepts scene (st.lights s) eye :=
      ⟨hc, not_le.mp h2, not_le.mp h3, not_le.mp h4, by rw [hf]; rfl,
        by rw [hl]; exact not_not.mp h6⟩
    rw [if_pos hacc]
    refine ⟨st.queries ++ [(eye.vPosition,
        scene.normalize ((st.lights s).vPosition - eye.vPosition))], ?_⟩
    simp only [EvaluatePathS1.weight, Vertices.pushSamplingPrev_undo,
      EvaluatePathS1.weightLoop_eq_lightsLoop,
      lightsLoop_pushed, Pixels.set_set, Pixels.set_same, s1Splat, s1PixelIndex, hf,
      s1Response, s1GeometricFactor, s1Weight, s1Direction, square_of_eq,
      fourth_power_of_eq, toSize, rcp]

/-- The loop of `EvaluatePathS1` over the light vertices `a, a+1, ...`: the
light array is handed back, and slot `k` holds the splat of vertex `k + 1` when
the loop reaches and accepts that vertex, and its old content otherwise. -/
theorem EvaluatePathS1.loop_closed (scene : Scene) (eye : PathVertex) (lights : Vertices) :
    ∀ (n a : Nat), 1 ≤ a → ∀ (px : Pixels) (q : List (float3_t × float3_t)),
      ∃ q1, forEach (EvaluatePathS1.body scene eye) (List.range' a n) ⟨lights, px, q⟩
        = ⟨lights,
            fun k =>
              if a ≤ k + 1 ∧ k + 1 < a + n ∧ walked lights a (k + 1)
                  ∧ s1Accepts scene (lights (k + 1)) eye then
                s1Splat scene lights eye (k + 1)
              else px k, q1⟩ := by
  intro n
  induction n with
  | zero =>
    intro a _ px q
    refine ⟨q, ?_⟩
    have : ∀ k, ¬ (a ≤ k + 1 ∧ k + 1 < a + 0 ∧ walked lights a (k + 1)
        ∧ s1Accepts scene (lights (k + 1)) eye) := by
      intro k h; omega
    rw [List.range'_zero, forEach]
    congr 1
    funext k
    rw [if_neg (this k)]
  | succ n ih =>
    intro a ha px q
    rw [List.range'_succ, forEach]
    cases hl : (lights a).pGeometry with
    | none =>
      rw [EvaluatePathS1.body_absent scene eye a _ hl]
      refine ⟨q, ?_⟩
      have : ∀ k, ¬ (a ≤ k + 1 ∧ k + 1 < a + (n + 1) ∧ walked lights a (k + 1)
          ∧ s1Accepts scene (lights (k + 1)) eye) := by
        intro k h
        exact walked_none lights a (k + 1) hl h.1 h.2.2.1
      simp only []
      congr 1
      funext k
      rw [if_neg (this k)]
    | some g =>
      obtain ⟨q0, hq0⟩ := EvaluatePathS1.body_present scene eye a ⟨lights, px, q⟩ g hl
      rw [hq0]
      obtain ⟨q1, hq1⟩ := ih (a + 1) (by omega)
        (if s1Accepts scene (lights a) eye then
            px.set (a - 1) (s1Splat scene lights eye a) else px) q0
      refine ⟨q1, ?_⟩
      simp only at hq1 ⊢
      rw [hq1]
      congr 1
      funext k
      have hpres : (lights a).pGeometry ≠ none := by rw [hl]; simp
      rcases Nat.lt_trichotomy (k + 1) a with hlt | heq | hgt
      · have c1 : ¬ (a + 1 ≤ k + 1 ∧ k + 1 < a + 1 + n ∧ walked lights (a + 1) (k + 1)
            ∧ s1Accepts scene (lights (k + 1)) eye) := by intro h; omega
        have c2 : ¬ (a ≤ k + 1 ∧ k + 1 < a + (n + 1) ∧ walked lights a (k + 1)
            ∧ s1Accepts scene (lights (k + 1)) eye) := by intro h; omega
        rw [if_neg c1, if_neg c2]
        by_cases hacc : s1Accepts scene (lights a) eye
        · rw [if_pos hacc, Pixels.set_other _ _ _ _ (by omega)]
        · rw [if_neg hacc]
      · have c1 : ¬ (a + 1 ≤ k + 1 ∧ k + 1 < a + 1 + n ∧ walked lights (a + 1) (k + 1)
            ∧ s1Accepts scene (lights (k + 1)) eye) := by intro h; omega
        rw [if_neg c1]
        have hk : k = a - 1 := by omega
        by_cases hacc : s1Accepts scene (lights a) eye
        · have c2 : a ≤ k + 1 ∧ k + 1 < a + (n + 1) ∧ walked lights a (k + 1)
              ∧ s1Accepts scene (lights (k + 1)) eye := by
            rw [heq]
            exact ⟨le_refl a, by omega, (walked_self lights a).mpr hpres, hacc⟩
          rw [if_pos c2, if_pos hacc, hk, Pixels.set_same]
          congr 1
          omega
        · have c2 : ¬ (a ≤ k + 1 ∧ k + 1 < a + (n + 1) ∧ walked lights a (k + 1)
              ∧ s1Accepts scene (lights (k + 1)) eye) := by
            rw [heq]; intro h; exact hacc h.2.2.2
          rw [if_neg c2, if_neg hacc]
      · have hw := walked_succ lights a (k + 1) hpres (by omega)
        have hpx : (if s1Accepts scene (lights a) eye then
            px.set (a - 1) (s1Splat scene lights eye a) else px) k = px k := by
          by_cases hacc : s1Accepts scene (lights a) eye
          · rw [if_pos hacc, Pixels.set_other _ _ _ _ (by omega)]
          · rw [if_neg hacc]
        rw [hpx]
        by_cases c1 : (a + 1 ≤ k + 1 ∧ k + 1 < a + 1 + n ∧ walked lights (a + 1) (k + 1)
            ∧ s1Accepts scene (lights (k + 1)) eye)
        · have c2 : a ≤ k + 1 ∧ k + 1 < a + (n + 1) ∧ walked lights a (k + 1)
              ∧ s1Accepts scene (lights (k + 1)) eye :=
            ⟨by omega, by omega, hw.mpr c1.2.2.1, c1.2.2.2⟩
          rw [if_pos c1, if_pos c2]
        · have c2 : ¬ (a ≤ k + 1 ∧ k + 1 < a + (n + 1) ∧ walked lights a (k + 1)
              ∧ s1Accepts scene (lights (k + 1)) eye) := by
            intro h
            exact c1 ⟨by omega, by omega, hw.mp h.2.2.1, h.2.2.2⟩
          rw [if_neg c1, if_neg c2]

/-- The function `EvaluatePathS1` slot by slot: the light array is handed back
as it was; slot `k` holds the splat of light vertex `k + 1` when that vertex is
in the range of the loop, reached and accepted, and is left alone otherwise. -/
theorem EvaluatePathS1_slots (scene : Scene) (lights : Vertices) (eye : PathVertex)
    (px : Pixels) :
    ∃ q, EvaluatePathS1 scene lights eye px
      = ⟨lights,
          fun k =>
            if 2 ≤ k + 1 ∧ k + 1 < scene.kMaxRandomWalkDepth ∧ walked lights 2 (k + 1)
                ∧ s1Accepts scene (lights (k + 1)) eye then
              s1Splat scene lights eye (k + 1)
            else px k, q⟩ := by
  obtain ⟨q1, hq1⟩ := EvaluatePathS1.loop_closed scene eye lights
    (scene.kMaxRandomWalkDepth - 2) 2 (by omega) px []
  refine ⟨q1, ?_⟩
  rw [EvaluatePathS1, hq1]
  congr 1
  funext k
  have hiff : (2 ≤ k + 1 ∧ k + 1 < 2 + (scene.kMaxRandomWalkDepth - 2))
      ↔ (2 ≤ k + 1 ∧ k + 1 < scene.kMaxRandomWalkDepth) := by omega
  by_cases c : 2 ≤ k + 1 ∧ k + 1 < scene.kMaxRandomWalkDepth
  · have c1 := hiff.mpr c
    simp [c.1, c.2, c1.2]
  · have c1 : ¬ (2 ≤ k + 1 ∧ k + 1 < 2 + (scene.kMaxRandomWalkDepth - 2)) :=
      fun h => c (hiff.mp h)
    have e1 : ¬ (2 ≤ k + 1 ∧ k + 1 < scene.kMaxRandomWalkDepth ∧ walked lights 2 (k + 1)
        ∧ s1Accepts scene (lights (k + 1)) eye) := fun h => c ⟨h.1, h.2.1⟩
    have e2 : ¬ (2 ≤ k + 1 ∧ k + 1 < 2 + (scene.kMaxRandomWalkDepth - 2)
        ∧ walked lights 2 (k + 1) ∧ s1Accepts scene (lights (k + 1)) eye) :=
      fun h => c1 ⟨h.1, h.2.1⟩
    rw [if_neg e1, if_neg e2]

/-! ## The random walks, pass by pass -/

/-- Two assignments leave every other index alone. -/
theorem Vertices.set_other2 (vertices : Vertices) (i j k : Nat) (v w : PathVertex)
    (h1 : k ≠ i) (h2 : k ≠ j) : (vertices.set i v).set j w k = vertices k := by
  simp [Vertices.set, h1, h2]

/-- Footprint of one pass of `BuildLightsPath`: a pass that returns touches only
the vertices `s + 1` and `s + 2`, the latter only to clear its geometry
reference, and leaves through the depth cap only when `s + 1` reached the cap;
a pass that goes on touches only vertex `s + 1` and stays below the cap. -/
theorem BuildLightsPath.lights_footprint (scene : Scene) (s : Nat) (vertices : Vertices)
    (sample : IPrimarySample) :
    (∀ r, BuildLightsPath.body scene s vertices sample = .stop r →
      (∀ i, i ≠ s + 1 → i ≠ s + 2 → r.vertices i = vertices i)
      ∧ (r.vertices (s + 2) = vertices (s + 2)
        ∨ r.vertices (s + 2) = { vertices (s + 2) with pGeometry := none })
      ∧ (r.exit = WalkExit.depthCap →
          scene.kMaxRandomWalkDepth ≤ s + 1 ∧ (r.vertices (s + 2)).pGeometry = none))
    ∧ (∀ st, BuildLightsPath.body scene s vertices sample = .next st →
      s + 1 < scene.kMaxRandomWalkDepth ∧ ∀ i, i ≠ s + 1 → st.1 i = vertices i) := by
  unfold BuildLightsPath.body
  simp only []
  cases hhit : (scene.FindIntersection (vertices s).vPosition
      (vertices s).vOutgoingDirection).1 with
  | none =>
    simp only []
    refine ⟨?_, ?_⟩
    · intro r hr
      cases hr
      refine ⟨?_, ?_, ?_⟩
      · intro i h1 _; exact Vertices.set_ne _ _ _ _ h1
      · left; exact Vertices.set_ne _ _ _ _ (by omega)
      · intro h; cases h
    · intro st hst; cases hst
  | some g =>
    simp only []
    split_ifs with h1 h2 h3 h4
    · refine ⟨?_, ?_⟩
      · intro r hr
        cases hr
        refine ⟨?_, ?_, ?_⟩
        · intro i h1 _; exact Vertices.set_ne _ _ _ _ h1
        · left; exact Vertices.set_ne _ _ _ _ (by omega)
        · intro h; cases h
      · intro st hst; cases hst
    · refine ⟨?_, ?_⟩
      · intro r hr
        cases hr
        refine ⟨?_, ?_, ?_⟩
        · intro i h1 _; exact Vertices.set_ne _ _ _ _ h1
        · left; exact Vertices.set_ne _ _ _ _ (by omega)
        · intro h; cases h
      · intro st hst; cases hst
    · refine ⟨?_, ?_⟩
      · intro r hr
        cases hr
        refine ⟨?_, ?_, ?_⟩
        · intro i h1 h2; exact Vertices.set_other2 _ _ _ _ _ _ h1 h2
        · right
          simp only [Vertices.set_self]
          rw [Vertices.set_ne _ _ _ _ (by omega)]
        · intro _
          exact ⟨h3, by simp only [Vertices.set_self]⟩
      · intro st hst; cases hst
    · refine ⟨?_, ?_⟩
      · intro r hr; cases hr
      · intro st hst
        cases hst
        refine ⟨by omega, ?_⟩
        intro i hi
        exact Vertices.set_other2 _ _ _ _ _ _ hi hi
    · refine ⟨?_, ?_⟩
      · intro r hr
        cases hr
        refine ⟨?_, ?_, ?_⟩
        · intro i h1 h2
          simp only [Vertices.set, if_neg h1, if_neg h2]
        · right
          have e : s + 2 ≠ s + 1 := by omega
          simp only [Vertices.set, if_neg e, if_true]
        · intro h; cases h
      · intro st hst; cases hst

/-- The loop of `BuildLightsPath` entered below the cap returns, stores no
geometry reference beyond the cap, and clears vertex `K + 1` when it leaves
through the cap. -/
theorem BuildLightsPath.lights_loop_cap (scene : Scene) :
    ∀ (fuel s : Nat) (vertices : Vertices) (sample : IPrimarySample),
      s < scene.kMaxRandomWalkDepth → scene.kMaxRandomWalkDepth - s ≤ fuel →
      ∃ r, BuildLightsPath.loop scene fuel s vertices sample = some r
        ∧ (∀ i, scene.kMaxRandomWalkDepth < i →
            r.vertices i = vertices i
            ∨ r.vertices i = { vertices i with pGeometry := none })
        ∧ (r.exit = WalkExit.depthCap →
            (r.vertices (scene.kMaxRandomWalkDepth + 1)).pGeometry = none) := by
  intro fuel
  induction fuel with
  | zero => intro s vertices sample hs hf; omega
  | succ fuel ih =>
    intro s vertices sample hs hf
    rw [BuildLightsPath.loop]
    have hfoot := BuildLightsPath.lights_footprint scene s vertices sample
    cases hb : BuildLightsPath.body scene s vertices sample with
    | stop r =>
      obtain ⟨h1, h2, h3⟩ := hfoot.1 r hb
      refine ⟨r, rfl, ?_, ?_⟩
      · intro i hi
        by_cases h : i = s + 2
        · subst h; exact h2
        · left; exact h1 i (by omega) h
      · intro hexit
        obtain ⟨hk, hnone⟩ := h3 hexit
        have e : scene.kMaxRandomWalkDepth + 1 = s + 2 := by omega
        rw [e]; exact hnone
    | next st =>
      obtain ⟨h1, h2⟩ := hfoot.2 st hb
      obtain ⟨r, hr, hr1, hr2⟩ := ih (s + 1) st.1 st.2 h1 (by omega)
      refine ⟨r, hr, ?_, hr2⟩
      intro i hi
      have e : st.1 i = vertices i := h2 i (by omega)
      rw [← e]
      exact hr1 i hi

/-- The weight computation of the direct-hit branch touches only vertex
`t + 1`. -/
theorem BuildTheEyePath.directWeight_other (scene : Scene) (t : Nat) (vertices : Vertices)
    (i : Nat) (h : i ≠ t + 1) :
    (BuildTheEyePath.directWeight scene t vertices).1 i = vertices i := by
  unfold BuildTheEyePath.directWeight
  split_ifs
  · simp only [Vertices.set, if_neg h]
  · rfl

/-- The direct-hit branch keeps the geometry reference and the power of vertex
`t + 1`. -/
theorem BuildTheEyePath.directWeight_same (scene : Scene) (t : Nat) (vertices : Vertices) :
    ((BuildTheEyePath.directWeight scene t vertices).1 (t + 1)).pGeometry
        = (vertices (t + 1)).pGeometry
    ∧ ((BuildTheEyePath.directWeight scene t vertices).1 (t + 1)).power
        = (vertices (t + 1)).power := by
  unfold BuildTheEyePath.directWeight
  split_ifs
  · simp only [Vertices.set, if_true, and_self]
  · exact ⟨rfl, rfl⟩

/-- Footprint of one pass of `BuildTheEyePath`: a pass that returns touches
only the vertices `t + 1` and `t + 2`, the latter only to clear its geometry
reference, and leaves through the depth cap only when `t + 1` reached the cap;
a pass that goes on touches only vertex `t + 1` and stays below the cap. -/
theorem BuildTheEyePath.theEye_footprint (scene : Scene) (lightV : PathVertex) (t : Nat)
    (vertices : Vertices) (colour : CIE_XYZ_Color) (sample : IPrimarySample) :
    (∀ r, BuildTheEyePath.body scene lightV t vertices colour sample = .stop r →
      (∀ i, i ≠ t + 1 → i ≠ t + 2 → r.vertices i = vertices i)
      ∧ (r.vertices (t + 2) = vertices (t + 2)
        ∨ r.vertices (t + 2) = { vertices (t + 2) with pGeometry := none })
      ∧ (r.exit = WalkExit.depthCap →
          scene.kMaxRandomWalkDepth ≤ t + 1 ∧ (r.vertices (t + 2)).pGeometry = none))
    ∧ (∀ st, BuildTheEyePath.body scene lightV t vertices colour sample = .next st →
      t + 1 < scene.kMaxRandomWalkDepth ∧ ∀ i, i ≠ t + 1 → st.1 i = vertices i) := by
  unfold BuildTheEyePath.body
  simp only []
  have e : t + 2 ≠ t + 1 := by omega
  cases hhit : (scene.FindIntersection (vertices t).vPosition
      (vertices t).vIncomingDirection).1 with
  | none =>
    simp only []
    refine ⟨?_, ?_⟩
    · intro r hr
      cases hr
      refine ⟨?_, ?_, ?_⟩
      · intro i h1 _; exact Vertices.set_ne _ _ _ _ h1
      · left; exact Vertices.set_ne _ _ _ _ e
      · intro h; cases h
    · intro st hst; cases hst
  | some g =>
    simp only []
    split_ifs with h1 h2 h3 h4 h5
    · refine ⟨?_, ?_⟩
      · intro r hr
        cases hr
        refine ⟨?_, ?_, ?_⟩
        · intro i h1 _; exact Vertices.set_ne _ _ _ _ h1
        · left; exact Vertices.set_ne _ _ _ _ e
        · intro h; cases h
      · intro st hst; cases hst
    · refine ⟨?_, ?_⟩
      · intro r hr
        cases hr
        refine ⟨?_, ?_, ?_⟩
        · intro i h1 _
          simp only [BuildTheEyePath.directHit]
          rw [Vertices.set_ne _ _ _ _ h1, BuildTheEyePath.directWeight_other _ _ _ _ h1,
            Vertices.set_ne _ _ _ _ h1]
        · left
          simp only [BuildTheEyePath.directHit]
          rw [Vertices.set_ne _ _ _ _ e, BuildTheEyePath.directWeight_other _ _ _ _ e,
            Vertices.set_ne _ _ _ _ e]
        · intro h; cases h
      · intro st hst; cases hst
    · refine ⟨?_, ?_⟩
      · intro r hr
        cases hr
        refine ⟨?_, ?_, ?_⟩
        · intro i h1 _
          simp only [Vertices.set, if_neg h1]
        · left
          simp only [Vertices.set, if_neg e]
        · intro h; cases h
      · intro st hst; cases hst
    · refine ⟨?_, ?_⟩
      · intro r hr
        cases hr
        refine ⟨?_, ?_, ?_⟩
        · intro i h1 h2; exact Vertices.set_other2 _ _ _ _ _ _ h1 h2
        · right
          simp only [Vertices.set_self]
          rw [Vertices.set_ne _ _ _ _ e]
        · intro _
          exact ⟨h4, by simp only [Vertices.set_self]⟩
      · intro st hst; cases hst
    · refine ⟨?_, ?_⟩
      · intro r hr; cases hr
      · intro st hst
        cases hst
        refine ⟨by omega, ?_⟩
        intro i hi
        exact Vertices.set_other2 _ _ _ _ _ _ hi hi
    · refine ⟨?_, ?_⟩
      · intro r hr
        cases hr
        refine ⟨?_, ?_, ?_⟩
        · intro i h1 h2
          simp only [Vertices.set, if_neg h1, if_neg h2]
        · right
          simp only [Vertices.set, if_neg e, if_true]
        · intro h; cases h
      · intro st hst; cases hst

/-- The loop of `BuildTheEyePath` entered below the cap returns, stores no
geometry reference beyond the cap, and clears vertex `K + 1` when it leaves
through the cap. -/
theorem BuildTheEyePath.theEye_loop_cap (scene : Scene) (lightV : PathVertex)
    (colour : CIE_XYZ_Color) :
    ∀ (fuel t : Nat) (vertices : Vertices) (sample : IPrimarySample),
      t < scene.kMaxRandomWalkDepth → scene.kMaxRandomWalkDepth - t ≤ fuel →
      ∃ r, BuildTheEyePath.loop scene lightV colour fuel t vertices sample = some r
        ∧ (∀ i, scene.kMaxRandomWalkDepth < i →
            r.vertices i = vertices i
            ∨ r.vertices i = { vertices i with pGeometry := none })
        ∧ (r.exit = WalkExit.depthCap →
            (r.vertices (scene.kMaxRandomWalkDepth + 1)).pGeometry = none) := by
  intro fuel
  induction fuel with
  | zero => intro t vertices sample hs hf; omega
  | succ fuel ih =>
    intro t vertices sample hs hf
    rw [BuildTheEyePath.loop]
    have hfoot := BuildTheEyePath.theEye_footprint scene lightV t vertices colour sample
    cases hb : BuildTheEyePath.body scene lightV t vertices colour sample with
    | stop r =>
      obtain ⟨h1, h2, h3⟩ := hfoot.1 r hb
      refine ⟨r, rfl, ?_, ?_⟩
      · intro i hi
        by_cases h : i = t + 2
        · subst h; exact h2
        · left; exact h1 i (by omega) h
      · intro hexit
        obtain ⟨hk, hnone⟩ := h3 hexit
        have e : scene.kMaxRandomWalkDepth + 1 = t + 2 := by omega
        rw [e]; exact hnone
    | next st =>
      obtain ⟨h1, h2⟩ := hfoot.2 st hb
      obtain ⟨r, hr, hr1, hr2⟩ := ih (t + 1) st.1 st.2 h1 (by omega)
      refine ⟨r, hr, ?_, hr2⟩
      intro i hi
      have e : st.1 i = vertices i := h2 i (by omega)
      rw [← e]
      exact hr1 i hi

theorem BuildLightsPath.emit_other (scene : Scene) (vertices : Vertices)
    (sample : IPrimarySample) (i : Nat) (h0 : i ≠ 0) (h1 : i ≠ 1) :
    (BuildLightsPath.emit scene vertices sample).1 i = vertices i := by
  simp only [BuildLightsPath.emit, Vertices.set, if_neg h0, if_neg h1]

theorem BuildTheEyePath.primary_other (scene : Scene) (x y : ℚ) (vertices : Vertices)
    (i : Nat) (h1 : i ≠ 1) :
    (BuildTheEyePath.primary scene x y vertices) i = vertices i := by
  simp only [BuildTheEyePath.primary, Vertices.set, if_neg h1]

/-- A pass of the inner loop of `EvaluatePathST` whose occlusion ray does not
return the surface of the eye vertex leaves the colour alone. -/
theorem EvaluatePathST.inner_occluded (scene : Scene) (t s : Nat) (st : STState)
    (h : (scene.FindIntersection (st.lights s).vPosition
        (stDirection scene (st.lights s) (st.theEye t))).1 ≠ (st.theEye t).pGeometry) :
    (EvaluatePathST.inner scene t s st).state.colour = st.colour := by
  unfold EvaluatePathST.inner
  simp only []
  cases hl : (st.lights s).pGeometry with
  | none => rfl
  | some g =>
    simp only []
    split_ifs with h1 h2 h3 h4 h5 h6
    · rfl
    · rfl
    · rfl
    · rfl
    · rfl
    · rfl
    · exact absurd (not_not.mp h6) h

/-- A `single_stack` that pushes the value already stored changes nothing. -/
theorem Vertices.pushSamplingNext_id (vertices : Vertices) (i : Nat) (v : ℚ)
    (h : (vertices i).fSamplingNext = v) : vertices.pushSamplingNext i v = vertices := by
  funext j
  by_cases hj : j = i
  · subst hj
    simp only [Vertices.pushSamplingNext, Vertices.set_self]
    rw [← h]
  · simp [Vertices.pushSamplingNext, Vertices.set, hj]

/-- The running ratio `Q_i` reads no vertex of index above `t`. -/
theorem theEyeRatio_congr (a b : Vertices) (last : ℚ) (t i : Nat) (hi : 1 ≤ i)
    (h : ∀ j, j ≤ t → a j = b j) : theEyeRatio a last t i = theEyeRatio b last t i := by
  unfold theEyeRatio
  apply Finset.prod_congr rfl
  intro k hk
  rw [Finset.mem_Icc] at hk
  rw [h (k - 1) (by omega)]
  by_cases hkt : k = t
  · simp [hkt]
  · rw [if_neg hkt, if_neg hkt, h (k + 1) (by omega)]

/-- The eye-side sum reads no vertex of index above `t`. -/
theorem theEyeTerms_congr (a b : Vertices) (last G : ℚ) (t : Nat)
    (h : ∀ j, j ≤ t → a j = b j) : theEyeTerms a last G t = theEyeTerms b last G t := by
  unfold theEyeTerms
  rw [Finset.sum_filter, Finset.sum_filter]
  apply Finset.sum_congr rfl
  intro i hi
  rw [Finset.mem_Icc] at hi
  rw [h i hi.2, h (i - 1) (by omega), theEyeRatio_congr a b last t i (by omega) h]

theorem directTerms_eq (theEye : Vertices) (last : ℚ) (t : Nat) :
    directTerms theEye last t = theEyeTerms theEye last 1 t := by
  unfold directTerms theEyeTerms
  simp

/-- The weight loop of the direct-hit branch over an array `w` that holds `last`
in `fSamplingNext(t+1)` and agrees with `vertices` up to index `t`. -/
theorem BuildTheEyePath.weightLoop_closed (w vertices : Vertices) (t : Nat) (last : ℚ)
    (hnext : (w (t + 1)).fSamplingNext = last) (hsame : ∀ j, j ≤ t → w j = vertices j) :
    rcp (BuildTheEyePath.weightLoop w (t - 1) (1, 1)).2
      = 1 / (1 + directTerms vertices last t) := by
  rw [BuildTheEyePath.weightLoop_eq_theEyeLoop, ← Vertices.pushSamplingNext_id w (t + 1) last hnext,
    theEyeLoop_pushed, directTerms_eq, rcp, theEyeTerms_congr w vertices last 1 t hsame]

/-- The weight of the direct-hit branch in closed form: `1` up to `t = 2`, and
`1 / (1 + sum)` beyond. -/
theorem BuildTheEyePath.directWeight_closed (scene : Scene) (t : Nat) (vertices : Vertices) :
    (BuildTheEyePath.directWeight scene t vertices).2
      = if t > 2 then 1 / (1 + directTerms vertices scene.M_1_PI t) else 1 := by
  unfold BuildTheEyePath.directWeight
  split_ifs with h
  · simp only []
    apply BuildTheEyePath.weightLoop_closed
    · simp only [Vertices.set_self]
    · intro j hj
      have e : j ≠ t + 1 := by omega
      simp only [Vertices.set, if_neg e]
  · rfl

/-! ## The claims -/

/-- C3 (specular exclusion).  A pass of `EvaluatePathS1` for a light vertex on
a MIRROR or GLASS surface, a pass of the inner loop of `EvaluatePathST` for
such a light vertex, and a pass of its outer loop for such an eye vertex all
continue with the state exactly as it was: no visibility query is recorded, and
neither the pixel colour, nor any output slot, nor any vertex is changed; for
a specular eye vertex the inner loop is not entered at all. -/
theorem C3_specular_exclusion (scene : Scene) :
    (∀ (eye : PathVertex) (s : Nat) (st : S1State) (g : Nat),
      (st.lights s).pGeometry = some g →
      (scene.kindOf g = BsdfType.MIRROR ∨ scene.kindOf g = BsdfType.GLASS) →
      EvaluatePathS1.body scene eye s st = .cont st)
    ∧ (∀ (t s : Nat) (st : STState) (g : Nat),
      (st.lights s).pGeometry = some g →
      (scene.kindOf g = BsdfType.MIRROR ∨ scene.kindOf g = BsdfType.GLASS) →
      EvaluatePathST.inner scene t s st = .cont st)
    ∧ (∀ (t : Nat) (st : STState) (g : Nat),
      (st.theEye t).pGeometry = some g →
      (scene.kindOf g = BsdfType.MIRROR ∨ scene.kindOf g = BsdfType.GLASS) →
      EvaluatePathST.outer scene t st = .cont st) := by
  refine ⟨?_, ?_, ?_⟩
  · intro eye s st g hl hk
    unfold EvaluatePathS1.body
    simp only [hl]
    exact if_pos hk
  · intro t s st g hl hk
    unfold EvaluatePathST.inner
    simp only [hl]
    exact if_pos hk
  · intro t st g hl hk
    unfold EvaluatePathST.outer
    simp only [hl]
    exact if_pos hk

/-- C5 (depth cap).  With `K = kMaxRandomWalkDepth >= 2`, `BuildLightsPath` and
`BuildTheEyePath` return, every vertex of index greater than `K` is on return
either untouched or differs from its entry value only in a cleared geometry
reference, and when the walk was stopped by the depth cap the vertex of index
`K + 1` is `none`. -/
theorem C5_depth_cap (scene : Scene) (hK : 2 ≤ scene.kMaxRandomWalkDepth)
    (lightsPathVertices theEyePathVertices : Vertices) (sample : IPrimarySample)
    (x y : ℚ) (theLightsPathVertex : PathVertex) (pColor : CIE_XYZ_Color) :
    (∃ r, BuildLightsPath scene lightsPathVertices sample = some r
      ∧ (∀ i, scene.kMaxRandomWalkDepth < i →
          r.vertices i = lightsPathVertices i
          ∨ r.vertices i = { lightsPathVertices i with pGeometry := none })
      ∧ (r.exit = WalkExit.depthCap →
          (r.vertices (scene.kMaxRandomWalkDepth + 1)).pGeometry = none))
    ∧ (∃ r, BuildTheEyePath scene x y theLightsPathVertex theEyePathVertices pColor sample
        = some r
      ∧ (∀ i, scene.kMaxRandomWalkDepth < i →
          r.vertices i = theEyePathVertices i
          ∨ r.vertices i = { theEyePathVertices i with pGeometry := none })
      ∧ (r.exit = WalkExit.depthCap →
          (r.vertices (scene.kMaxRandomWalkDepth + 1)).pGeometry = none)) := by
  constructor
  · unfold BuildLightsPath
    split_ifs with h1
    · exact ⟨_, rfl, fun i _ => Or.inl rfl, fun h => by cases h⟩
    · obtain ⟨r, hr, hr1, hr2⟩ := BuildLightsPath.lights_loop_cap scene
        (scene.kMaxRandomWalkDepth + 1) 1
        (BuildLightsPath.emit scene lightsPathVertices sample).1
        (BuildLightsPath.emit scene lightsPathVertices sample).2 (by omega) (by omega)
      refine ⟨r, hr, ?_, hr2⟩
      intro i hi
      rw [← BuildLightsPath.emit_other scene lightsPathVertices sample i (by omega) (by omega)]
      exact hr1 i hi
  · unfold BuildTheEyePath
    obtain ⟨r, hr, hr1, hr2⟩ := BuildTheEyePath.theEye_loop_cap scene theLightsPathVertex pColor
      (scene.kMaxRandomWalkDepth + 1) 1
      (BuildTheEyePath.primary scene x y theEyePathVertices) sample (by omega) (by omega)
    refine ⟨r, hr, ?_, hr2⟩
    intro i hi
    rw [← BuildTheEyePath.primary_other scene x y theEyePathVertices i (by omega)]
    exact hr1 i hi

/-- C5 at the small scene with depth `2`: both walks are stopped by the depth
cap there. -/
theorem C5_depth_cap_witness :
    2 ≤ demoShallow.kMaxRandomWalkDepth
    ∧ (BuildLightsPath demoShallow demoLightsSeed demoSample).map (fun r => r.exit)
        = some WalkExit.depthCap
    ∧ (BuildTheEyePath demoShallow 0 0 (demoLightsSeed 1) demoTheEyeSeed 0 demoSample).map
        (fun r => r.exit) = some WalkExit.depthCap
    ∧ ((∃ r, BuildLightsPath demoShallow demoLightsSeed demoSample = some r
        ∧ (∀ i, demoShallow.kMaxRandomWalkDepth < i →
            r.vertices i = demoLightsSeed i
            ∨ r.vertices i = { demoLightsSeed i with pGeometry := none })
        ∧ (r.exit = WalkExit.depthCap →
            (r.vertices (demoShallow.kMaxRandomWalkDepth + 1)).pGeometry = none))
      ∧ (∃ r, BuildTheEyePath demoShallow 0 0 (demoLightsSeed 1) demoTheEyeSeed 0 demoSample
          = some r
        ∧ (∀ i, demoShallow.kMaxRandomWalkDepth < i →
            r.vertices i = demoTheEyeSeed i
            ∨ r.vertices i = { demoTheEyeSeed i with pGeometry := none })
        ∧ (r.exit = WalkExit.depthCap →
            (r.vertices (demoShallow.kMaxRandomWalkDepth + 1)).pGeometry = none))) :=
  ⟨by decide, by decide!, by decide!,
    C5_depth_cap demoShallow (by decide) demoLightsSeed demoTheEyeSeed demoSample 0 0
      (demoLightsSeed 1) 0⟩

/-- C6 (visibility rejection).  In `EvaluatePathST`, the pass for a pair
`(s, t)` whose occlusion ray from the light vertex toward the eye vertex returns
anything but the surface of the eye vertex (another surface, or none) leaves the
pixel colour as it was, and the summand of that pair is zero; in
`EvaluatePathS1`, a light vertex `s` whose visibility ray from the lens returns
anything but the surface of the vertex leaves output slot `s - 1` as it was on
entry. -/
theorem C6_visibility_rejection (scene : Scene) :
    (∀ (t s : Nat) (st : STState),
      (scene.FindIntersection (st.lights s).vPosition
        (stDirection scene (st.lights s) (st.theEye t))).1 ≠ (st.theEye t).pGeometry →
      (EvaluatePathST.inner scene t s st).state.colour = st.colour
      ∧ stTerm scene st.lights st.theEye s t = 0)
    ∧ (∀ (lights : Vertices) (eye : PathVertex) (px : Pixels) (s : Nat),
      (scene.FindIntersection eye.vPosition (s1Direction scene (lights s) eye)).1
        ≠ (lights s).pGeometry →
      (EvaluatePathS1 scene lights eye px).pixels (s - 1) = px (s - 1)) := by
  constructor
  · intro t s st h
    refine ⟨EvaluatePathST.inner_occluded scene t s st h, ?_⟩
    unfold stTerm
    rw [if_neg]
    intro hacc
    exact h hacc.2.2.2.2.2.2.2.2
  · intro lights eye px s h
    obtain ⟨q, hq⟩ := EvaluatePathS1_slots scene lights eye px
    rw [hq]
    simp only []
    rw [if_neg]
    intro hacc
    rcases Nat.eq_zero_or_pos s with h0 | hpos
    · subst h0; omega
    · have e : s - 1 + 1 = s := by omega
      rw [e] at hacc
      exact h hacc.2.2.2.2.2.2.2.2

/-- C7 (general weight).  With `hi::single_stack(ref, v)` read as "`ref` holds
`v` inside the enclosing block", the weight `wst` that `EvaluatePathST` computes
for a pair `(s, t)` with connection geometric factor `G` is `1 / (1 + A + B)`:
`A` the sum over `i = s..1` with neither light vertex `i` nor `i-1` specular of
`(P_i * G / G_light(i))^2`, `B` the sum over `i = t..2` with neither eye vertex
`i` nor `i-1` specular of `(Q_i * G / G_eye(i))^2`, the running ratios `P_i` and
`Q_i` being full products (steps with an omitted term included) in which the
density just past the connection is replaced by `M_1_PI`. -/
theorem C7_general_weight (scene : Scene) (lights theEye : Vertices) (s t : Nat) (G : ℚ) :
    (EvaluatePathST.weight scene lights theEye s t G).2.2
      = 1 / (1 + lightsTerms lights scene.M_1_PI G s + theEyeTerms theEye scene.M_1_PI G t) := by
  rw [EvaluatePathST.weight_closed]

theorem directTerms_congr (a b : Vertices) (last : ℚ) (t : Nat)
    (h : ∀ j, j ≤ t → a j = b j) : directTerms a last t = directTerms b last t := by
  rw [directTerms_eq, directTerms_eq, theEyeTerms_congr a b last 1 t h]

/-- What the pass of `BuildTheEyePath` computes when the ray from eye vertex
`t` hits a LIGHT surface with positive shading cosine: it returns with vertex
`t + 1` cleared; a hit on the back side leaves the colour alone, and for `t`
other than `2` a hit on the front side adds
`lightPower * eyePower(t+1) * M_1_PI * (1/lightArea) * w`, where `w` is the
value the recurrence of source lines 346 to 358 yields,
`1 / (1 + sum over i = t..2, neither eye vertex i nor i-1 specular, of
(Q_i / G_eye(i))^2)` with `M_1_PI` for `fSamplingNext(t+1)` in `Q_i`.  The case
`t = 2`, where the guard `t > 2` skips the recurrence, is left out. -/
theorem BuildTheEyePath.hitLight_closed (scene : Scene) (theLightsPathVertex : PathVertex) (t : Nat)
    (vertices : Vertices) (colour : CIE_XYZ_Color) (sample : IPrimarySample) (g : Nat)
    (ht : t ≠ 2 ∨ (scene.FindIntersection (vertices t).vPosition
        (vertices t).vIncomingDirection).2.is_back_side = true)
    (hhit : (scene.FindIntersection (vertices t).vPosition
        (vertices t).vIncomingDirection).1 = some g)
    (hkind : scene.kindOf g = BsdfType.LIGHT)
    (hcos : 0 < dot (-(vertices t).vIncomingDirection)
        (scene.FindIntersection (vertices t).vPosition
          (vertices t).vIncomingDirection).2.vShadingNormal) :
    ∃ r, BuildTheEyePath.body scene theLightsPathVertex t vertices colour sample = .stop r
      ∧ r.exit = WalkExit.hitLight
      ∧ (r.vertices (t + 1)).pGeometry = none
      ∧ r.colour =
          if (scene.FindIntersection (vertices t).vPosition
              (vertices t).vIncomingDirection).2.is_back_side = true then colour
          else colour + theLightsPathVertex.power
            * ((vertices t).power * (vertices t).fBSDFxIPDF)
            * (scene.M_1_PI * (1 / scene.GetLightArea)
              * (1 / (1 + directTerms vertices scene.M_1_PI t))) := by
  unfold BuildTheEyePath.body
  simp only [hhit, PathVertex.SetShadingBasis]
  unfold Scene.kindOf at hkind
  rw [if_neg (not_le.mpr hcos), if_pos hkind]
  refine ⟨_, rfl, rfl, ?_, ?_⟩
  · simp only [Vertices.set_self]
  · by_cases hb : (scene.FindIntersection (vertices t).vPosition
        (vertices t).vIncomingDirection).2.is_back_side = true
    · simp only [hb, if_true, Bool.not_true]
      rfl
    · have hb2 : (scene.FindIntersection (vertices t).vPosition
          (vertices t).vIncomingDirection).2.is_back_side = false := by
        simpa using hb
      have ht2 : t ≠ 2 := by
        rcases ht with h | h
        · exact h
        · exact absurd h hb
      simp only [hb2, Bool.not_false, if_true, BuildTheEyePath.directHit,
        BuildTheEyePath.directWeight_closed]
      rw [(BuildTheEyePath.directWeight_same scene t _).2]
      simp only [Vertices.set_self]
      rw [directTerms_congr _ vertices scene.M_1_PI t
        (fun j hj => Vertices.set_ne _ _ _ _ (by omega))]
      simp only [Bool.false_eq_true, if_false]
      by_cases h3 : t > 2
      · rw [if_pos h3, rcp]
        congr 2
        ring
      · have hempty : directTerms vertices scene.M_1_PI t = 0 := by
          unfold directTerms
          rw [Finset.Icc_eq_empty (by omega)]
          simp
        rw [if_neg h3, hempty, rcp]
        congr 2
        ring

/-- The light-hit pass at the small scene, for a direct hit from eye vertex
`3`. -/
theorem BuildTheEyePath.hitLight_closed_small_scene :
    ((3 : Nat) ≠ 2 ∨ (theEyeRay demoScene demoLongTheEye 3).2.is_back_side = true)
    ∧ (theEyeRay demoScene demoLongTheEye 3).1 = some 0
    ∧ demoScene.kindOf 0 = BsdfType.LIGHT
    ∧ 0 < dot (-(demoLongTheEye 3).vIncomingDirection)
        (theEyeRay demoScene demoLongTheEye 3).2.vShadingNormal
    ∧ ∃ r, BuildTheEyePath.body demoScene (demoLights 1) 3 demoLongTheEye 0 demoSample
        = .stop r
      ∧ r.exit = WalkExit.hitLight
      ∧ (r.vertices (3 + 1)).pGeometry = none
      ∧ r.colour =
          if (theEyeRay demoScene demoLongTheEye 3).2.is_back_side = true then 0
          else 0 + (demoLights 1).power
            * ((demoLongTheEye 3).power * (demoLongTheEye 3).fBSDFxIPDF)
            * (demoScene.M_1_PI * (1 / demoScene.GetLightArea)
              * (1 / (1 + directTerms demoLongTheEye demoScene.M_1_PI 3))) :=
  ⟨Or.inl (by decide), by decide!, by decide!, by decide!,
    BuildTheEyePath.hitLight_closed demoScene (demoLights 1) 3 demoLongTheEye 0 demoSample 0
      (Or.inl (by decide)) (by decide!) (by decide!) (by decide!)⟩

/-- C10 (direct hit, `s = 0`) fails on the code at `t = 2`.  In the small scene
the eye walk reaches the light from eye vertex `2` (front side, positive
shading cosine, neither eye vertex `2` nor `1` specular).  The guard `t > 2`
skips the recurrence, so the code uses the weight `1` and the colour grows by
`lightPower * eyePower(3) * M_1_PI * (1/lightArea) * 1`.  That is not the
value with the weight `1 / (1 + (Q_2 / G_eye(2))^2) = 484/533` of the formula
in the claim, and neither `1` nor `484/533` is the weight against the
alternative strategies of the same length: `EvaluatePathST` weights the pair
`(1, 2)` by `9453125/9456261` and `EvaluatePathS1` weights light vertex `2` by
`3136/47281305`, which leave `12544/47281305` for the direct hit. -/
theorem C10_direct_hit_small_scene :
    (BuildTheEyePath demoScene 0 0 (demoLights 1) demoTheEyeSeed 0 demoSample).map
        (fun r => r.exit) = some WalkExit.hitLight
    ∧ (theEyeRay demoScene demoTheEye 2).1 = some 0
    ∧ demoScene.kindOf 0 = BsdfType.LIGHT
    ∧ (theEyeRay demoScene demoTheEye 2).2.is_back_side = false
    ∧ 0 < dot (-(demoTheEye 2).vIncomingDirection)
        (theEyeRay demoScene demoTheEye 2).2.vShadingNormal
    ∧ (demoTheEye 2).bSpecular = false ∧ (demoTheEye 1).bSpecular = false
    ∧ (BuildTheEyePath.directWeight demoScene 2 demoTheEye).2 = 1
    ∧ 1 / (1 + directTerms demoTheEye demoScene.M_1_PI 2) = 484 / 533
    ∧ 1 - (EvaluatePathST.weight demoScene demoLights demoTheEye 1 2 (16 / 625)).2.2
        - (EvaluatePathS1.weight demoLights 2 1 1).2 = 12544 / 47281305
    ∧ (BuildTheEyePath demoScene 0 0 (demoLights 1) demoTheEyeSeed 0 demoSample).map
        (fun r => r.colour)
        = some (0 + (demoLights 1).power * (demoTheEye 3).power
            * (demoScene.M_1_PI * (1 / demoScene.GetLightArea) * 1))
    ∧ (BuildTheEyePath demoScene 0 0 (demoLights 1) demoTheEyeSeed 0 demoSample).map
        (fun r => r.colour)
        ≠ some (0 + (demoLights 1).power * (demoTheEye 3).power
            * (demoScene.M_1_PI * (1 / demoScene.GetLightArea)
              * (1 / (1 + directTerms demoTheEye demoScene.M_1_PI 2)))) := by
  decide!

/-- C4 (division safety), amended.  Provided the BSDF samplers leave
`fGeometricFactor` alone: light vertex `1` is seeded with geometric factor `1`;
a light vertex `s + 1` that is present after the pass of `BuildLightsPath` for
`s` has a strictly positive incoming shading cosine and the geometric factor
`cosOutGeometric(s) * cosInShading(s+1) / t_max^2`, which is strictly positive
when `cosOutGeometric(s)` is positive and `t_max` is not zero; an eye vertex
`t + 1` that is present after the pass of `BuildTheEyePath` for `t` has a
strictly positive outgoing shading cosine and the geometric factor
`cosOutGeometric(t+1) * cosInShading(t) / t_max^2`, which is strictly positive
when both of these cosines are positive and `t_max` is not zero. -/
theorem C4_geometric_factor (scene : Scene)
    (hL : ∀ b v sample,
      ((scene.bsdfs_ b).LightsToCameraScatteringDirection v sample).2.1.fGeometricFactor
        = v.fGeometricFactor)
    (hE : ∀ b v sample,
      ((scene.bsdfs_ b).CameraToLightsScatteringDirection v sample).2.1.fGeometricFactor
        = v.fGeometricFactor) :
    (∀ (vertices : Vertices) (sample : IPrimarySample),
      ((BuildLightsPath.emit scene vertices sample).1 1).fGeometricFactor = 1)
    ∧ (∀ (s : Nat) (vertices : Vertices) (sample : IPrimarySample),
      ((BuildLightsPath.after (BuildLightsPath.body scene s vertices sample))
        (s + 1)).pGeometry ≠ none →
      0 < dot (-(vertices s).vOutgoingDirection) (lightsRay scene vertices s).2.vShadingNormal
      ∧ ((BuildLightsPath.after (BuildLightsPath.body scene s vertices sample))
          (s + 1)).fGeometricFactor
        = (vertices s).fOutgoingCosThetaGeometric
          * dot (-(vertices s).vOutgoingDirection) (lightsRay scene vertices s).2.vShadingNormal
          / (lightsRay scene vertices s).2.t_max ^ 2
      ∧ (0 < (vertices s).fOutgoingCosThetaGeometric →
          (lightsRay scene vertices s).2.t_max ≠ 0 →
          0 < ((BuildLightsPath.after (BuildLightsPath.body scene s vertices sample))
            (s + 1)).fGeometricFactor))
    ∧ (∀ (theLightsPathVertex : PathVertex) (t : Nat) (vertices : Vertices)
        (colour : CIE_XYZ_Color) (sample : IPrimarySample),
      ((BuildTheEyePath.after
        (BuildTheEyePath.body scene theLightsPathVertex t vertices colour sample))
        (t + 1)).pGeometry ≠ none →
      0 < dot (-(vertices t).vIncomingDirection) (theEyeRay scene vertices t).2.vShadingNormal
      ∧ ((BuildTheEyePath.after
          (BuildTheEyePath.body scene theLightsPathVertex t vertices colour sample))
          (t + 1)).fGeometricFactor
        = dot (-(vertices t).vIncomingDirection)
            (theEyeRay scene vertices t).2.vGeometricNormal
          * (vertices t).fIncomingCosThetaShading
          / (theEyeRay scene vertices t).2.t_max ^ 2
      ∧ (0 < dot (-(vertices t).vIncomingDirection)
            (theEyeRay scene vertices t).2.vGeometricNormal →
          0 < (vertices t).fIncomingCosThetaShading →
          (theEyeRay scene vertices t).2.t_max ≠ 0 →
          0 < ((BuildTheEyePath.after
            (BuildTheEyePath.body scene theLightsPathVertex t vertices colour sample))
            (t + 1)).fGeometricFactor)) := by
  have hpos : ∀ a b c : ℚ, 0 < a → 0 < b → c ≠ 0 → 0 < a * b / c ^ 2 := by
    intro a b c ha hb hc
    have hc2 : 0 < c ^ 2 := by positivity
    positivity
  refine ⟨?_, ?_, ?_⟩
  · intro vertices sample
    simp only [BuildLightsPath.emit, Vertices.set_self]
  · intro s vertices sample
    have e : s + 1 ≠ s + 2 := by omega
    unfold BuildLightsPath.body lightsRay
    simp only [PathVertex.SetGeometricBasis]
    cases hhit : (scene.FindIntersection (vertices s).vPosition
        (vertices s).vOutgoingDirection).1 with
    | none =>
      intro h
      simp only [BuildLightsPath.after, Vertices.set_self, hhit] at h
      exact absurd rfl h
    | some g =>
      simp only []
      split_ifs with h1 h2 h3 h4
      · intro h
        simp only [BuildLightsPath.after, Vertices.set_self] at h
        exact absurd rfl h
      · intro h
        simp only [BuildLightsPath.after, Vertices.set_self] at h
        exact absurd rfl h
      · intro _
        simp only [BuildLightsPath.after, Vertices.set, if_neg e, if_true, square_of_eq]
        exact ⟨not_le.mp h2, trivial, fun ha hc => hpos _ _ _ ha (not_le.mp h2) hc⟩
      · intro _
        simp only [BuildLightsPath.after, Vertices.set, if_true, hL, square_of_eq]
        exact ⟨not_le.mp h2, trivial, fun ha hc => hpos _ _ _ ha (not_le.mp h2) hc⟩
      · intro _
        simp only [BuildLightsPath.after, Vertices.set, if_neg e, if_true, hL, square_of_eq]
        exact ⟨not_le.mp h2, trivial, fun ha hc => hpos _ _ _ ha (not_le.mp h2) hc⟩
  · intro lightV t vertices colour sample
    have e : t + 1 ≠ t + 2 := by omega
    unfold BuildTheEyePath.body theEyeRay
    simp only [PathVertex.SetShadingBasis]
    cases hhit : (scene.FindIntersection (vertices t).vPosition
        (vertices t).vIncomingDirection).1 with
    | none =>
      intro h
      simp only [BuildTheEyePath.after, Vertices.set_self, hhit] at h
      exact absurd rfl h
    | some g =>
      simp only []
      split_ifs with h1 h2 h3 h4 h5
      · intro h
        simp only [BuildTheEyePath.after, Vertices.set_self] at h
        exact absurd rfl h
      · intro h
        simp only [BuildTheEyePath.after, Vertices.set_self] at h
        exact absurd rfl h
      · intro h
        simp only [BuildTheEyePath.after, Vertices.set_self] at h
        exact absurd rfl h
      · intro _
        simp only [BuildTheEyePath.after, Vertices.set, if_neg e, if_true, square_of_eq]
        exact ⟨not_le.mp h1, trivial, fun ha hb hc => hpos _ _ _ ha hb hc⟩
      · intro _
        simp only [BuildTheEyePath.after, Vertices.set, if_true, hE, square_of_eq]
        exact ⟨not_le.mp h1, trivial, fun ha hb hc => hpos _ _ _ ha hb hc⟩
      · intro _
        simp only [BuildTheEyePath.after, Vertices.set, if_neg e, if_true, hE, square_of_eq]
        exact ⟨not_le.mp h1, trivial, fun ha hb hc => hpos _ _ _ ha hb hc⟩

/-- C4 at the small scene: its samplers leave `fGeometricFactor` alone, and the
first pass of the light walk stores a strictly positive factor at vertex `2`. -/
theorem C4_geometric_factor_witness :
    (∀ b v sample,
      ((demoScene.bsdfs_ b).LightsToCameraScatteringDirection v sample).2.1.fGeometricFactor
        = v.fGeometricFactor)
    ∧ (∀ b v sample,
      ((demoScene.bsdfs_ b).CameraToLightsScatteringDirection v sample).2.1.fGeometricFactor
        = v.fGeometricFactor)
    ∧ ((BuildLightsPath.after (BuildLightsPath.body demoScene 1 demoLights demoSample))
        (1 + 1)).pGeometry ≠ none
    ∧ 0 < (demoLights 1).fOutgoingCosThetaGeometric
    ∧ (lightsRay demoScene demoLights 1).2.t_max ≠ 0
    ∧ 0 < ((BuildLightsPath.after (BuildLightsPath.body demoScene 1 demoLights demoSample))
        (1 + 1)).fGeometricFactor := by
  have h1 : ∀ b v sample,
      ((demoScene.bsdfs_ b).LightsToCameraScatteringDirection v sample).2.1.fGeometricFactor
        = v.fGeometricFactor := by
    intro b v sample
    by_cases h : b = 0 <;> simp [demoScene, demoEmitter, demoDiffuse, h]
  have h2 : ∀ b v sample,
      ((demoScene.bsdfs_ b).CameraToLightsScatteringDirection v sample).2.1.fGeometricFactor
        = v.fGeometricFactor := by
    intro b v sample
    by_cases h : b = 0 <;> simp [demoScene, demoEmitter, demoDiffuse, h]
  exact ⟨h1, h2, by decide!, by decide!, by decide!,
    ((C4_geometric_factor demoScene h1 h2).2.1 1 demoLights demoSample (by decide!)).2.2
      (by decide!) (by decide!)⟩

/-- C4 as stated fails, with a zero and with a negative divisor.  In the grazing
scene the light walk keeps vertex `2` (positive shading cosine) and stores the
geometric factor `0` there, the sampled emission cosine being `0`;
`EvaluatePathS1` accepts that vertex, and its recurrence divides by the factor.
In the tilted scene the eye walk keeps vertex `2` and stores the negative factor
`-3/125`, because the geometric cosine that enters the factor is never tested;
`EvaluatePathST` accepts the pair `(1, 2)`, and its eye-side recurrence divides
by the factor. -/
theorem C4_counterexample :
    ((BuildLightsPath grazeScene demoLightsSeed demoSample).isSome = true
      ∧ (grazeLights 2).pGeometry = some 1
      ∧ (grazeLights 2).fGeometricFactor = 0
      ∧ 2 < grazeScene.kMaxRandomWalkDepth
      ∧ walked grazeLights 2 2
      ∧ s1Accepts grazeScene (grazeLights 2) grazeLens
      ∧ lightsDivides grazeLights 2 2)
    ∧ ((BuildTheEyePath tiltScene 0 0 (tiltLights 1) tiltTheEyeSeed 0 demoSample).isSome = true
      ∧ (tiltTheEye 2).pGeometry = some 1
      ∧ (tiltTheEye 2).fGeometricFactor = -3 / 125
      ∧ ¬ (0 < (tiltTheEye 2).fGeometricFactor)
      ∧ 2 < tiltScene.kMaxRandomWalkDepth
      ∧ 1 ≤ tiltScene.kMaxRandomWalkDepth - 2
      ∧ walked tiltTheEye 2 2
      ∧ walked tiltLights 1 1
      ∧ stAccepts tiltScene (tiltLights 1) (tiltTheEye 2)
      ∧ theEyeDivides tiltTheEye 2 2) := by
  decide!

/-- C2 (light re-hit), amended.  When the loop of `BuildLightsPath` is at light
vertex `s >= 1` and the ray traced from that vertex hits a LIGHT surface, the
walk returns at once with vertex `s + 1` cleared and every other vertex as it
was, so the vertices `2..s` stay in the subpath; `EvaluatePathS1` then leaves
every output slot of index `s` or more as it was, and in `EvaluatePathST` the
summand of every pair with a light vertex of index above `s` is zero. -/
theorem C2_light_rehit (scene : Scene) (fuel s : Nat) (vertices : Vertices)
    (sample : IPrimarySample) (g : Nat) (hs : 1 ≤ s)
    (hhit : (lightsRay scene vertices s).1 = some g)
    (hkind : scene.kindOf g = BsdfType.LIGHT) :
    ∃ r, BuildLightsPath.loop scene (fuel + 1) s vertices sample = some r
      ∧ r.exit = WalkExit.hitLight
      ∧ (r.vertices (s + 1)).pGeometry = none
      ∧ (∀ i, i ≠ s + 1 → r.vertices i = vertices i)
      ∧ (∀ (eye : PathVertex) (px : Pixels) (k : Nat), s ≤ k →
          (EvaluatePathS1 scene r.vertices eye px).pixels k = px k)
      ∧ (∀ (theEye : Vertices) (s1 t : Nat), s < s1 →
          stTerm scene r.vertices theEye s1 t = 0) := by
  have hbody : BuildLightsPath.body scene s vertices sample
      = .stop ⟨vertices.set (s + 1) { vertices (s + 1) with pGeometry := none },
          sample, WalkExit.hitLight⟩ := by
    unfold BuildLightsPath.body
    unfold lightsRay at hhit
    unfold Scene.kindOf at hkind
    simp only [hhit]
    rw [if_pos hkind]
  rw [BuildLightsPath.loop, hbody]
  have hnone : ((vertices.set (s + 1) { vertices (s + 1) with pGeometry := none })
      (s + 1)).pGeometry = none := by
    simp only [Vertices.set_self]
  refine ⟨_, rfl, rfl, hnone, ?_, ?_, ?_⟩
  · intro i hi
    exact Vertices.set_ne _ _ _ _ hi
  · intro eye px k hk
    obtain ⟨q, hq⟩ := EvaluatePathS1_slots scene
      (vertices.set (s + 1) { vertices (s + 1) with pGeometry := none }) eye px
    rw [hq]
    simp only []
    rw [if_neg]
    intro hacc
    exact hacc.2.2.1 (s + 1) (Finset.mem_Icc.mpr ⟨by omega, by omega⟩) hnone
  · intro theEye s1 t hs1
    unfold stTerm
    rw [if_neg]
    intro hacc
    exact hacc.2.1 (s + 1) (Finset.mem_Icc.mpr ⟨by omega, by omega⟩) hnone

/-- C2 at the small scene: the ray from light vertex `2` hits the light. -/
theorem C2_light_rehit_witness :
    1 ≤ 2
    ∧ (lightsRay demoScene demoLights 2).1 = some 0
    ∧ demoScene.kindOf 0 = BsdfType.LIGHT
    ∧ ∃ r, BuildLightsPath.loop demoScene (0 + 1) 2 demoLights demoSample = some r
      ∧ r.exit = WalkExit.hitLight
      ∧ (r.vertices (2 + 1)).pGeometry = none
      ∧ (∀ i, i ≠ 2 + 1 → r.vertices i = demoLights i)
      ∧ (∀ (eye : PathVertex) (px : Pixels) (k : Nat), 2 ≤ k →
          (EvaluatePathS1 demoScene r.vertices eye px).pixels k = px k)
      ∧ (∀ (theEye : Vertices) (s1 t : Nat), 2 < s1 →
          stTerm demoScene r.vertices theEye s1 t = 0) :=
  ⟨by decide, by decide!, by decide!,
    C2_light_rehit demoScene 0 2 demoLights demoSample 0 (by decide) (by decide!)
      (by decide!)⟩

/-- C2 as stated fails: in the small scene the light walk returns because the
ray from light vertex `2` hits the light, yet vertex `2` is still present on
return (only vertex `3` is cleared) and `EvaluatePathS1` writes output slot
`1` from it. -/
theorem C2_counterexample :
    (BuildLightsPath demoScene demoLightsSeed demoSample).map (fun r => r.exit)
        = some WalkExit.hitLight
    ∧ (lightsRay demoScene demoLights 2).1 = some 0
    ∧ demoScene.kindOf 0 = BsdfType.LIGHT
    ∧ (demoLights 2).pGeometry = some 1
    ∧ (demoLights 3).pGeometry = none
    ∧ (EvaluatePathS1 demoScene demoLights (demoTheEyeSeed 1) demoPixels).pixels 1
        = (10, (demoLights 2).power * (demoTheEyeSeed 1).power
            * ((1 : ℚ) * 1 * demoScene.M_1_PI * (3136 / 47281305)))
    ∧ ((EvaluatePathS1 demoScene demoLights (demoTheEyeSeed 1) demoPixels).pixels 1).2
        = ⟨10976 / 173364785, 21952 / 520094355, 10976 / 520094355⟩
    ∧ (EvaluatePathS1 demoScene demoLights (demoTheEyeSeed 1) demoPixels).pixels 1
        ≠ demoPixels 1 := by
  decide!

theorem lightsTerms_nonneg (lights : Vertices) (last G : ℚ) (s : Nat) :
    0 ≤ lightsTerms lights last G s := by
  unfold lightsTerms
  exact Finset.sum_nonneg (fun i _ => sq_nonneg _)

theorem theEyeTerms_nonneg (theEye : Vertices) (last G : ℚ) (t : Nat) :
    0 ≤ theEyeTerms theEye last G t := by
  unfold theEyeTerms
  exact Finset.sum_nonneg (fun i _ => sq_nonneg _)

/-- The weight of `EvaluatePathS1` in closed form. -/
theorem EvaluatePathS1.s1_weight_closed (lights : Vertices) (s : Nat) (R G : ℚ) :
    EvaluatePathS1.weight lights s R G = (lights, 1 / (1 + lightsTerms lights R G s)) := by
  simp only [EvaluatePathS1.weight, Vertices.pushSamplingPrev_undo,
    EvaluatePathS1.weightLoop_eq_lightsLoop, lightsLoop_pushed, rcp]

/-- For every path of two segments the three weights the code computes add up
to more than `1`, whatever the stored densities and geometric factors: the
direct-hit weight at `t = 2` is `1`, and the weights of the pairs `(1, 2)` and
`(2, 1)` are strictly positive. -/
theorem weights_of_two_segments (scene : Scene) (lights theEye hit : Vertices)
    (G R G1 : ℚ) :
    1 < (BuildTheEyePath.directWeight scene 2 hit).2
      + (EvaluatePathST.weight scene lights theEye 1 2 G).2.2
      + (EvaluatePathS1.weight lights 2 R G1).2 := by
  rw [BuildTheEyePath.directWeight_closed, EvaluatePathST.weight_closed,
    EvaluatePathS1.s1_weight_closed, if_neg (by omega)]
  have h1 := lightsTerms_nonneg lights scene.M_1_PI G 1
  have h2 := theEyeTerms_nonneg theEye scene.M_1_PI G 2
  have h3 := lightsTerms_nonneg lights R G1 2
  have p1 : 0 < 1 / (1 + lightsTerms lights scene.M_1_PI G 1
      + theEyeTerms theEye scene.M_1_PI G 2) := by positivity
  have p2 : 0 < 1 / (1 + lightsTerms lights R G1 2) := by positivity
  simp only []
  linarith

/-- C1 (partition of the MIS weights) fails on the code.  In the small scene the
path lens, floor, light of two segments is produced three ways with the same
stored densities and geometric factors: by the eye walk reaching the light from
eye vertex `2` (`s = 0`), by the pair `(1, 2)` of `EvaluatePathST`, and by light
vertex `2` of `EvaluatePathS1`.  The three weights the code computes are `1`,
`9453125/9456261` and `3136/47281305`; they add up to more than `1`. -/
theorem C1_weights_small_scene :
    (BuildTheEyePath demoScene 0 0 (demoLights 1) demoTheEyeSeed 0 demoSample).map
        (fun r => r.exit) = some WalkExit.hitLight
    ∧ (theEyeRay demoScene demoTheEye 2).1 = some 0
    ∧ (walked demoLights 1 1 ∧ walked demoTheEye 2 2
        ∧ stAccepts demoScene (demoLights 1) (demoTheEye 2))
    ∧ (walked demoLights 2 2 ∧ s1Accepts demoScene (demoLights 2) (demoTheEye 1))
    ∧ (∀ i, i ≤ 3 → (demoLights i).bSpecular = false ∧ (demoTheEye i).bSpecular = false)
    ∧ ((demoLights 2).vPosition = (demoTheEye 2).vPosition
        ∧ (demoLights 1).vPosition = (demoTheEye 3).vPosition)
    ∧ ((demoLights 2).fGeometricFactor = 16 / 625
        ∧ (demoTheEye 3).fGeometricFactor = 16 / 625
        ∧ stGeometricFactor demoScene (demoLights 1) (demoTheEye 2) = 16 / 625)
    ∧ ((demoTheEye 2).fGeometricFactor = 1
        ∧ s1GeometricFactor demoScene (demoLights 2) (demoTheEye 1) = 1)
    ∧ ((demoTheEye 1).fSamplingPrev = 1
        ∧ s1Response demoScene (demoLights 2) (demoTheEye 1) = 1)
    ∧ (BuildTheEyePath.directWeight demoScene 2 demoTheEye).2 = 1
    ∧ (EvaluatePathST.weight demoScene demoLights demoTheEye 1 2 (16 / 625)).2.2
        = 9453125 / 9456261
    ∧ (EvaluatePathS1.weight demoLights 2 1 1).2 = 3136 / 47281305
    ∧ (BuildTheEyePath.directWeight demoScene 2 demoTheEye).2
        + (EvaluatePathST.weight demoScene demoLights demoTheEye 1 2 (16 / 625)).2.2
        + (EvaluatePathS1.weight demoLights 2 1 1).2 ≠ 1 := by
  decide!

/-- C3 at the small scene with a mirror floor: light vertex `2` and eye vertex
`2` lie on the mirror. -/
theorem C3_specular_exclusion_witness :
    (demoLights 2).pGeometry = some 1
    ∧ (demoTheEye 2).pGeometry = some 1
    ∧ (demoMirror.kindOf 1 = BsdfType.MIRROR ∨ demoMirror.kindOf 1 = BsdfType.GLASS)
    ∧ EvaluatePathS1.body demoMirror (demoTheEye 1) 2 ⟨demoLights, demoPixels, []⟩
        = .cont ⟨demoLights, demoPixels, []⟩
    ∧ EvaluatePathST.inner demoMirror 2 2 ⟨demoLights, demoTheEye, 0, []⟩
        = .cont ⟨demoLights, demoTheEye, 0, []⟩
    ∧ EvaluatePathST.outer demoMirror 2 ⟨demoLights, demoTheEye, 0, []⟩
        = .cont ⟨demoLights, demoTheEye, 0, []⟩ :=
  ⟨by decide!, by decide!, by decide!,
    (C3_specular_exclusion demoMirror).1 (demoTheEye 1) 2 ⟨demoLights, demoPixels, []⟩ 1
      (by decide!) (by decide!),
    (C3_specular_exclusion demoMirror).2.1 2 2 ⟨demoLights, demoTheEye, 0, []⟩ 1
      (by decide!) (by decide!),
    (C3_specular_exclusion demoMirror).2.2 2 ⟨demoLights, demoTheEye, 0, []⟩ 1
      (by decide!) (by decide!)⟩

/-- C6 at the small scene with a blocker: the pair `(1, 2)` and light vertex
`2`, both accepted without the blocker, have their visibility rays end on it. -/
theorem C6_visibility_rejection_witness :
    (stAccepts demoScene (demoLights 1) (demoTheEye 2)
      ∧ s1Accepts demoScene (demoLights 2) (demoTheEye 1))
    ∧ (demoOccluded.FindIntersection (demoLights 1).vPosition
        (stDirection demoOccluded (demoLights 1) (demoTheEye 2))).1 = some 2
    ∧ (demoTheEye 2).pGeometry = some 1
    ∧ ((EvaluatePathST.inner demoOccluded 2 1 ⟨demoLights, demoTheEye, 0, []⟩).state.colour = 0
      ∧ stTerm demoOccluded demoLights demoTheEye 1 2 = 0)
    ∧ (demoOccluded.FindIntersection (demoTheEye 1).vPosition
        (s1Direction demoOccluded (demoLights 2) (demoTheEye 1))).1 = some 2
    ∧ (demoLights 2).pGeometry = some 1
    ∧ (EvaluatePathS1 demoOccluded demoLights (demoTheEye 1) demoPixels).pixels (2 - 1)
        = demoPixels (2 - 1) :=
  ⟨by decide!, by decide!, by decide!,
    (C6_visibility_rejection demoOccluded).1 2 1 ⟨demoLights, demoTheEye, 0, []⟩ (by decide!),
    by decide!, by decide!,
    (C6_visibility_rejection demoOccluded).2 demoLights (demoTheEye 1) demoPixels 2
      (by decide!)⟩

theorem halfSum_lights (lights : Vertices) (G : ℚ) (s : Nat) (last : ℚ) :
    halfSum (lightsView lights) G s 1 last = lightsTerms lights last G s := rfl

theorem halfSum_theEye (theEye : Vertices) (G : ℚ) (t : Nat) (last : ℚ) :
    halfSum (theEyeView theEye) G t 2 last = theEyeTerms theEye last G t := rfl

/-- The weight loop of the direct-hit branch, run on the array the branch
prepares, in closed form for any entry value of `wst`. -/
theorem BuildTheEyePath.directLoop_closed (scene : Scene) (t : Nat) (vertices : Vertices)
    (wst : ℚ) (ht : 2 < t) :
    (BuildTheEyePath.weightLoop (BuildTheEyePath.directWeight scene t vertices).1
        (t - 1) (1, wst)).2
      = wst + theEyeTerms vertices scene.M_1_PI 1 t := by
  have hnext : ((BuildTheEyePath.directWeight scene t vertices).1 (t + 1)).fSamplingNext
      = scene.M_1_PI := by
    unfold BuildTheEyePath.directWeight
    rw [if_pos ht]
    simp only [Vertices.set_self]
  rw [BuildTheEyePath.weightLoop_eq_theEyeLoop,
    ← Vertices.pushSamplingNext_id _ (t + 1) scene.M_1_PI hnext, theEyeLoop_pushed,
    theEyeTerms_congr _ vertices scene.M_1_PI 1 t
      (fun j hj => BuildTheEyePath.directWeight_other scene t vertices j (by omega))]

/-- C13 (evaluators are read-only on vertices).  With `hi::single_stack`
modelled as an assignment undone at the end of its block, the light array that
`EvaluatePathS1` returns is the array it was given, and the light and eye
arrays that `EvaluatePathST` returns are the arrays it was given, for every
scene, every pair of arrays, every lens vertex, every content of the output
slots and every entry colour. -/
theorem C13_evaluators_read_only (scene : Scene) (lights theEye : Vertices)
    (eye : PathVertex) (px : Pixels) (c : CIE_XYZ_Color) :
    (EvaluatePathS1 scene lights eye px).lights = lights
    ∧ (EvaluatePathST scene lights theEye c).lights = lights
    ∧ (EvaluatePathST scene lights theEye c).theEye = theEye := by
  obtain ⟨q1, h1⟩ := EvaluatePathS1_slots scene lights eye px
  obtain ⟨q2, h2⟩ := EvaluatePathST_sum scene lights theEye c
  rw [h1, h2]
  exact ⟨rfl, rfl, rfl⟩

/-- C17 (one shared weight routine).  With `halfSum` the routine written from
the words of the specification: (i) the light-side loop of `EvaluatePathS1`,
run under its override `R` of `fSamplingPrev(s+1)`, and the light-side loop of
`EvaluatePathST`, run under its override `1/pi`, both add
`halfSum(light, G, s, 1, override)` to the accumulator, so they differ only in
the override; (ii) for `t > 2` the loop of the direct-hit branch of
`BuildTheEyePath`, run on the array that branch prepares, adds the same value
as the eye-side loop of `EvaluatePathST` run with `G = 1` under the override
`1/pi`, namely `halfSum(eye, 1, t, 2, 1/pi)`. -/
theorem C17_shared_weight_routine (scene : Scene) (lights theEye : Vertices)
    (G R wst : ℚ) (s t : Nat) (ht : 2 < t) :
    (EvaluatePathS1.weightLoop (lights.pushSamplingPrev (s + 1) R) G s (1, wst)).2
        = wst + halfSum (lightsView lights) G s 1 R
    ∧ (EvaluatePathST.lightsLoop (lights.pushSamplingPrev (s + 1) scene.M_1_PI) G s
          (1, wst)).2
        = wst + halfSum (lightsView lights) G s 1 scene.M_1_PI
    ∧ (BuildTheEyePath.weightLoop (BuildTheEyePath.directWeight scene t theEye).1
          (t - 1) (1, wst)).2
        = (EvaluatePathST.theEyeLoop (theEye.pushSamplingNext (t + 1) scene.M_1_PI) 1
            (t - 1) (1, wst)).2
    ∧ (EvaluatePathST.theEyeLoop (theEye.pushSamplingNext (t + 1) scene.M_1_PI) 1
          (t - 1) (1, wst)).2
        = wst + halfSum (theEyeView theEye) 1 t 2 scene.M_1_PI := by
  refine ⟨?_, ?_, ?_, ?_⟩
  · rw [EvaluatePathS1.weightLoop_eq_lightsLoop, lightsLoop_pushed, halfSum_lights]
  · rw [lightsLoop_pushed, halfSum_lights]
  · rw [BuildTheEyePath.directLoop_closed scene t theEye wst ht, theEyeLoop_pushed]
  · rw [theEyeLoop_pushed, halfSum_theEye]

/-- C17 at the small scene: the loops entered at `s = 2` and `t = 3` with
`G = 1/2`, `R = 3` and `wst = 1`. -/
theorem C17_shared_weight_routine_witness :
    2 < 3
    ∧ (EvaluatePathS1.weightLoop (demoLights.pushSamplingPrev (2 + 1) 3) (1/2) 2 (1, 1)).2
        = 1 + halfSum (lightsView demoLights) (1/2) 2 1 3
    ∧ (BuildTheEyePath.weightLoop (BuildTheEyePath.directWeight demoScene 3 demoLongTheEye).1
          (3 - 1) (1, 1)).2
        = (EvaluatePathST.theEyeLoop
            (demoLongTheEye.pushSamplingNext (3 + 1) demoScene.M_1_PI) 1 (3 - 1) (1, 1)).2 :=
  ⟨by decide,
    (C17_shared_weight_routine demoScene demoLights demoLongTheEye (1/2) 3 1 2 3
      (by decide)).1,
    (C17_shared_weight_routine demoScene demoLights demoLongTheEye (1/2) 3 1 2 3
      (by decide)).2.2.1⟩

theorem directTerms_nonneg (theEye : Vertices) (last : ℚ) (t : Nat) :
    0 ≤ directTerms theEye last t := by
  unfold directTerms
  exact Finset.sum_nonneg (fun i _ => sq_nonneg _)

/-- A weight `1 / (1 + A)` with `A` non-negative lies in `(0, 1]` and is `1`
exactly when `A = 0`. -/
theorem weight_range_of_sum (A : ℚ) (h : 0 ≤ A) :
    0 < 1 / (1 + A) ∧ 1 / (1 + A) ≤ 1 ∧ (1 / (1 + A) = 1 ↔ A = 0) := by
  have hpos : (0 : ℚ) < 1 + A := by linarith
  refine ⟨by positivity, ?_, ?_⟩
  · rw [div_le_one hpos]; linarith
  · rw [div_eq_one_iff_eq (ne_of_gt hpos)]
    constructor
    · intro e; linarith
    · intro e; rw [e, add_zero]

theorem lightsTerms_eq_zero (lights : Vertices) (last G : ℚ) (s : Nat) :
    lightsTerms lights last G s = 0 ↔
      ∀ i, lightsDivides lights s i →
        (lightsRatio lights last s i * G / (lights i).fGeometricFactor) ^ 2 = 0 := by
  unfold lightsTerms
  rw [Finset.sum_eq_zero_iff_of_nonneg (fun i _ => sq_nonneg _)]
  constructor
  · intro h i hi
    exact h i (by
      rw [Finset.mem_filter, Finset.mem_Icc]
      exact ⟨⟨hi.1, hi.2.1⟩, hi.2.2⟩)
  · intro h i hi
    rw [Finset.mem_filter, Finset.mem_Icc] at hi
    exact h i ⟨hi.1.1, hi.1.2, hi.2⟩

theorem theEyeTerms_eq_zero (theEye : Vertices) (last G : ℚ) (t : Nat) :
    theEyeTerms theEye last G t = 0 ↔
      ∀ i, theEyeDivides theEye t i →
        (theEyeRatio theEye last t i * G / (theEye i).fGeometricFactor) ^ 2 = 0 := by
  unfold theEyeTerms
  rw [Finset.sum_eq_zero_iff_of_nonneg (fun i _ => sq_nonneg _)]
  constructor
  · intro h i hi
    exact h i (by
      rw [Finset.mem_filter, Finset.mem_Icc]
      exact ⟨⟨hi.1, hi.2.1⟩, hi.2.2⟩)
  · intro h i hi
    rw [Finset.mem_filter, Finset.mem_Icc] at hi
    exact h i ⟨hi.1.1, hi.1.2, hi.2⟩

/-- C18 (weight range).  Over exact rational arithmetic, each of the three
weights the code computes, the weight of `EvaluatePathS1` for light vertex `s`,
the weight of `EvaluatePathST` for the pair `(s, t)` and the weight of the
direct-hit branch of `BuildTheEyePath` at eye vertex `t`, satisfies
`0 < w <= 1`, and `w = 1` exactly when every term the recurrence adds to the
accumulator is zero (a term of a specular vertex is omitted, and for `t <= 2`
the direct-hit branch adds no term at all).  This holds for every input, in
particular for every input whose divisors are all non-zero. -/
theorem C18_weight_range (scene : Scene) (lights theEye : Vertices) (s t : Nat) (R G : ℚ) :
    (0 < (EvaluatePathS1.weight lights s R G).2
      ∧ (EvaluatePathS1.weight lights s R G).2 ≤ 1
      ∧ ((EvaluatePathS1.weight lights s R G).2 = 1 ↔
          ∀ i, lightsDivides lights s i →
            (lightsRatio lights R s i * G / (lights i).fGeometricFactor) ^ 2 = 0))
    ∧ (0 < (EvaluatePathST.weight scene lights theEye s t G).2.2
      ∧ (EvaluatePathST.weight scene lights theEye s t G).2.2 ≤ 1
      ∧ ((EvaluatePathST.weight scene lights theEye s t G).2.2 = 1 ↔
          (∀ i, lightsDivides lights s i →
            (lightsRatio lights scene.M_1_PI s i * G / (lights i).fGeometricFactor) ^ 2 = 0)
          ∧ ∀ i, theEyeDivides theEye t i →
            (theEyeRatio theEye scene.M_1_PI t i * G / (theEye i).fGeometricFactor) ^ 2 = 0))
    ∧ (0 < (BuildTheEyePath.directWeight scene t theEye).2
      ∧ (BuildTheEyePath.directWeight scene t theEye).2 ≤ 1
      ∧ ((BuildTheEyePath.directWeight scene t theEye).2 = 1 ↔
          (2 < t → ∀ i, theEyeDivides theEye t i →
            (theEyeRatio theEye scene.M_1_PI t i * 1 / (theEye i).fGeometricFactor) ^ 2
              = 0))) := by
  refine ⟨?_, ?_, ?_⟩
  · rw [EvaluatePathS1.s1_weight_closed]
    obtain ⟨h1, h2, h3⟩ := weight_range_of_sum _ (lightsTerms_nonneg lights R G s)
    exact ⟨h1, h2, h3.trans (lightsTerms_eq_zero lights R G s)⟩
  · rw [EvaluatePathST.weight_closed]
    have hA := lightsTerms_nonneg lights scene.M_1_PI G s
    have hB := theEyeTerms_nonneg theEye scene.M_1_PI G t
    obtain ⟨h1, h2, h3⟩ := weight_range_of_sum
      (lightsTerms lights scene.M_1_PI G s + theEyeTerms theEye scene.M_1_PI G t)
      (add_nonneg hA hB)
    rw [← add_assoc] at h1 h2 h3
    refine ⟨h1, h2, h3.trans ?_⟩
    rw [add_eq_zero_iff_of_nonneg hA hB, lightsTerms_eq_zero, theEyeTerms_eq_zero]
  · rw [BuildTheEyePath.directWeight_closed]
    by_cases ht : t > 2
    · rw [if_pos ht, directTerms_eq]
      obtain ⟨h1, h2, h3⟩ := weight_range_of_sum _ (theEyeTerms_nonneg theEye scene.M_1_PI 1 t)
      refine ⟨h1, h2, h3.trans ?_⟩
      rw [theEyeTerms_eq_zero]
      exact ⟨fun h _ => h, fun h => h ht⟩
    · rw [if_neg ht]
      exact ⟨one_pos, le_refl 1, ⟨fun _ h => absurd h ht, fun _ => rfl⟩⟩

theorem lightsRatio_same (a b : Vertices) (last : ℚ) (s i : Nat) (h : sameDensities a b) :
    lightsRatio a last s i = lightsRatio b last s i := by
  unfold lightsRatio
  apply Finset.prod_congr rfl
  intro k _
  rw [(h (k + 1)).1, (h (k - 1)).2.1]

theorem theEyeRatio_same (a b : Vertices) (last : ℚ) (t i : Nat) (h : sameDensities a b) :
    theEyeRatio a last t i = theEyeRatio b last t i := by
  unfold theEyeRatio
  apply Finset.prod_congr rfl
  intro k _
  rw [(h (k + 1)).2.1, (h (k - 1)).1]

theorem moreSpecular_clear (a b : Vertices) (h : moreSpecular a b) (i : Nat)
    (hi : (a i).bSpecular = false) : (b i).bSpecular = false := by
  cases hb : (b i).bSpecular
  · rfl
  · rw [h i hb] at hi; exact absurd hi (by decide)

/-- Flagging more vertices specular can only remove terms of the light-side
sum. -/
theorem lightsTerms_mono (a b : Vertices) (last G : ℚ) (s : Nat) (h : sameDensities a b)
    (hs : moreSpecular a b) : lightsTerms a last G s ≤ lightsTerms b last G s := by
  unfold lightsTerms
  have e : ∀ i, (lightsRatio a last s i * G / (a i).fGeometricFactor) ^ 2
      = (lightsRatio b last s i * G / (b i).fGeometricFactor) ^ 2 := by
    intro i; rw [lightsRatio_same a b last s i h, (h i).2.2]
  simp only [e]
  apply Finset.sum_le_sum_of_subset_of_nonneg
  · intro i hi
    rw [Finset.mem_filter] at hi ⊢
    exact ⟨hi.1, moreSpecular_clear a b hs i hi.2.1, moreSpecular_clear a b hs (i - 1) hi.2.2⟩
  · intro i _ _; exact sq_nonneg _

/-- Flagging more vertices specular can only remove terms of the eye-side
sum. -/
theorem theEyeTerms_mono (a b : Vertices) (last G : ℚ) (t : Nat) (h : sameDensities a b)
    (hs : moreSpecular a b) : theEyeTerms a last G t ≤ theEyeTerms b last G t := by
  unfold theEyeTerms
  have e : ∀ i, (theEyeRatio a last t i * G / (a i).fGeometricFactor) ^ 2
      = (theEyeRatio b last t i * G / (b i).fGeometricFactor) ^ 2 := by
    intro i; rw [theEyeRatio_same a b last t i h, (h i).2.2]
  simp only [e]
  apply Finset.sum_le_sum_of_subset_of_nonneg
  · intro i hi
    rw [Finset.mem_filter] at hi ⊢
    exact ⟨hi.1, moreSpecular_clear a b hs i hi.2.1, moreSpecular_clear a b hs (i - 1) hi.2.2⟩
  · intro i _ _; exact sq_nonneg _

theorem weight_antitone (A B : ℚ) (hA : 0 ≤ A) (h : A ≤ B) : 1 / (1 + B) ≤ 1 / (1 + A) :=
  one_div_le_one_div_of_le (by linarith) (by linarith)

/-- C19 (monotonicity in specular flags).  Let the light arrays `a`, `b` and
the eye arrays `c`, `d` hold the same densities and geometric factors index by
index, with every vertex flagged `bSpecular` in `b` flagged in `a`, and every
vertex flagged in `d` flagged in `c`.  Then each weight computed from the
arrays with more flags is at least the weight computed from the arrays with
fewer: the weight of `EvaluatePathS1`, the weight of `EvaluatePathST`, and the
weight of the direct-hit branch of `BuildTheEyePath`. -/
theorem C19_specular_monotone (scene : Scene) (a b c d : Vertices) (s t : Nat) (R G : ℚ)
    (hl : sameDensities a b) (hls : moreSpecular a b)
    (he : sameDensities c d) (hes : moreSpecular c d) :
    (EvaluatePathS1.weight b s R G).2 ≤ (EvaluatePathS1.weight a s R G).2
    ∧ (EvaluatePathST.weight scene b d s t G).2.2
        ≤ (EvaluatePathST.weight scene a c s t G).2.2
    ∧ (BuildTheEyePath.directWeight scene t d).2
        ≤ (BuildTheEyePath.directWeight scene t c).2 := by
  refine ⟨?_, ?_, ?_⟩
  · rw [EvaluatePathS1.s1_weight_closed, EvaluatePathS1.s1_weight_closed]
    exact weight_antitone _ _ (lightsTerms_nonneg a R G s) (lightsTerms_mono a b R G s hl hls)
  · rw [EvaluatePathST.weight_closed, EvaluatePathST.weight_closed]
    simp only [add_assoc]
    exact weight_antitone _ _
      (add_nonneg (lightsTerms_nonneg a _ G s) (theEyeTerms_nonneg c _ G t))
      (add_le_add (lightsTerms_mono a b _ G s hl hls) (theEyeTerms_mono c d _ G t he hes))
  · rw [BuildTheEyePath.directWeight_closed, BuildTheEyePath.directWeight_closed]
    by_cases ht : t > 2
    · rw [if_pos ht, if_pos ht, directTerms_eq, directTerms_eq]
      exact weight_antitone _ _ (theEyeTerms_nonneg c _ 1 t) (theEyeTerms_mono c d _ 1 t he hes)
    · rw [if_neg ht, if_neg ht]

/-- C19 at the small scene: flagging every vertex specular raises the weight
of light vertex `2` in `EvaluatePathS1` from `3136/47281305` to `1`. -/
theorem C19_specular_monotone_witness :
    sameDensities (allSpecular demoLights) demoLights
    ∧ moreSpecular (allSpecular demoLights) demoLights
    ∧ (EvaluatePathS1.weight demoLights 2 3 (1/2)).2
        ≤ (EvaluatePathS1.weight (allSpecular demoLights) 2 3 (1/2)).2
    ∧ (EvaluatePathS1.weight (allSpecular demoLights) 2 3 (1/2)).2 = 1 :=
  ⟨fun _ => ⟨rfl, rfl, rfl⟩, fun _ _ => rfl,
    (C19_specular_monotone demoScene (allSpecular demoLights) demoLights
      (allSpecular demoLongTheEye) demoLongTheEye 2 3 3 (1/2)
      (fun _ => ⟨rfl, rfl, rfl⟩) (fun _ _ => rfl)
      (fun _ => ⟨rfl, rfl, rfl⟩) (fun _ _ => rfl)).1,
    by decide!⟩

/-- C20 (light-area independence of the direct-hit weight).  Replacing the
value `GetLightArea()` returns by any `area` changes neither the weight the
direct-hit branch of `BuildTheEyePath` computes nor the eye array it leaves,
for every `t` and so for every `t > 2`: the `1/lightArea` written to
`fSamplingNext(t+1)` is overwritten by `1/pi` before the loop runs.  The colour
the branch returns is the entry colour plus
`power_light * power_eye(t+1) * (wst * (1/pi) * (1/area))`, with `wst` the
weight computed without reference to `area`. -/
theorem C20_light_area_independent (scene : Scene) (area : ℚ) (lightV : PathVertex)
    (t : Nat) (vertices : Vertices) (colour : CIE_XYZ_Color) :
    BuildTheEyePath.directWeight { scene with GetLightArea := area } t vertices
        = BuildTheEyePath.directWeight scene t vertices
    ∧ (BuildTheEyePath.directHit { scene with GetLightArea := area } lightV t vertices
          colour).2
        = colour + lightV.power * (vertices (t + 1)).power
            * ((BuildTheEyePath.directWeight scene t vertices).2 * scene.M_1_PI * rcp area) := by
  have h : BuildTheEyePath.directWeight { scene with GetLightArea := area } t vertices
      = BuildTheEyePath.directWeight scene t vertices := by
    unfold BuildTheEyePath.directWeight
    by_cases ht : t > 2
    · rw [if_pos ht, if_pos ht]
      have e : ∀ x : ℚ,
          ((vertices.set (t + 1) { vertices (t + 1) with fSamplingNext := x }).set (t + 1)
            { (vertices.set (t + 1) { vertices (t + 1) with fSamplingNext := x }) (t + 1)
              with fSamplingPrev := 1 }).set (t + 1)
            { ((vertices.set (t + 1) { vertices (t + 1) with fSamplingNext := x }).set (t + 1)
                { (vertices.set (t + 1) { vertices (t + 1) with fSamplingNext := x }) (t + 1)
                  with fSamplingPrev := 1 }) (t + 1)
              with fSamplingNext := scene.M_1_PI }
          = vertices.set (t + 1)
              { vertices (t + 1) with fSamplingPrev := 1, fSamplingNext := scene.M_1_PI } := by
        intro x
        funext j
        by_cases hj : j = t + 1
        · subst hj; simp only [Vertices.set_self]
        · simp only [Vertices.set, if_neg hj]
      simp only [e]
    · rw [if_neg ht, if_neg ht]
  refine ⟨h, ?_⟩
  unfold BuildTheEyePath.directHit
  simp only [h, (BuildTheEyePath.directWeight_same scene t vertices).2]

/-! ## The random walks, from entry to return -/

/-- The loop of `BuildLightsPath` returns within `K + 1 - s` passes. -/
theorem BuildLightsPath.lights_loop_returns (scene : Scene) :
    ∀ (fuel s : Nat) (vertices : Vertices) (sample : IPrimarySample),
      1 ≤ fuel → scene.kMaxRandomWalkDepth ≤ s + fuel →
      ∃ r, BuildLightsPath.loop scene fuel s vertices sample = some r := by
  intro fuel
  induction fuel with
  | zero => intro s vertices sample h; omega
  | succ fuel ih =>
    intro s vertices sample _ hf
    rw [BuildLightsPath.loop]
    cases hb : BuildLightsPath.body scene s vertices sample with
    | stop r => exact ⟨r, rfl⟩
    | next st =>
      have h1 := ((BuildLightsPath.lights_footprint scene s vertices sample).2 st hb).1
      exact ih (s + 1) st.1 st.2 (by omega) (by omega)

/-- The loop of `BuildTheEyePath` returns within `K + 1 - t` passes. -/
theorem BuildTheEyePath.theEye_loop_returns (scene : Scene) (lightV : PathVertex)
    (colour : CIE_XYZ_Color) :
    ∀ (fuel t : Nat) (vertices : Vertices) (sample : IPrimarySample),
      1 ≤ fuel → scene.kMaxRandomWalkDepth ≤ t + fuel →
      ∃ r, BuildTheEyePath.loop scene lightV colour fuel t vertices sample = some r := by
  intro fuel
  induction fuel with
  | zero => intro t vertices sample h; omega
  | succ fuel ih =>
    intro t vertices sample _ hf
    rw [BuildTheEyePath.loop]
    cases hb : BuildTheEyePath.body scene lightV t vertices colour sample with
    | stop r => exact ⟨r, rfl⟩
    | next st =>
      have h1 := ((BuildTheEyePath.theEye_footprint scene lightV t vertices colour
        sample).2 st hb).1
      exact ih (t + 1) st.1 st.2 (by omega) (by omega)

/-- A pass of `BuildLightsPath` that returns has cleared vertex `s + 1` or
vertex `s + 2`. -/
theorem BuildLightsPath.lights_sentinel (scene : Scene) (s : Nat) (vertices : Vertices)
    (sample : IPrimarySample) (r : LightsWalk)
    (hr : BuildLightsPath.body scene s vertices sample = .stop r) :
    (r.vertices (s + 1)).pGeometry = none ∨ (r.vertices (s + 2)).pGeometry = none := by
  revert hr
  unfold BuildLightsPath.body
  simp only []
  cases hhit : (scene.FindIntersection (vertices s).vPosition
      (vertices s).vOutgoingDirection).1 with
  | none =>
    simp only []
    intro hr; cases hr
    left; simp only [Vertices.set_self]
  | some g =>
    simp only []
    split_ifs with h1 h2 h3 h4
    · intro hr; cases hr
      left; simp only [Vertices.set_self]
    · intro hr; cases hr
      left; simp only [Vertices.set_self]
    · intro hr; cases hr
      right; simp only [Vertices.set_self]
    · intro hr; cases hr
    · intro hr; cases hr
      right; simp only [Vertices.set_self]

/-- A pass of `BuildTheEyePath` that returns has cleared vertex `t + 1` or
vertex `t + 2`. -/
theorem BuildTheEyePath.theEye_sentinel (scene : Scene) (lightV : PathVertex) (t : Nat)
    (vertices : Vertices) (colour : CIE_XYZ_Color) (sample : IPrimarySample)
    (r : TheEyeWalk)
    (hr : BuildTheEyePath.body scene lightV t vertices colour sample = .stop r) :
    (r.vertices (t + 1)).pGeometry = none ∨ (r.vertices (t + 2)).pGeometry = none := by
  revert hr
  unfold BuildTheEyePath.body
  simp only []
  cases hhit : (scene.FindIntersection (vertices t).vPosition
      (vertices t).vIncomingDirection).1 with
  | none =>
    simp only []
    intro hr; cases hr
    left; simp only [Vertices.set_self]
  | some g =>
    simp only []
    split_ifs with h1 h2 h3 h4 h5
    · intro hr; cases hr
      left; simp only [Vertices.set_self]
    · intro hr; cases hr
      left; simp only [Vertices.set_self]
    · intro hr; cases hr
      left; simp only [Vertices.set_self]
    · intro hr; cases hr
      right; simp only [Vertices.set_self]
    · intro hr; cases hr
    · intro hr; cases hr
      right; simp only [Vertices.set_self]

/-- The loop of `BuildLightsPath` entered below the cap leaves a cleared
vertex at an index between `s + 1` and `K + 1`. -/
theorem BuildLightsPath.lights_loop_sentinel (scene : Scene) :
    ∀ (fuel s : Nat) (vertices : Vertices) (sample : IPrimarySample) (r : LightsWalk),
      s < scene.kMaxRandomWalkDepth →
      BuildLightsPath.loop scene fuel s vertices sample = some r →
      ∃ m, s + 1 ≤ m ∧ m ≤ scene.kMaxRandomWalkDepth + 1
        ∧ (r.vertices m).pGeometry = none := by
  intro fuel
  induction fuel with
  | zero => intro s vertices sample r _ h; cases h
  | succ fuel ih =>
    intro s vertices sample r hs hr
    rw [BuildLightsPath.loop] at hr
    cases hb : BuildLightsPath.body scene s vertices sample with
    | stop r1 =>
      rw [hb] at hr
      cases hr
      rcases BuildLightsPath.lights_sentinel scene s vertices sample r hb with h | h
      · exact ⟨s + 1, by omega, by omega, h⟩
      · exact ⟨s + 2, by omega, by omega, h⟩
    | next st =>
      rw [hb] at hr
      have h1 := ((BuildLightsPath.lights_footprint scene s vertices sample).2 st hb).1
      obtain ⟨m, hm1, hm2, hm3⟩ := ih (s + 1) st.1 st.2 r h1 hr
      exact ⟨m, by omega, hm2, hm3⟩

/-- The loop of `BuildTheEyePath` entered below the cap leaves a cleared
vertex at an index between `t + 1` and `K + 1`. -/
theorem BuildTheEyePath.theEye_loop_sentinel (scene : Scene) (lightV : PathVertex)
    (colour : CIE_XYZ_Color) :
    ∀ (fuel t : Nat) (vertices : Vertices) (sample : IPrimarySample) (r : TheEyeWalk),
      t < scene.kMaxRandomWalkDepth →
      BuildTheEyePath.loop scene lightV colour fuel t vertices sample = some r →
      ∃ m, t + 1 ≤ m ∧ m ≤ scene.kMaxRandomWalkDepth + 1
        ∧ (r.vertices m).pGeometry = none := by
  intro fuel
  induction fuel with
  | zero => intro t vertices sample r _ h; cases h
  | succ fuel ih =>
    intro t vertices sample r ht hr
    rw [BuildTheEyePath.loop] at hr
    cases hb : BuildTheEyePath.body scene lightV t vertices colour sample with
    | stop r1 =>
      rw [hb] at hr
      cases hr
      rcases BuildTheEyePath.theEye_sentinel scene lightV t vertices colour sample r hb
        with h | h
      · exact ⟨t + 1, by omega, by omega, h⟩
      · exact ⟨t + 2, by omega, by omega, h⟩
    | next st =>
      rw [hb] at hr
      have h1 := ((BuildTheEyePath.theEye_footprint scene lightV t vertices colour
        sample).2 st hb).1
      obtain ⟨m, hm1, hm2, hm3⟩ := ih (t + 1) st.1 st.2 r h1 hr
      exact ⟨m, by omega, hm2, hm3⟩

/-- Below a cleared vertex of index `m >= a` there is a first cleared vertex
of index at least `a`. -/
theorem first_none (vertices : Vertices) (a m : Nat) (ham : a ≤ m)
    (h : (vertices m).pGeometry = none) :
    ∃ n, a ≤ n ∧ n ≤ m ∧ (∀ j, a ≤ j → j < n → (vertices j).pGeometry ≠ none)
      ∧ (vertices n).pGeometry = none := by
  have hex : ∃ n, a ≤ n ∧ (vertices n).pGeometry = none := ⟨m, ham, h⟩
  refine ⟨Nat.find hex, (Nat.find_spec hex).1, Nat.find_min' hex ⟨ham, h⟩, ?_,
    (Nat.find_spec hex).2⟩
  intro j hj1 hj2 hnone
  exact Nat.find_min hex hj2 ⟨hj1, hnone⟩

/-- The running ratio `P_i` reads no vertex of index above `s`. -/
theorem lightsRatio_congr (a b : Vertices) (last : ℚ) (s i : Nat)
    (h : ∀ j, j ≤ s → a j = b j) : lightsRatio a last s i = lightsRatio b last s i := by
  unfold lightsRatio
  apply Finset.prod_congr rfl
  intro k hk
  rw [Finset.mem_Icc] at hk
  rw [h (k - 1) (by omega)]
  by_cases hks : k = s
  · simp [hks]
  · rw [if_neg hks, if_neg hks, h (k + 1) (by omega)]

/-- The light-side sum reads no vertex of index above `s`. -/
theorem lightsTerms_congr (a b : Vertices) (last G : ℚ) (s : Nat)
    (h : ∀ j, j ≤ s → a j = b j) : lightsTerms a last G s = lightsTerms b last G s := by
  unfold lightsTerms
  rw [Finset.sum_filter, Finset.sum_filter]
  apply Finset.sum_congr rfl
  intro i hi
  rw [Finset.mem_Icc] at hi
  rw [h i hi.2, h (i - 1) (by omega), lightsRatio_congr a b last s i h]

theorem walked_congr (a b : Vertices) (x i : Nat) (h : ∀ j, j ≤ i → a j = b j) :
    walked a x i ↔ walked b x i := by
  unfold walked
  constructor
  · intro hw j hj
    rw [← h j (Finset.mem_Icc.mp hj).2]; exact hw j hj
  · intro hw j hj
    rw [h j (Finset.mem_Icc.mp hj).2]; exact hw j hj

/-- A cleared vertex between `a` and `i` stops the evaluators before `i`. -/
theorem walked_blocked (vertices : Vertices) (a i n : Nat) (h1 : a ≤ n) (h2 : n ≤ i)
    (hn : (vertices n).pGeometry = none) : ¬ walked vertices a i :=
  fun hw => hw n (Finset.mem_Icc.mpr ⟨h1, h2⟩) hn

theorem s1Splat_congr (scene : Scene) (a b : Vertices) (eye : PathVertex) (s : Nat)
    (h : ∀ j, j ≤ s → a j = b j) : s1Splat scene a eye s = s1Splat scene b eye s := by
  unfold s1Splat s1Weight
  rw [h s (le_refl s), lightsTerms_congr a b _ _ s h]

theorem stTerm_congr (scene : Scene) (a b c d : Vertices) (s t : Nat)
    (h1 : ∀ j, j ≤ s → a j = b j) (h2 : ∀ j, j ≤ t → c j = d j) :
    stTerm scene a c s t = stTerm scene b d s t := by
  unfold stTerm stContribution stWeight
  rw [h1 s (le_refl s), h2 t (le_refl t), lightsTerms_congr a b _ _ s h1,
    theEyeTerms_congr c d _ _ t h2]
  exact if_congr (by rw [walked_congr a b 1 s h1, walked_congr c d 2 t h2]) rfl rfl

/-- The output slots of `EvaluatePathS1` depend on the light array only below
its first cleared vertex. -/
theorem EvaluatePathS1_beyond (scene : Scene) (lights lights1 : Vertices) (eye : PathVertex)
    (px : Pixels) (n : Nat) (hn : 2 ≤ n) (h0 : (lights n).pGeometry = none)
    (h1 : (lights1 n).pGeometry = none) (h : ∀ i, i < n → lights i = lights1 i) :
    (EvaluatePathS1 scene lights eye px).pixels
      = (EvaluatePathS1 scene lights1 eye px).pixels := by
  obtain ⟨q, e⟩ := EvaluatePathS1_slots scene lights eye px
  obtain ⟨q1, e1⟩ := EvaluatePathS1_slots scene lights1 eye px
  rw [e, e1]
  funext k
  simp only []
  by_cases hk : k + 1 < n
  · have hag : ∀ j, j ≤ k + 1 → lights j = lights1 j := fun j hj => h j (by omega)
    rw [s1Splat_congr scene lights lights1 eye (k + 1) hag]
    exact if_congr (by rw [walked_congr lights lights1 2 (k + 1) hag, hag (k + 1) (le_refl _)])
      rfl rfl
  · have w0 := walked_blocked lights 2 (k + 1) n hn (by omega) h0
    have w1 := walked_blocked lights1 2 (k + 1) n hn (by omega) h1
    rw [if_neg (fun c => w0 c.2.2.1), if_neg (fun c => w1 c.2.2.1)]

/-- The colour `EvaluatePathST` returns depends on each array only below its
first cleared vertex. -/
theorem EvaluatePathST_beyond (scene : Scene) (lights lights1 theEye theEye1 : Vertices)
    (c : CIE_XYZ_Color) (n m : Nat) (hn : 1 ≤ n) (hm : 2 ≤ m)
    (h0 : (lights n).pGeometry = none) (h1 : (lights1 n).pGeometry = none)
    (h : ∀ i, i < n → lights i = lights1 i)
    (k0 : (theEye m).pGeometry = none) (k1 : (theEye1 m).pGeometry = none)
    (k : ∀ i, i < m → theEye i = theEye1 i) :
    (EvaluatePathST scene lights theEye c).colour
      = (EvaluatePathST scene lights1 theEye1 c).colour := by
  obtain ⟨q, e⟩ := EvaluatePathST_sum scene lights theEye c
  obtain ⟨q1, e1⟩ := EvaluatePathST_sum scene lights1 theEye1 c
  rw [e, e1]
  simp only []
  congr 1
  apply Finset.sum_congr rfl
  intro t _
  apply Finset.sum_congr rfl
  intro s _
  by_cases hs : s < n
  · by_cases ht : t < m
    · exact stTerm_congr scene lights lights1 theEye theEye1 s t
        (fun j hj => h j (by omega)) (fun j hj => k j (by omega))
    · have w0 := walked_blocked theEye 2 t m hm (by omega) k0
      have w1 := walked_blocked theEye1 2 t m hm (by omega) k1
      unfold stTerm
      rw [if_neg (fun c => w0 c.1), if_neg (fun c => w1 c.1)]
  · have w0 := walked_blocked lights 1 s n hn (by omega) h0
    have w1 := walked_blocked lights1 1 s n hn (by omega) h1
    unfold stTerm
    rw [if_neg (fun c => w0 c.2.1), if_neg (fun c => w1 c.2.1)]

/-- C11 (sentinel invariant), amended.  With `K >= 2`: after `BuildLightsPath`
on an array whose light vertex `1` is present, and after `BuildTheEyePath` on
any array, there is an index `n` with `2 <= n <= K + 1` such that every vertex
of index `2..n-1` is present and vertex `n` is none.  The output slots of
`EvaluatePathS1` and the colour of `EvaluatePathST` are the same for any two
arrays that agree below an index `n >= 2` at which both hold none: beyond the
geometry reference of vertex `n`, which ends the loop, the evaluators depend on
no field of vertex `n` and on no vertex of index above `n`. -/
theorem C11_sentinel (scene : Scene) (hK : 2 ≤ scene.kMaxRandomWalkDepth) :
    (∀ (vertices : Vertices) (sample : IPrimarySample), (vertices 1).pGeometry ≠ none →
      ∃ r, BuildLightsPath scene vertices sample = some r
        ∧ ∃ n, 2 ≤ n ∧ n ≤ scene.kMaxRandomWalkDepth + 1
          ∧ (∀ j, 2 ≤ j → j < n → (r.vertices j).pGeometry ≠ none)
          ∧ (r.vertices n).pGeometry = none)
    ∧ (∀ (x y : ℚ) (lightV : PathVertex) (vertices : Vertices) (colour : CIE_XYZ_Color)
        (sample : IPrimarySample),
      ∃ r, BuildTheEyePath scene x y lightV vertices colour sample = some r
        ∧ ∃ n, 2 ≤ n ∧ n ≤ scene.kMaxRandomWalkDepth + 1
          ∧ (∀ j, 2 ≤ j → j < n → (r.vertices j).pGeometry ≠ none)
          ∧ (r.vertices n).pGeometry = none)
    ∧ (∀ (lights lights1 : Vertices) (eye : PathVertex) (px : Pixels) (n : Nat),
      2 ≤ n → (lights n).pGeometry = none → (lights1 n).pGeometry = none →
      (∀ i, i < n → lights i = lights1 i) →
      (EvaluatePathS1 scene lights eye px).pixels
        = (EvaluatePathS1 scene lights1 eye px).pixels)
    ∧ (∀ (lights lights1 theEye theEye1 : Vertices) (c : CIE_XYZ_Color) (n m : Nat),
      2 ≤ n → 2 ≤ m →
      (lights n).pGeometry = none → (lights1 n).pGeometry = none →
      (∀ i, i < n → lights i = lights1 i) →
      (theEye m).pGeometry = none → (theEye1 m).pGeometry = none →
      (∀ i, i < m → theEye i = theEye1 i) →
      (EvaluatePathST scene lights theEye c).colour
        = (EvaluatePathST scene lights1 theEye1 c).colour) := by
  refine ⟨?_, ?_, ?_, ?_⟩
  · intro vertices sample h1
    unfold BuildLightsPath
    rw [if_neg h1]
    obtain ⟨r, hr⟩ := BuildLightsPath.lights_loop_returns scene
      (scene.kMaxRandomWalkDepth + 1) 1 (BuildLightsPath.emit scene vertices sample).1
      (BuildLightsPath.emit scene vertices sample).2 (by omega) (by omega)
    obtain ⟨m, hm1, hm2, hm3⟩ := BuildLightsPath.lights_loop_sentinel scene _ 1 _ _ r
      (by omega) hr
    obtain ⟨n, hn1, hn2, hn3, hn4⟩ := first_none r.vertices 2 m hm1 hm3
    exact ⟨r, hr, n, hn1, by omega, hn3, hn4⟩
  · intro x y lightV vertices colour sample
    unfold BuildTheEyePath
    obtain ⟨r, hr⟩ := BuildTheEyePath.theEye_loop_returns scene lightV colour
      (scene.kMaxRandomWalkDepth + 1) 1 (BuildTheEyePath.primary scene x y vertices)
      sample (by omega) (by omega)
    obtain ⟨m, hm1, hm2, hm3⟩ := BuildTheEyePath.theEye_loop_sentinel scene lightV colour
      _ 1 _ _ r (by omega) hr
    obtain ⟨n, hn1, hn2, hn3, hn4⟩ := first_none r.vertices 2 m hm1 hm3
    exact ⟨r, hr, n, hn1, by omega, hn3, hn4⟩
  · intro lights lights1 eye px n hn h0 h1 h
    exact EvaluatePathS1_beyond scene lights lights1 eye px n hn h0 h1 h
  · intro lights lights1 theEye theEye1 c n m hn hm h0 h1 h k0 k1 k
    exact EvaluatePathST_beyond scene lights lights1 theEye theEye1 c n m (by omega) hm
      h0 h1 h k0 k1 k

/-- C11 at the small scene (`K = 4`): the light walk leaves its first cleared
vertex at index `3`, and `EvaluatePathS1` writes the same slots for the array
of the walk and for the array with other fields stored in vertex `3`. -/
theorem C11_sentinel_witness :
    2 ≤ demoScene.kMaxRandomWalkDepth
    ∧ (demoLights 2).pGeometry ≠ none
    ∧ (demoLights 3).pGeometry = none
    ∧ (∃ r, BuildLightsPath demoScene demoLightsSeed demoSample = some r
        ∧ ∃ n, 2 ≤ n ∧ n ≤ demoScene.kMaxRandomWalkDepth + 1
          ∧ (∀ j, 2 ≤ j → j < n → (r.vertices j).pGeometry ≠ none)
          ∧ (r.vertices n).pGeometry = none)
    ∧ (EvaluatePathS1 demoScene demoLights (demoTheEye 1) demoPixels).pixels
        = (EvaluatePathS1 demoScene demoClearedLights (demoTheEye 1) demoPixels).pixels :=
  ⟨by decide, by decide!, by decide!,
    (C11_sentinel demoScene (by decide)).1 demoLightsSeed demoSample (by decide!),
    (C11_sentinel demoScene (by decide)).2.2.1 demoLights demoClearedLights (demoTheEye 1)
      demoPixels 3 (by decide) (by decide!) (by decide!)
      (fun i hi => (Vertices.set_ne demoLights 3 i _ (by omega)).symm)⟩

/-- C11 as stated fails twice in the small scene.  `BuildLightsPath` called
with light vertex `1` blank returns the array as it was, so with valid
vertices stored at every index `2..K+1` there is no `n` in that range whose
vertex is none.  And `EvaluatePathS1` reads the geometry reference of the
sentinel vertex: of two light arrays that differ only in the geometry
reference of vertex `3`, the one in which it is none leaves slot `2` as it was
and the other writes pixel index `10` into it. -/
theorem C11_counterexample :
    (demoStaleLights 1).pGeometry = none
    ∧ (BuildLightsPath demoScene demoStaleLights demoSample).map
        (fun r => decide (∀ n ∈ Finset.Icc 2 (demoScene.kMaxRandomWalkDepth + 1),
          (r.vertices n).pGeometry ≠ none)) = some true
    ∧ (demoClearedLights 2).pGeometry ≠ none
    ∧ (demoClearedLights 3).pGeometry = none
    ∧ (∀ i, i ≠ 3 → demoFilledLights i = demoClearedLights i)
    ∧ demoClearedLights 3 = { demoFilledLights 3 with pGeometry := none }
    ∧ (EvaluatePathS1 demoScene demoClearedLights (demoTheEye 1) demoPixels).pixels 2
        = (0, 0)
    ∧ ((EvaluatePathS1 demoScene demoFilledLights (demoTheEye 1) demoPixels).pixels 2).1
        = 10
    ∧ ((EvaluatePathS1 demoScene demoFilledLights (demoTheEye 1) demoPixels).pixels 2).2.X
        = 16464 / 520008115 := by
  refine ⟨by decide!, by decide!, by decide!, by decide!, ?_, ?_, by decide!, by decide!,
    by decide!⟩
  · intro i hi
    simp only [demoFilledLights, demoClearedLights, Vertices.set, if_neg hi]
  · simp only [demoFilledLights, demoClearedLights, Vertices.set_self]

/-! ## Which vertices and pairs the evaluators reach -/

/-- C14 (light-to-lens coverage), amended.  For every depth `K` and every
light array, each light vertex of index `s` with `2 <= s < K` that is valid
(no vertex of index `2..s` is none) and non-specular is considered by
`EvaluatePathS1`: slot `s - 1` holds on return the splat of the vertex when
the three cosines are strictly positive, the camera returns a film position
and the visibility ray returns the surface of the vertex, and its entry value
otherwise.  No slot of index `K - 1` or above is written, so a vertex that a
walk stopped by the depth cap stored at index `K` is not considered. -/
theorem C14_lens_coverage (scene : Scene) (lights : Vertices) (eye : PathVertex)
    (px : Pixels) :
    (∀ s, 2 ≤ s → s < scene.kMaxRandomWalkDepth → walked lights 2 s →
      scene.connectable (lights s) = true →
      (EvaluatePathS1 scene lights eye px).pixels (s - 1)
        = if 0 < -dot (s1Direction scene (lights s) eye) (lights s).vGeometricNormal
            ∧ 0 < -dot (s1Direction scene (lights s) eye) (lights s).vShadingNormal
            ∧ 0 < dot (s1Direction scene (lights s) eye) eye.vShadingNormal
            ∧ (scene.camera_.GetFilmPosition
                ((lights s).vPosition - eye.vPosition)).isSome = true
            ∧ (scene.FindIntersection eye.vPosition
                (s1Direction scene (lights s) eye)).1 = (lights s).pGeometry
          then s1Splat scene lights eye s
          else px (s - 1))
    ∧ (∀ s, scene.kMaxRandomWalkDepth ≤ s →
      (EvaluatePathS1 scene lights eye px).pixels (s - 1) = px (s - 1)) := by
  obtain ⟨q, e⟩ := EvaluatePathS1_slots scene lights eye px
  rw [e]
  simp only []
  constructor
  · intro s hs hK hw hc
    obtain ⟨k, rfl⟩ : ∃ k, s = k + 1 := ⟨s - 1, by omega⟩
    rw [Nat.add_sub_cancel]
    apply if_congr _ rfl rfl
    unfold s1Accepts
    constructor
    · intro h; exact h.2.2.2.2
    · intro h; exact ⟨hs, hK, hw, hc, h⟩
  · intro s hs
    rcases Nat.eq_zero_or_pos s with h0 | hpos
    · subst h0
      rw [if_neg (fun c => by omega)]
    · obtain ⟨k, rfl⟩ : ∃ k, s = k + 1 := ⟨s - 1, by omega⟩
      rw [Nat.add_sub_cancel, if_neg (fun c => by omega)]

/-- C14 at the small scene (`K = 4`): light vertex `2` is valid, non-specular
and passes every test, and slot `1` receives its splat. -/
theorem C14_lens_coverage_witness :
    2 < demoScene.kMaxRandomWalkDepth
    ∧ walked demoLights 2 2
    ∧ demoScene.connectable (demoLights 2) = true
    ∧ s1Accepts demoScene (demoLights 2) (demoTheEye 1)
    ∧ (EvaluatePathS1 demoScene demoLights (demoTheEye 1) demoPixels).pixels (2 - 1)
        = if 0 < -dot (s1Direction demoScene (demoLights 2) (demoTheEye 1))
                (demoLights 2).vGeometricNormal
            ∧ 0 < -dot (s1Direction demoScene (demoLights 2) (demoTheEye 1))
                (demoLights 2).vShadingNormal
            ∧ 0 < dot (s1Direction demoScene (demoLights 2) (demoTheEye 1))
                (demoTheEye 1).vShadingNormal
            ∧ (demoScene.camera_.GetFilmPosition
                ((demoLights 2).vPosition - (demoTheEye 1).vPosition)).isSome = true
            ∧ (demoScene.FindIntersection (demoTheEye 1).vPosition
                (s1Direction demoScene (demoLights 2) (demoTheEye 1))).1
                  = (demoLights 2).pGeometry
          then s1Splat demoScene demoLights (demoTheEye 1) 2
          else demoPixels (2 - 1) :=
  ⟨by decide, by decide!, by decide!, by decide!,
    (C14_lens_coverage demoScene demoLights (demoTheEye 1) demoPixels).1 2 (by decide)
      (by decide) (by decide!) (by decide!)⟩

/-- C14 as stated fails in the capped scene (`K = 3`).  The light walk is
stopped by the depth cap with vertex `3` stored and vertex `4` cleared, so
vertex `3` is the last valid vertex of the walk; it is non-specular and passes
the cosine, film-position and visibility tests, and its splat would carry pixel
index `10`.  `EvaluatePathS1` issues no visibility query and leaves slot `2`
as it was. -/
theorem C14_counterexample :
    3 ≤ capScene.kMaxRandomWalkDepth
    ∧ (BuildLightsPath capScene capLightsSeed demoSample).map (fun r => r.exit)
        = some WalkExit.depthCap
    ∧ walked capLights 2 3
    ∧ (capLights 4).pGeometry = none
    ∧ capScene.connectable (capLights 3) = true
    ∧ s1Accepts capScene (capLights 3) capLens
    ∧ (s1Splat capScene capLights capLens 3).1 = 10
    ∧ (EvaluatePathS1 capScene capLights capLens demoPixels).queries = []
    ∧ (EvaluatePathS1 capScene capLights capLens demoPixels).pixels (3 - 1)
        = demoPixels (3 - 1) :=
  ⟨by decide, by decide!, by decide!, by decide!, by decide!, by decide!, by decide!,
    by decide!, by decide!⟩

theorem Scene.connectable_present (scene : Scene) (v : PathVertex)
    (h : scene.connectable v = true) : v.pGeometry ≠ none := by
  intro hn
  unfold Scene.connectable at h
  rw [hn] at h
  exact Bool.noConfusion h

theorem mem_stPairs (K s t : Nat) :
    (s, t) ∈ stPairs K ↔ 2 ≤ t ∧ 1 ≤ s ∧ s + t - 1 < K := by
  unfold stPairs
  rw [Finset.mem_filter, Finset.mem_product, Finset.mem_range, Finset.mem_range]
  constructor
  · intro h; exact h.2
  · intro h
    refine ⟨⟨?_, ?_⟩, h⟩
    · show s < K + 1
      omega
    · show t < K + 1
      omega

/-- The double loop of `EvaluatePathST` ranges over the pairs of `stPairs`. -/
theorem sum_stPairs (K : Nat) (f : Nat × Nat → CIE_XYZ_Color) :
    ∑ t in Finset.Ico 2 K, ∑ s in Finset.Icc 1 (K - t), f (s, t)
      = ∑ p in stPairs K, f p := by
  symm
  apply Finset.sum_finset_product_right
  intro p
  obtain ⟨s, t⟩ := p
  rw [mem_stPairs, Finset.mem_Ico, Finset.mem_Icc]
  constructor
  · intro h; exact ⟨⟨h.1, by omega⟩, h.2.1, by omega⟩
  · intro h; exact ⟨h.1.1, h.2.1, by omega⟩

/-- C15 (pair range), amended.  When every vertex of both arrays is valid and
non-specular, `EvaluatePathST` attempts exactly the pairs of
`{(s, t) : t >= 2, s >= 1, s + t - 1 < K}`: the colour on return is the entry
colour plus, for each pair of that set and no other, the contribution of the
pair when its four cosines are strictly positive and the occlusion ray returns
the surface of the eye vertex, and nothing when one of these tests fails. -/
theorem C15_pair_range (scene : Scene) (lights theEye : Vertices) (c : CIE_XYZ_Color)
    (hl : ∀ i, scene.connectable (lights i) = true)
    (he : ∀ i, scene.connectable (theEye i) = true) :
    (∀ s t, (s, t) ∈ stPairs scene.kMaxRandomWalkDepth
      ↔ 2 ≤ t ∧ 1 ≤ s ∧ s + t - 1 < scene.kMaxRandomWalkDepth)
    ∧ (EvaluatePathST scene lights theEye c).colour
      = c + ∑ p in stPairs scene.kMaxRandomWalkDepth,
          if 0 < dot (stDirection scene (lights p.1) (theEye p.2)) (lights p.1).vGeometricNormal
              ∧ 0 < dot (stDirection scene (lights p.1) (theEye p.2))
                  (lights p.1).vShadingNormal
              ∧ 0 < -dot (stDirection scene (lights p.1) (theEye p.2))
                  (theEye p.2).vGeometricNormal
              ∧ 0 < -dot (stDirection scene (lights p.1) (theEye p.2))
                  (theEye p.2).vShadingNormal
              ∧ (scene.FindIntersection (lights p.1).vPosition
                  (stDirection scene (lights p.1) (theEye p.2))).1 = (theEye p.2).pGeometry
            then stContribution scene lights theEye p.1 p.2
            else 0 := by
  refine ⟨fun s t => mem_stPairs _ s t, ?_⟩
  obtain ⟨q, e⟩ := EvaluatePathST_sum scene lights theEye c
  rw [e]
  simp only []
  rw [← sum_stPairs]
  congr 1
  apply Finset.sum_congr rfl
  intro t _
  apply Finset.sum_congr rfl
  intro s _
  unfold stTerm stAccepts
  apply if_congr _ rfl rfl
  constructor
  · intro h; exact h.2.2.2.2
  · intro h
    exact ⟨fun j _ => Scene.connectable_present scene _ (he j),
      fun j _ => Scene.connectable_present scene _ (hl j), hl s, he t, h⟩

/-- C15 at the small scene (`K = 4`) with the light vertex stored at every
light index and the floor vertex at every eye index: the set holds the three
pairs `(1, 2)`, `(2, 2)` and `(1, 3)`. -/
theorem C15_pair_range_witness :
    stPairs demoScene.kMaxRandomWalkDepth = {(1, 2), (1, 3), (2, 2)}
    ∧ ((∀ s t, (s, t) ∈ stPairs demoScene.kMaxRandomWalkDepth
        ↔ 2 ≤ t ∧ 1 ≤ s ∧ s + t - 1 < demoScene.kMaxRandomWalkDepth)
      ∧ (EvaluatePathST demoScene demoAllLights demoAllTheEye 0).colour
        = 0 + ∑ p in stPairs demoScene.kMaxRandomWalkDepth,
            if 0 < dot (stDirection demoScene (demoAllLights p.1) (demoAllTheEye p.2))
                  (demoAllLights p.1).vGeometricNormal
                ∧ 0 < dot (stDirection demoScene (demoAllLights p.1) (demoAllTheEye p.2))
                    (demoAllLights p.1).vShadingNormal
                ∧ 0 < -dot (stDirection demoScene (demoAllLights p.1) (demoAllTheEye p.2))
                    (demoAllTheEye p.2).vGeometricNormal
                ∧ 0 < -dot (stDirection demoScene (demoAllLights p.1) (demoAllTheEye p.2))
                    (demoAllTheEye p.2).vShadingNormal
                ∧ (demoScene.FindIntersection (demoAllLights p.1).vPosition
                    (stDirection demoScene (demoAllLights p.1) (demoAllTheEye p.2))).1
                      = (demoAllTheEye p.2).pGeometry
              then stContribution demoScene demoAllLights demoAllTheEye p.1 p.2
              else 0) :=
  ⟨by decide,
    C15_pair_range demoScene demoAllLights demoAllTheEye 0
      (fun _ => (show demoScene.connectable (demoLights 1) = true by decide!))
      (fun _ => (show demoScene.connectable (demoTheEye 2) = true by decide!))⟩

/-- C15 as stated fails in the small scene (`K = 4`).  With the light vertex
stored at every light index and the floor vertex at every eye index, every
vertex is valid and non-specular and every pair passes the cosine and occlusion
tests.  The set of the claim, with `s + t - 1 <= K`, holds six pairs, among
them `(3, 2)`, whose contribution would not be zero; `EvaluatePathST` issues
three occlusion queries and returns the sum of the contributions of `(1, 2)`,
`(2, 2)` and `(1, 3)` alone. -/
theorem C15_counterexample :
    demoScene.connectable (demoLights 1) = true
    ∧ demoScene.connectable (demoTheEye 2) = true
    ∧ stAccepts demoScene (demoLights 1) (demoTheEye 2)
    ∧ stPairsUpTo demoScene.kMaxRandomWalkDepth
        = {(1, 2), (1, 3), (1, 4), (2, 2), (2, 3), (3, 2)}
    ∧ (EvaluatePathST demoScene demoAllLights demoAllTheEye 0).queries.length = 3
    ∧ (EvaluatePathST demoScene demoAllLights demoAllTheEye 0).colour
        = stContribution demoScene demoAllLights demoAllTheEye 1 2
          + stContribution demoScene demoAllLights demoAllTheEye 2 2
          + stContribution demoScene demoAllLights demoAllTheEye 1 3
    ∧ (stContribution demoScene demoAllLights demoAllTheEye 3 2).X
        = 882367500 / 121624453049 :=
  ⟨by decide!, by decide!, by decide!, by decide, by decide!, by decide!, by decide!⟩

/-! ## Index range of the four functions -/

end XYZRenderer
